import Mathlib

/-!
# RAID-5 simulator (`ex2.c`): address translation and fault-tolerant I/O

A shallow embedding of `ex2.c`.

* C `int` values are `Int`.  C's `/` and `%` truncate toward zero, so they are
  `Int.tdiv` and `Int.tmod`.  The address-translation arithmetic cannot leave the
  32-bit range for a device count `N ≥ 2` and a sector `0 ≤ S ≤ INT_MAX`, so it is
  written without wrap-around; the two products formed from an arbitrary
  `PhysicalLocation` (`physical_location_to_sector`, `physical_location_to_offset`)
  are reduced to 32 bits with `wrap32`.
* The global `g_num_dev` is the explicit first argument `N` of the pure functions
  and a field of `State` for the stateful ones.
* Stateful functions pass a `State` explicitly and return `Except Fault _`:
  a failed `assert` and an index outside the device table are faults.
* System calls are answered by an `Env` oracle, indexed by the number of system
  calls made so far, and every system call and every `printf` is appended to
  `State.trace`.
-/

namespace Raid5

/-! ## Constants -/

def SECTORS_PER_BLOCK : Int := 4

def SECTOR_SIZE : Int := 4 * 1024

def IO_SIZE : Int := SECTOR_SIZE

def INVALID_DEVICE : Int := -1

def INT_MAX : Int := 2147483647

/-- Reduction of a mathematical integer to the value a 32-bit two's-complement
`int` holds after the operation wrapped around. -/
def wrap32 (x : Int) : Int := (x + 2147483648) % 4294967296 - 2147483648

/-! ## Address translation -/

structure PhysicalLocation where
  device_index : Int
  stripe_number : Int
  place_in_block : Int
  is_parity : Bool
  deriving DecidableEq, Repr

def get_logical_sector_stripe (N : Int) (logical_sector : Int) : Int :=
  Int.tdiv (Int.tdiv logical_sector (N - 1)) SECTORS_PER_BLOCK

def get_parity_index_in_stripe (N : Int) (logical_stripe : Int) : Int :=
  N - 1 - Int.tmod logical_stripe N

def get_sector_index_in_stripe (N : Int) (logical_sector : Int) (parity_in_stripe : Int) : Int :=
  let logical_sector := Int.tdiv logical_sector SECTORS_PER_BLOCK
  let index_in_logical_stripe := Int.tmod logical_sector (N - 1)
  let device_index := index_in_logical_stripe
  if index_in_logical_stripe ≥ parity_in_stripe then device_index + 1 else device_index

def get_physical_sector (N : Int) (logical_sector : Int) : PhysicalLocation :=
  let logical_stripe := get_logical_sector_stripe N logical_sector
  let parity_in_stripe := get_parity_index_in_stripe N logical_stripe
  let device_index := get_sector_index_in_stripe N logical_sector parity_in_stripe
  { device_index := device_index
    stripe_number := logical_stripe
    place_in_block := Int.tmod logical_sector SECTORS_PER_BLOCK
    is_parity := false }

def get_relevant_parity_sector (N : Int) (desired_write_sector : PhysicalLocation) :
    PhysicalLocation :=
  let parity_in_stripe := get_parity_index_in_stripe N desired_write_sector.stripe_number
  { device_index := parity_in_stripe
    stripe_number := desired_write_sector.stripe_number
    place_in_block := desired_write_sector.place_in_block
    is_parity := true }

/-- The body of the `for` loop of `get_backup_sectors`: `remaining` is the number of
iterations still to run (`g_num_dev - 1 - i`), `current_device` the loop variable of
that name on entry to the iteration; the result lists `backup_data[i], ...` in order. -/
def get_backup_sectors_loop (bad_sector : PhysicalLocation) (parity_in_stripe : Int) :
    Nat → Int → List PhysicalLocation
  | 0, _ => []
  | remaining + 1, current_device =>
    let current_device :=
      if current_device = bad_sector.device_index then current_device + 1 else current_device
    { device_index := current_device
      stripe_number := bad_sector.stripe_number
      place_in_block := bad_sector.place_in_block
      is_parity := decide (parity_in_stripe = current_device) }
      :: get_backup_sectors_loop bad_sector parity_in_stripe remaining (current_device + 1)

/-- The array `backup_data[0 .. g_num_dev - 2]` as filled by `get_backup_sectors`. -/
def get_backup_sectors (N : Int) (bad_sector : PhysicalLocation) : List PhysicalLocation :=
  let parity_in_stripe := get_parity_index_in_stripe N bad_sector.stripe_number
  get_backup_sectors_loop bad_sector parity_in_stripe (N - 1).toNat 0

def physical_location_to_sector (location : PhysicalLocation) : Int :=
  wrap32 (wrap32 (location.stripe_number * SECTORS_PER_BLOCK) + location.place_in_block)

def physical_location_to_offset (location : PhysicalLocation) : Int :=
  wrap32 (physical_location_to_sector location * SECTOR_SIZE)

/-! ## Device table, environment and trace -/

inductive Fault where
  | assertion_failed
  | out_of_bounds
  deriving DecidableEq, Repr

/-- The `io_func` passed to `io_operation`: `read` or `write`. -/
inductive IoKind where
  | Read
  | Write
  deriving DecidableEq, Repr

/-- System calls with their arguments and results, and the lines printed.  The path
strings and `strerror(errno)` texts of the diagnostics are not recorded. -/
inductive Event where
  | sys_open (device_index : Int) (result : Int)
  | sys_close (fd : Int)
  | sys_lseek (fd : Int) (offset : Int) (result : Int)
  | sys_transfer (kind : IoKind) (fd : Int) (result : Int)
  | print_operated (device_index : Int) (sector : Int)
  | print_bad (device_index : Int)
  | print_seek_failed (device_index : Int)
  | print_transfer_failed (kind : IoKind) (device_index : Int)
  | print_open_failed (device_index : Int)
  deriving DecidableEq, Repr

/-- Results of the system calls; the first argument is the number of system calls
made before this one. -/
structure Env where
  open_result : Nat → Int → Int
  lseek_result : Nat → Int → Int → Int
  transfer_result : Nat → IoKind → Int → Int

structure State where
  g_num_dev : Int
  g_dev_status : List Int
  g_last_bad_device : Int
  clock : Nat
  trace : List Event
  deriving DecidableEq, Repr

/-- Appends a printed line to the trace. -/
def log (e : Event) (st : State) : State :=
  { st with trace := st.trace ++ [e] }

/-- Appends a system call to the trace and counts it. -/
def syscall (e : Event) (st : State) : State :=
  { st with trace := st.trace ++ [e], clock := st.clock + 1 }

/-- Reading `g_dev_status[i]`. -/
def dev_status_get (st : State) (i : Int) : Except Fault Int :=
  if 0 ≤ i ∧ i < st.g_dev_status.length then
    .ok (st.g_dev_status.getD i.toNat INVALID_DEVICE)
  else .error .out_of_bounds

/-- Writing `g_dev_status[i] = v`. -/
def dev_status_set (st : State) (i : Int) (v : Int) : Except Fault State :=
  if 0 ≤ i ∧ i < st.g_dev_status.length then
    .ok { st with g_dev_status := st.g_dev_status.set i.toNat v }
  else .error .out_of_bounds

def close_device (st : State) (device_index : Int) : Except Fault State :=
  if device_index ≥ 0 ∧ device_index < st.g_num_dev then
    match dev_status_get st device_index with
    | .error e => .error e
    | .ok fd =>
      if INVALID_DEVICE ≠ fd then
        dev_status_set (syscall (.sys_close fd) st) device_index INVALID_DEVICE
      else .ok st
  else .error .assertion_failed

def print_operated_on_device (st : State) (real_sector : PhysicalLocation) : State :=
  log (.print_operated real_sector.device_index (physical_location_to_sector real_sector)) st

def print_bad_operation_on_device (st : State) : State :=
  log (.print_bad st.g_last_bad_device) st

/-! ## Sector transport -/

def io_operation (env : Env) (st : State) (io_position : PhysicalLocation)
    (operation : IoKind) : Except Fault (Bool × State) :=
  let dev_num := io_position.device_index
  match dev_status_get st dev_num with
  | .error e => .error e
  | .ok fd =>
    if fd < 0 then
      .ok (false, { st with g_last_bad_device := dev_num })
    else
      let offset_in_device := physical_location_to_offset io_position
      let resulting_offset := env.lseek_result st.clock fd offset_in_device
      let st := syscall (.sys_lseek fd offset_in_device resulting_offset) st
      if resulting_offset ≠ offset_in_device then
        let st := log (.print_seek_failed dev_num) st
        let st := { st with g_last_bad_device := dev_num }
        match close_device st io_position.device_index with
        | .error e => .error e
        | .ok st => .ok (false, st)
      else
        let result := env.transfer_result st.clock operation fd
        let st := syscall (.sys_transfer operation fd result) st
        if result ≠ IO_SIZE then
          let st := log (.print_transfer_failed operation dev_num) st
          let st := { st with g_last_bad_device := dev_num }
          match close_device st io_position.device_index with
          | .error e => .error e
          | .ok st => .ok (false, st)
        else
          .ok (true, print_operated_on_device st io_position)

def read_physical (env : Env) (st : State) (to_read : PhysicalLocation) :
    Except Fault (Bool × State) :=
  io_operation env st to_read .Read

def write_physical (env : Env) (st : State) (to_write : PhysicalLocation) :
    Except Fault (Bool × State) :=
  io_operation env st to_write .Write

/-! ## Fault-tolerant read and write -/

/-- The `for` loop of `read_backup` over `backup_locations[i], ...`. -/
def read_backup_loop (env : Env) : State → List PhysicalLocation → Except Fault (Bool × State)
  | st, [] => .ok (true, st)
  | st, loc :: rest =>
    match read_physical env st loc with
    | .error e => .error e
    | .ok (read_ok, st) =>
      if !read_ok then .ok (false, st) else read_backup_loop env st rest

def read_backup (env : Env) (st : State) (sector_to_read : PhysicalLocation) :
    Except Fault (Bool × State) :=
  let backup_locations := get_backup_sectors st.g_num_dev sector_to_read
  read_backup_loop env st backup_locations

def read_operation (env : Env) (st : State) (sector : Int) : Except Fault State :=
  let real_sector := get_physical_sector st.g_num_dev sector
  match read_physical env st real_sector with
  | .error e => .error e
  | .ok (read_ok, st) =>
    match (if !read_ok then read_backup env st real_sector else .ok (read_ok, st)) with
    | .error e => .error e
    | .ok (read_ok, st) =>
      if !read_ok then .ok (print_bad_operation_on_device st) else .ok st

def standard_write (env : Env) (st : State) (real_sector parity_sector : PhysicalLocation) :
    Except Fault (Bool × State) :=
  match dev_status_get st parity_sector.device_index with
  | .error e => .error e
  | .ok parity_status =>
    if INVALID_DEVICE ≠ parity_status then
      if real_sector.device_index ≠ parity_sector.device_index then
        let lower_index :=
          if real_sector.device_index < parity_sector.device_index then real_sector
          else parity_sector
        let higher_index :=
          if real_sector.device_index > parity_sector.device_index then real_sector
          else parity_sector
        match read_physical env st lower_index with
        | .error e => .error e
        | .ok (io_result, st) =>
          if !io_result then .ok (false, st) else
          match write_physical env st lower_index with
          | .error e => .error e
          | .ok (io_result, st) =>
            if !io_result then .ok (false, st) else
            match read_physical env st higher_index with
            | .error e => .error e
            | .ok (io_result, st) =>
              if !io_result then .ok (false, st) else
              match write_physical env st higher_index with
              | .error e => .error e
              | .ok (io_result, st) =>
                if !io_result then .ok (false, st) else .ok (true, st)
      else .error .assertion_failed
    else write_physical env st real_sector

/-- The `for` loop of `error_state_write` over `backup_locations[i], ...`. -/
def error_state_write_loop (env : Env) :
    State → List PhysicalLocation → Except Fault (Bool × State)
  | st, [] => .ok (true, st)
  | st, loc :: rest =>
    match (if loc.is_parity then write_physical env st loc else read_physical env st loc) with
    | .error e => .error e
    | .ok (io_ok, st) =>
      if !io_ok then .ok (false, st) else error_state_write_loop env st rest

def error_state_write (env : Env) (st : State) (real_sector : PhysicalLocation) :
    Except Fault (Bool × State) :=
  let backup_locations := get_backup_sectors st.g_num_dev real_sector
  error_state_write_loop env st backup_locations

def write_operation (env : Env) (st : State) (sector : Int) : Except Fault State :=
  let real_sector := get_physical_sector st.g_num_dev sector
  let parity_sector := get_relevant_parity_sector st.g_num_dev real_sector
  match dev_status_get st real_sector.device_index with
  | .error e => .error e
  | .ok target_status =>
    match (if INVALID_DEVICE ≠ target_status then standard_write env st real_sector parity_sector
           else .ok (false, st)) with
    | .error e => .error e
    | .ok (write_succeeded, st) =>
      match (if !write_succeeded then error_state_write env st real_sector
             else .ok (write_succeeded, st)) with
      | .error e => .error e
      | .ok (write_succeeded, st) =>
        if !write_succeeded then .ok (print_bad_operation_on_device st) else .ok st

/-! ## Repair -/

def open_device (env : Env) (st : State) (device_index : Int) : Except Fault State :=
  if device_index ≤ st.g_num_dev ∧ device_index ≥ 0 then
    let fd := env.open_result st.clock device_index
    match dev_status_set (syscall (.sys_open device_index fd) st) device_index fd with
    | .error e => .error e
    | .ok st =>
      match dev_status_get st device_index with
      | .error e => .error e
      | .ok status =>
        if INVALID_DEVICE = status then .ok (log (.print_open_failed device_index) st)
        else .ok st
  else .error .assertion_failed

def repair_device (env : Env) (st : State) (device_index : Int) : Except Fault State :=
  if device_index ≤ st.g_num_dev ∧ device_index ≥ 0 then
    match dev_status_get st device_index with
    | .error e => .error e
    | .ok old_device =>
      match open_device env st device_index with
      | .error e => .error e
      | .ok st =>
        match dev_status_get st device_index with
        | .error e => .error e
        | .ok status =>
          -- the source's `g_dev_status[device_index] == old_device;` is a comparison
          -- whose value is discarded
          if INVALID_DEVICE = status then .ok st
          else .ok (syscall (.sys_close old_device) st)
  else .error .assertion_failed

/-! ## Command dispatch -/

/-- The names in the table `functions[]` of `main`. -/
inductive Command where
  | READ
  | WRITE
  | REPAIR
  | KILL
  deriving DecidableEq, Repr

/-- The call `functions[i].func(command_param)` made by `main` for a recognised name. -/
def run_command (env : Env) (st : State) (op : Command) (command_param : Int) :
    Except Fault State :=
  match op with
  | .READ => read_operation env st command_param
  | .WRITE => write_operation env st command_param
  | .REPAIR => repair_device env st command_param
  | .KILL => close_device st command_param

/-! ## Vocabulary of the properties -/

/-- The table has one slot per device, as allocated in `main`. -/
def State.wf (st : State) : Prop :=
  2 ≤ st.g_num_dev ∧ (st.g_dev_status.length : Int) = st.g_num_dev

/-- Device `i` is Open: its slot holds a handle. -/
def State.is_open (st : State) (i : Int) : Prop :=
  0 ≤ i ∧ i < st.g_dev_status.length ∧ 0 ≤ st.g_dev_status.getD i.toNat INVALID_DEVICE

/-- Device `i` is Failed: its slot holds `INVALID_DEVICE`. -/
def State.is_failed (st : State) (i : Int) : Prop :=
  0 ≤ i ∧ i < st.g_dev_status.length ∧
    st.g_dev_status.getD i.toNat INVALID_DEVICE = INVALID_DEVICE

/-- The line printed by `print_bad_operation_on_device`. -/
def Event.is_bad_report : Event → Bool
  | .print_bad _ => true
  | _ => false

/-- Number of bad-device lines printed so far. -/
def bad_reports (t : List Event) : Nat := t.countP Event.is_bad_report

/-- The operation that led from `st` to `st'` reported overall failure: it printed
one bad-device line. -/
def reports_failure (st st' : State) : Prop :=
  bad_reports st'.trace = bad_reports st.trace + 1

/-- What a sector transfer on handle `fd` of device `dev` appends to the trace when the
seek to `offset` and the transfer both succeed: the two system calls and the line
reporting the device and its on-device sector. -/
def io_success_events (kind : IoKind) (fd dev offset sector : Int) : List Event :=
  [.sys_lseek fd offset offset, .sys_transfer kind fd IO_SIZE, .print_operated dev sector]

/-- State after a successful sector transfer: two system calls, three trace entries,
device table and last bad device untouched. -/
def io_success_state (st : State) (kind : IoKind) (fd : Int) (loc : PhysicalLocation) : State :=
  { st with
    clock := st.clock + 2
    trace := st.trace ++ io_success_events kind fd loc.device_index
      (physical_location_to_offset loc) (physical_location_to_sector loc) }

/-- Handle stored in slot `i` of the device table. -/
def State.handle (st : State) (i : Int) : Int :=
  st.g_dev_status.getD i.toNat INVALID_DEVICE

/-- Reading the locations `locs` one after the other from state `s` succeeds every
time and ends in state `s'`. -/
def reads_ok (env : Env) : State → List PhysicalLocation → State → Prop
  | s, [], s' => s' = s
  | s, loc :: rest, s' =>
    ∃ s1, read_physical env s loc = .ok (true, s1) ∧ reads_ok env s1 rest s'

/-- State `s` is reached from `st` without changing the table size or the number of
devices and without printing a bad-device line. -/
def frame_kept (st s : State) : Prop :=
  s.wf ∧ s.g_num_dev = st.g_num_dev ∧ bad_reports s.trace = bad_reports st.trace

/-- State after a sector transfer on device `d` that failed in the seek or in the
transfer: the slot is marked Failed, `d` is the last bad device, `ticks` system calls
were made and `events` were appended to the trace. -/
def io_closed_state (st : State) (d : Int) (ticks : Nat) (events : List Event) : State :=
  { st with
    g_dev_status := st.g_dev_status.set d.toNat INVALID_DEVICE
    g_last_bad_device := d
    clock := st.clock + ticks
    trace := st.trace ++ events }

/-- State after `open_device` stored the result `fd` of `open` in slot `i`, before any
diagnostic is printed. -/
def reopened_state (st : State) (i fd : Int) : State :=
  { st with
    g_dev_status := st.g_dev_status.set i.toNat fd
    clock := st.clock + 1
    trace := st.trace ++ [Event.sys_open i fd] }

/-- Every slot holds what `open` returns: a handle `≥ 0` or `INVALID_DEVICE`. -/
def State.handles_valid (st : State) : Prop :=
  ∀ x ∈ st.g_dev_status, INVALID_DEVICE ≤ x

/-- Performing the sector transfers `ops` one after the other, stopping at the first one
that fails: the flag tells whether all succeeded. -/
def run_transfers (env : Env) :
    State → List (IoKind × PhysicalLocation) → Except Fault (Bool × State)
  | st, [] => .ok (true, st)
  | st, (kind, loc) :: rest =>
    match io_operation env st loc kind with
    | .error e => .error e
    | .ok (io_ok, st) => if !io_ok then .ok (false, st) else run_transfers env st rest

/-- A sequence of sector transfers as it happened: from `s` the calls of `calls` (kind,
location, returned flag) were made one after the other and left the state `s'`. -/
def io_run (env : Env) : State → List (IoKind × PhysicalLocation × Bool) → State → Prop
  | s, [], s' => s' = s
  | s, (kind, loc, io_ok) :: rest, s' =>
    ∃ s1, io_operation env s loc kind = .ok (io_ok, s1) ∧ io_run env s1 rest s'

/-- The transfers `ops`, each with the flag of a success. -/
def all_succeed (ops : List (IoKind × PhysicalLocation)) :
    List (IoKind × PhysicalLocation × Bool) :=
  ops.map (fun op => (op.1, op.2, true))

/-- The transfers of the degraded write of `loc`: the backup set in order, a write for
the entry flagged as parity and a read for every other entry. -/
def degraded_write_ops (N : Int) (loc : PhysicalLocation) : List (IoKind × PhysicalLocation) :=
  (get_backup_sectors N loc).map
    (fun e => (if e.is_parity then IoKind.Write else IoKind.Read, e))

/-- The four transfers of the standard write on the locations `lo` and `hi`. -/
def standard_write_ops (lo hi : PhysicalLocation) : List (IoKind × PhysicalLocation) :=
  [(IoKind.Read, lo), (IoKind.Write, lo), (IoKind.Read, hi), (IoKind.Write, hi)]

/-- The location `lower_index` points to in `standard_write`. -/
def lower_index (real_sector parity_sector : PhysicalLocation) : PhysicalLocation :=
  if real_sector.device_index < parity_sector.device_index then real_sector else parity_sector

/-- The location `higher_index` points to in `standard_write`. -/
def higher_index (real_sector parity_sector : PhysicalLocation) : PhysicalLocation :=
  if real_sector.device_index > parity_sector.device_index then real_sector else parity_sector

/-- The parameter of a command is one the device array can serve: a sector `≥ 0` for
`READ` and `WRITE`, a device index in `0..N-1` for `KILL` and `REPAIR`. -/
def param_in_range (st : State) (op : Command) (command_param : Int) : Prop :=
  match op with
  | .READ => 0 ≤ command_param
  | .WRITE => 0 ≤ command_param
  | .REPAIR => 0 ≤ command_param ∧ command_param < st.g_num_dev
  | .KILL => 0 ≤ command_param ∧ command_param < st.g_num_dev

/-! ## Concrete configurations -/

/-- An environment in which every system call succeeds: `open` returns a handle not
yet in use (`10 +` the number of system calls made), a seek lands on the requested
offset, a transfer moves a full sector. -/
def healthy_env : Env where
  open_result := fun clock _ => 10 + clock
  lseek_result := fun _ _ offset => offset
  transfer_result := fun _ _ _ => IO_SIZE

/-- An environment in which every seek fails and every transfer is short. -/
def broken_env : Env where
  open_result := fun _ _ => -1
  lseek_result := fun _ _ _ => -1
  transfer_result := fun _ _ _ => 0

/-- Four devices, all Open, nothing printed yet. -/
def four_devices : State where
  g_num_dev := 4
  g_dev_status := [3, 4, 5, 6]
  g_last_bad_device := 0
  clock := 4
  trace := []

/-- Four devices after `KILL 0`. -/
def four_devices_killed_0 : State where
  g_num_dev := 4
  g_dev_status := [-1, 4, 5, 6]
  g_last_bad_device := 0
  clock := 5
  trace := []

/-- Four devices after `KILL 3`. -/
def four_devices_killed_3 : State where
  g_num_dev := 4
  g_dev_status := [3, 4, 5, -1]
  g_last_bad_device := 0
  clock := 5
  trace := []

/-- An environment in which every seek on handle `3` fails and every other call
succeeds. -/
def handle_3_broken_env : Env where
  open_result := fun clock _ => 10 + clock
  lseek_result := fun _ fd offset => if fd = 3 then -1 else offset
  transfer_result := fun _ _ _ => IO_SIZE

example : get_physical_sector 4 0 = ⟨0, 0, 0, false⟩ := by decide
example : get_physical_sector 4 13 = ⟨0, 1, 1, false⟩ := by decide
example : (get_backup_sectors 4 ⟨0, 0, 0, false⟩).map (fun l => l.device_index) = [1, 2, 3] := by
  decide

/-- Scenario `READ 0` on four healthy devices: one read on device 0, sector 0. -/
example : read_operation healthy_env four_devices 0 = .ok
    { four_devices with
      clock := 6
      trace := [.sys_lseek 3 0 0, .sys_transfer .Read 3 4096, .print_operated 0 0] } := rfl

/-- Scenario `WRITE 36` on four healthy devices: stripe 3 has its parity on device 0, the data on
device 1; device 0 is read and written first. -/
example : write_operation healthy_env four_devices 36 = .ok
    { four_devices with
      clock := 12
      trace := [.sys_lseek 3 49152 49152, .sys_transfer .Read 3 4096, .print_operated 0 12,
        .sys_lseek 3 49152 49152, .sys_transfer .Write 3 4096, .print_operated 0 12,
        .sys_lseek 4 49152 49152, .sys_transfer .Read 4 4096, .print_operated 1 12,
        .sys_lseek 4 49152 49152, .sys_transfer .Write 4 4096, .print_operated 1 12] } := rfl

end Raid5

/-!
# Game of life (`gol.c`, `gol2.c`)

* A matrix (`Cell**`) is the map from a row and a column to the cell stored there; a
  cell is an `unsigned char`, so sums of cells are reduced modulo 256.
* `update_matrix` of `gol.c` returns the elapsed time; only its effect on the two
  matrices is embedded.
* In `gol2.c` the tasks not yet processed (those in the queue and those a worker holds)
  are the list `pending`; a step of a worker processes one of them, chosen by a
  schedule, so every order in which the workers finish their tasks is covered.  Each
  call of `process_task` is one step.
* The main thread of `gol2.c` is embedded from the point where `update_matrix` has queued
  the initial task: it calls `pthread_cond_wait` on `g_finishedProcessing`, stays blocked
  until it is woken, then swaps the matrices and returns.  A schedule interleaves its
  steps with those of the workers.  `pthread_cond_signal` wakes a thread that is blocked
  in the wait and has no effect otherwise; `pthread_cond_wait` may also return without a
  signal (a spurious wakeup).  The queue lock `g_queueLock` and `g_hasTasks` are not
  embedded.
-/

namespace Gol

/-- The type `Matrix`: the cell in row `i`, column `j`. -/
abbrev Matrix := Int → Int → Nat

def DEAD : Nat := 0

def ALIVE : Nat := 1

def MAX_SURROUNDING_CELLS : Nat := 3

def MINIMUM_SURROUNDING_CELLS : Nat := 2

def MAKE_ALIVE_THRESHOLD : Nat := 3

inductive Fault where
  | assertion_failed
  deriving DecidableEq, Repr

structure State where
  g_matrix : Matrix
  g_workspace_matrix : Matrix
  g_matrix_size : Int

/-- The body of the inner loop of `update_cell` for one pair of offsets, applied to the
running value of `living_neighbours`. -/
def count_neighbour (g_matrix : Matrix) (g_matrix_size : Int) (i j : Int)
    (living_neighbours : Nat) (i_offset j_offset : Int) : Nat :=
  if 0 = i_offset ∧ 0 = j_offset then living_neighbours
  else
    let current_i := i + i_offset
    let current_j := j + j_offset
    if current_i ≥ 0 ∧ current_i < g_matrix_size ∧ current_j ≥ 0 ∧ current_j < g_matrix_size
    then (living_neighbours + g_matrix current_i current_j) % 256
    else living_neighbours

/-- The value of `living_neighbours` after the two loops of `update_cell`. -/
def living_neighbours (g_matrix : Matrix) (g_matrix_size : Int) (i j : Int) : Nat :=
  [-1, 0, 1].foldl
    (fun acc i_offset =>
      [-1, 0, 1].foldl
        (fun acc j_offset => count_neighbour g_matrix g_matrix_size i j acc i_offset j_offset)
        acc)
    0

/-- The value `update_cell` stores in `g_workspace_matrix[i][j]`. -/
def next_cell (g_matrix : Matrix) (g_matrix_size : Int) (i j : Int) : Nat :=
  let living_neighbours := living_neighbours g_matrix g_matrix_size i j
  if g_matrix i j ≠ 0 then
    if living_neighbours < MINIMUM_SURROUNDING_CELLS ∨ living_neighbours > MAX_SURROUNDING_CELLS
    then DEAD
    else ALIVE
  else
    if living_neighbours = MAKE_ALIVE_THRESHOLD then ALIVE else DEAD

def update_cell (st : State) (i j : Int) : State :=
  { st with
    g_workspace_matrix := fun a b =>
      if a = i ∧ b = j then next_cell st.g_matrix st.g_matrix_size i j
      else st.g_workspace_matrix a b }

/-- The inner loop of `update_matrix` over `j`, with `remaining` iterations to run. -/
def update_matrix_row (i : Int) : Nat → Int → State → State
  | 0, _, st => st
  | remaining + 1, j, st => update_matrix_row i remaining (j + 1) (update_cell st i j)

/-- The outer loop of `update_matrix` over `i`, with `remaining` iterations to run. -/
def update_matrix_rows : Nat → Int → State → State
  | 0, _, st => st
  | remaining + 1, i, st =>
    update_matrix_rows remaining (i + 1) (update_matrix_row i st.g_matrix_size.toNat 0 st)

def update_matrix (st : State) : State :=
  let st := update_matrix_rows st.g_matrix_size.toNat 0 st
  { st with g_matrix := st.g_workspace_matrix, g_workspace_matrix := st.g_matrix }

def NUMBER_OF_BITS_IN_SIZE : Int := 4 * 8

/-- The value of `1 << b` for `0 ≤ b < 31`. -/
def shift_one (b : Int) : Int := 2 ^ b.toNat

/-- The loop of `get_row_size`, with `remaining` iterations to run; when it ends without
a match the function reaches `assert(0)`. -/
def get_row_size_loop (matrix_size : Int) : Nat → Int → Except Fault Int
  | 0, _ => .error .assertion_failed
  | remaining + 1, bit_count =>
    let current_size_estimate := shift_one bit_count
    if current_size_estimate = matrix_size then .ok (shift_one (Int.tdiv bit_count 2))
    else get_row_size_loop matrix_size remaining (bit_count + 2)

/-- The function `get_row_size`: the loop runs for `bit_count = 2, 4, ..., 30`. -/
def get_row_size (matrix_size : Int) : Except Fault Int :=
  get_row_size_loop matrix_size (Int.tdiv (NUMBER_OF_BITS_IN_SIZE - 2 + 1) 2).toNat 2

/-- The up-to-8 cells adjacent to `(i, j)`. -/
def adjacent (i j : Int) : List (Int × Int) :=
  [(i - 1, j - 1), (i - 1, j), (i - 1, j + 1), (i, j - 1), (i, j + 1),
   (i + 1, j - 1), (i + 1, j), (i + 1, j + 1)]

/-- Number of adjacent cells that lie inside the `n × n` grid and are alive in `m`. -/
def live_neighbours (m : Matrix) (n : Int) (i j : Int) : Nat :=
  (adjacent i j).countP
    (fun c => decide (0 ≤ c.1 ∧ c.1 < n ∧ 0 ≤ c.2 ∧ c.2 < n ∧ m c.1 c.2 = ALIVE))

/-- The cell `(a, b)` of `m` when it lies inside the `n × n` grid, and 0 otherwise. -/
def cell_in_grid (m : Matrix) (n : Int) (a b : Int) : Nat :=
  if a ≥ 0 ∧ a < n ∧ b ≥ 0 ∧ b < n then m a b else 0

/-- All cells of the `n × n` grid of `m` are `DEAD` or `ALIVE`. -/
def binary (m : Matrix) (n : Int) : Prop :=
  ∀ i j, 0 ≤ i → i < n → 0 ≤ j → j < n → m i j = DEAD ∨ m i j = ALIVE

/-- A matrix given by its rows. -/
def of_rows (rows : List (List Nat)) : Matrix :=
  fun i j => (rows.getD i.toNat []).getD j.toNat 0

/-- A 4 × 4 grid with a vertical blinker in column 1. -/
def blinker : State where
  g_matrix := of_rows [[0, 1, 0, 0], [0, 1, 0, 0], [0, 1, 0, 0], [0, 0, 0, 0]]
  g_workspace_matrix := fun _ _ => 0
  g_matrix_size := 4

/-- A 2 × 2 grid with three live cells. -/
def corner : State where
  g_matrix := of_rows [[1, 1], [1, 0]]
  g_workspace_matrix := fun _ _ => 0
  g_matrix_size := 2

end Gol

namespace Gol2

structure Task where
  x : Int
  y : Int
  dx : Int
  dy : Int
  deriving DecidableEq, Repr

/-- Where the main thread stands in `update_matrix` once the initial task is queued:
before its call of `pthread_cond_wait`, blocked in it, woken from it, or back from
`update_matrix` with the matrices swapped. -/
inductive MainThread where
  | before_wait
  | waiting
  | woken
  | returned
  deriving DecidableEq, Repr

/-- What the schedule lets happen next: a step of the main thread, a worker processing
the pending task of the given index, or a wakeup of `pthread_cond_wait` without a
signal. -/
inductive Action where
  | main
  | worker (k : Nat)
  | spurious_wakeup
  deriving DecidableEq, Repr

structure State where
  g_matrix : Gol.Matrix
  g_workspace_matrix : Gol.Matrix
  g_matrix_size : Int
  g_matrix_size_square : Int
  g_cellsUpdated : Int
  pending : List Task
  finished_signals : Nat
  cells_updated : List (Int × Int)
  main_thread : MainThread

/-- The function `update_cell` of `gol2.c`, the same text as in `gol.c`; the call is
recorded in `cells_updated`. -/
def update_cell (st : State) (i j : Int) : State :=
  { st with
    g_workspace_matrix := fun a b =>
      if a = i ∧ b = j then Gol.next_cell st.g_matrix st.g_matrix_size i j
      else st.g_workspace_matrix a b
    cells_updated := st.cells_updated ++ [(i, j)] }

def create_task (x y dx dy : Int) : Task :=
  { x := x, y := y, dx := dx, dy := dy }

/-- Appending a chain of tasks to the tasks not yet processed. -/
def enque_task (st : State) (tasks : List Task) : State :=
  { st with pending := st.pending ++ tasks }

/-- The call `pthread_cond_signal(&g_finishedProcessing)`, made without holding
`g_finishedLock`: the main thread is woken when it is blocked in `pthread_cond_wait`,
otherwise nothing happens. -/
def signal_finished (st : State) : State :=
  { st with
    finished_signals := st.finished_signals + 1
    main_thread := if st.main_thread = .waiting then .woken else st.main_thread }

def process_task (st : State) (task : Task) : State :=
  if task.dx = 1 ∧ task.dy = 1 then
    let st := update_cell st task.x task.y
    let current_count := st.g_cellsUpdated + 1
    let st := { st with g_cellsUpdated := current_count }
    if current_count = st.g_matrix_size_square then signal_finished st else st
  else
    let xDelta := Int.tdiv task.dx 2
    let yDelta := Int.tdiv task.dy 2
    let topLeft := create_task task.x task.y (Int.tdiv task.dx 2) (Int.tdiv task.dy 2)
    let bottomLeft :=
      create_task (task.x + xDelta) task.y (Int.tdiv task.dx 2) (Int.tdiv task.dy 2)
    let topRight :=
      create_task task.x (task.y + yDelta) (Int.tdiv task.dx 2) (Int.tdiv task.dy 2)
    let bottomRight :=
      create_task (task.x + xDelta) (task.y + yDelta) (Int.tdiv task.dx 2)
        (Int.tdiv task.dy 2)
    enque_task st [topLeft, bottomLeft, topRight, bottomRight]

/-- One step of a worker (`queue_worker_logic`): the pending task of index `k` (modulo
the number of pending tasks) is taken and processed; with nothing pending the workers
wait. -/
def worker_step (k : Nat) (st : State) : State :=
  match st.pending[k % st.pending.length]? with
  | none => st
  | some task =>
    process_task
      { st with
        pending := st.pending.take (k % st.pending.length)
          ++ st.pending.drop (k % st.pending.length + 1) }
      task

/-- One step of the main thread in `update_matrix` after the initial task is queued: it
calls `pthread_cond_wait`; blocked there it does nothing; once woken it swaps the two
matrices and returns. -/
def main_step (st : State) : State :=
  match st.main_thread with
  | .before_wait => { st with main_thread := .waiting }
  | .waiting => st
  | .woken =>
    { st with
      g_matrix := st.g_workspace_matrix
      g_workspace_matrix := st.g_matrix
      main_thread := .returned }
  | .returned => st

/-- A return of `pthread_cond_wait` without a signal. -/
def spurious_wakeup (st : State) : State :=
  if st.main_thread = .waiting then { st with main_thread := .woken } else st

/-- One step of the program during a call of `update_matrix`; nothing is followed once
the call has returned. -/
def step (a : Action) (st : State) : State :=
  if st.main_thread = .returned then st
  else
    match a with
    | .main => main_step st
    | .worker k => worker_step k st
    | .spurious_wakeup => spurious_wakeup st

/-- The program running for `fuel` steps from time `t` under a schedule. -/
def run_steps (schedule : Nat → Action) : Nat → Nat → State → State
  | 0, _, st => st
  | fuel + 1, t, st => run_steps schedule fuel (t + 1) (step (schedule t) st)

/-- The state in which `update_matrix` has reset the counter and queued the initial
task, the main thread being about to call `pthread_cond_wait`. -/
def generation_start (st : State) : State :=
  enque_task { st with g_cellsUpdated := 0, main_thread := .before_wait }
    [create_task 0 0 st.g_matrix_size st.g_matrix_size]

/-- The function `update_matrix` of `gol2.c`: the counter is reset, the initial task is
queued, the main thread waits for the signal of the workers, swaps the two matrices and
returns.  The result is the state at the return, `none` when the call has not returned
within `fuel` steps of the schedule. -/
def update_matrix (schedule : Nat → Action) (fuel : Nat) (st : State) : Option State :=
  let st := { st with g_cellsUpdated := 0, main_thread := .before_wait }
  let initialTask := create_task 0 0 st.g_matrix_size st.g_matrix_size
  let st := enque_task st [initialTask]
  let st := run_steps schedule fuel 0 st
  if st.main_thread = .returned then some st else none

/-- The cell `c` lies in the rectangle of the task. -/
def covers (task : Task) (c : Int × Int) : Bool :=
  decide (task.x ≤ c.1 ∧ c.1 < task.x + task.dx ∧ task.y ≤ c.2 ∧ c.2 < task.y + task.dy)

/-- The task is a square whose side is a power of two. -/
def square_pow2 (task : Task) : Prop :=
  ∃ e : Nat, task.dx = 2 ^ e ∧ task.dy = 2 ^ e

/-- Number of cells of the pending tasks. -/
def pending_area (pending : List Task) : Int :=
  (pending.map (fun t => t.dx * t.dy)).sum

/-- Number of steps the pending tasks still need, times three. -/
def pending_work (pending : List Task) : Int :=
  (pending.map (fun t => 4 * (t.dx * t.dy) - 1)).sum

/-- The cell lies in the `n × n` grid. -/
def in_grid (n : Int) (c : Int × Int) : Prop :=
  0 ≤ c.1 ∧ c.1 < n ∧ 0 ≤ c.2 ∧ c.2 < n

instance (n : Int) (c : Int × Int) : Decidable (in_grid n c) := by
  unfold in_grid
  infer_instance

/-- What holds between the steps of the workers in a generation that started from the
matrix `m` of size `n` with `base` signals sent before. -/
structure generation_inv (m : Gol.Matrix) (n : Int) (base : Nat) (st : State) : Prop where
  matrix : st.g_matrix = m
  size : st.g_matrix_size = n
  square : st.g_matrix_size_square = n * n
  squares : ∀ t ∈ st.pending, square_pow2 t
  area : st.g_cellsUpdated + pending_area st.pending = n * n
  count : st.g_cellsUpdated = st.cells_updated.length
  cover : ∀ c, st.cells_updated.count c + st.pending.countP (fun t => covers t c)
    = if in_grid n c then 1 else 0
  cells : ∀ c ∈ st.cells_updated, st.g_workspace_matrix c.1 c.2 = Gol.next_cell m n c.1 c.2
  signals : st.finished_signals = base + if st.g_cellsUpdated = n * n then 1 else 0

/-- The state after `fuel` steps of the workers, taken before the main thread calls
`pthread_cond_wait`, in a generation started in `st`. -/
def generation_run (schedule : Nat → Nat) (fuel : Nat) (st : State) : State :=
  run_steps (fun t => Action.worker (schedule t)) fuel 0 (generation_start st)

/-- The state of `gol.c` with the matrices and the size of a state of `gol2.c`. -/
def to_gol (st : State) : Gol.State where
  g_matrix := st.g_matrix
  g_workspace_matrix := st.g_workspace_matrix
  g_matrix_size := st.g_matrix_size

/-- The state of `gol2.c` that holds the matrices of a state of `gol.c`, with nothing
queued. -/
def of_gol (st : Gol.State) : State where
  g_matrix := st.g_matrix
  g_workspace_matrix := st.g_workspace_matrix
  g_matrix_size := st.g_matrix_size
  g_matrix_size_square := st.g_matrix_size * st.g_matrix_size
  g_cellsUpdated := 0
  pending := []
  finished_signals := 0
  cells_updated := []
  main_thread := .returned

/-- Schedule in which the workers process every task of a 2 × 2 grid (five steps)
before the main thread calls `pthread_cond_wait`. -/
def workers_first : Nat → Action :=
  fun t => if t < 5 then .worker 0 else .main

/-- Schedule in which the main thread is blocked in `pthread_cond_wait` before the
workers process the five tasks of a 2 × 2 grid. -/
def main_waits_first : Nat → Action :=
  fun t => if t = 0 then .main else if t < 6 then .worker 0 else .main

/-- Schedule in which `pthread_cond_wait` returns without a signal before any worker
has run. -/
def early_wakeup : Nat → Action :=
  fun t => if t = 0 then .main else if t = 1 then .spurious_wakeup else .main

end Gol2

namespace Raid5

/-! ## Arithmetic of the translation on non-negative sectors -/

theorem stripe_eq_ediv {N S : Int} (hN : 2 ≤ N) (hS : 0 ≤ S) :
    get_logical_sector_stripe N S = S / (N - 1) / 4 := by
  unfold get_logical_sector_stripe SECTORS_PER_BLOCK
  have h1 : (0 : Int) ≤ N - 1 := by omega
  rw [Int.tdiv_eq_ediv hS h1, Int.tdiv_eq_ediv (Int.ediv_nonneg hS h1) (by decide)]

theorem stripe_eq_block_div {N S : Int} (hN : 2 ≤ N) (hS : 0 ≤ S) :
    get_logical_sector_stripe N S = S / 4 / (N - 1) := by
  rw [stripe_eq_ediv hN hS]
  obtain ⟨n, rfl⟩ := Int.eq_ofNat_of_zero_le hS
  obtain ⟨m, hm⟩ := Int.eq_ofNat_of_zero_le (by omega : (0 : Int) ≤ N - 1)
  rw [hm]
  norm_cast
  rw [Nat.div_div_eq_div_mul, Nat.div_div_eq_div_mul, Nat.mul_comm]

theorem stripe_nonneg {N S : Int} (hN : 2 ≤ N) (hS : 0 ≤ S) :
    0 ≤ get_logical_sector_stripe N S := by
  rw [stripe_eq_ediv hN hS]
  exact Int.ediv_nonneg (Int.ediv_nonneg hS (by omega)) (by decide)

theorem parity_eq_emod {N s : Int} (hN : 2 ≤ N) (hs : 0 ≤ s) :
    get_parity_index_in_stripe N s = N - 1 - s % N := by
  unfold get_parity_index_in_stripe
  rw [Int.tmod_eq_emod hs (by omega)]

theorem parity_range {N s : Int} (hN : 2 ≤ N) (hs : 0 ≤ s) :
    0 ≤ get_parity_index_in_stripe N s ∧ get_parity_index_in_stripe N s < N := by
  rw [parity_eq_emod hN hs]
  have h1 := Int.emod_nonneg s (by omega : N ≠ 0)
  have h2 := Int.emod_lt_of_pos s (by omega : 0 < N)
  omega

theorem slot_eq_emod {N S : Int} (hN : 2 ≤ N) (hS : 0 ≤ S) :
    Int.tmod (Int.tdiv S SECTORS_PER_BLOCK) (N - 1) = S / 4 % (N - 1) := by
  unfold SECTORS_PER_BLOCK
  rw [Int.tdiv_eq_ediv hS (by decide), Int.tmod_eq_emod (by omega) (by omega)]

theorem slot_range {N S : Int} (hN : 2 ≤ N) :
    0 ≤ S / 4 % (N - 1) ∧ S / 4 % (N - 1) < N - 1 :=
  ⟨Int.emod_nonneg _ (by omega), Int.emod_lt_of_pos _ (by omega)⟩

theorem place_eq_emod {S : Int} (hS : 0 ≤ S) : Int.tmod S SECTORS_PER_BLOCK = S % 4 := by
  unfold SECTORS_PER_BLOCK
  rw [Int.tmod_eq_emod hS (by decide)]

/-- The record computed by `get_physical_sector`, in Euclidean division. -/
theorem get_physical_sector_eq {N S : Int} (hN : 2 ≤ N) (hS : 0 ≤ S) :
    get_physical_sector N S =
      { device_index :=
          if S / 4 % (N - 1) < N - 1 - (S / (N - 1) / 4) % N then S / 4 % (N - 1)
          else S / 4 % (N - 1) + 1
        stripe_number := S / (N - 1) / 4
        place_in_block := S % 4
        is_parity := false } := by
  have hs := stripe_nonneg hN hS
  rw [stripe_eq_ediv hN hS] at hs
  unfold get_physical_sector get_sector_index_in_stripe
  simp only [slot_eq_emod hN hS, place_eq_emod hS, stripe_eq_ediv hN hS, parity_eq_emod hN hs]
  congr 1
  split_ifs <;> omega

theorem sector_decompose {N S : Int} (hN : 2 ≤ N) (hS : 0 ≤ S) :
    S = ((S / (N - 1) / 4) * (N - 1) + S / 4 % (N - 1)) * 4 + S % 4 := by
  have h1 : S / (N - 1) / 4 = S / 4 / (N - 1) := by
    rw [← stripe_eq_ediv hN hS, stripe_eq_block_div hN hS]
  have h2 := Int.ediv_add_emod (S / 4) (N - 1)
  rw [h1, Int.mul_comm (S / 4 / (N - 1)) (N - 1), h2]
  omega

/-- Slot recovered from the device index: the inverse of skipping the parity device. -/
theorem slot_of_device {N S : Int} (hN : 2 ≤ N) (hS : 0 ≤ S) :
    (if (get_physical_sector N S).device_index
          < N - 1 - (get_physical_sector N S).stripe_number % N
      then (get_physical_sector N S).device_index
      else (get_physical_sector N S).device_index - 1) = S / 4 % (N - 1) := by
  rw [get_physical_sector_eq hN hS]
  simp only
  split_ifs <;> omega

theorem sector_of_location {N S : Int} (hN : 2 ≤ N) (hS : 0 ≤ S) :
    S = (((get_physical_sector N S).stripe_number * (N - 1)
          + (if (get_physical_sector N S).device_index
                < N - 1 - (get_physical_sector N S).stripe_number % N
             then (get_physical_sector N S).device_index
             else (get_physical_sector N S).device_index - 1)) * 4
        + (get_physical_sector N S).place_in_block) := by
  rw [slot_of_device hN hS]
  rw [get_physical_sector_eq hN hS]
  exact sector_decompose hN hS

theorem device_ne_parity {N S : Int} (hN : 2 ≤ N) (hS : 0 ≤ S) :
    (get_physical_sector N S).device_index
      ≠ get_parity_index_in_stripe N (get_physical_sector N S).stripe_number := by
  have hs : 0 ≤ S / (N - 1) / 4 := by
    rw [← stripe_eq_ediv hN hS]; exact stripe_nonneg hN hS
  rw [get_physical_sector_eq hN hS]
  simp only
  rw [parity_eq_emod hN hs]
  split_ifs <;> omega

theorem device_range {N S : Int} (hN : 2 ≤ N) (hS : 0 ≤ S) :
    0 ≤ (get_physical_sector N S).device_index ∧ (get_physical_sector N S).device_index < N := by
  have h := @slot_range N S hN
  rw [get_physical_sector_eq hN hS]
  simp only
  split_ifs <;> omega

theorem wrap32_of_range {x : Int} (h0 : 0 ≤ x) (h1 : x ≤ INT_MAX) : wrap32 x = x := by
  unfold wrap32
  unfold INT_MAX at h1
  omega

theorem sector_index_le {N S : Int} (hN : 2 ≤ N) (hS : 0 ≤ S) :
    0 ≤ S / (N - 1) / 4 ∧ S / (N - 1) / 4 * 4 + S % 4 ≤ S := by
  have h1 : S / (N - 1) / 4 = S / 4 / (N - 1) := by
    rw [← stripe_eq_ediv hN hS, stripe_eq_block_div hN hS]
  have h0 : 0 ≤ S / (N - 1) / 4 := by
    rw [← stripe_eq_ediv hN hS]; exact stripe_nonneg hN hS
  have h2 : S / 4 / (N - 1) ≤ S / 4 :=
    Int.ediv_le_self _ (by omega)
  constructor
  · exact h0
  · rw [h1]; omega

/-- On-device sector index of a translated sector: no wrap-around in `int` range. -/
theorem physical_location_to_sector_locate {N S : Int} (hN : 2 ≤ N) (hS : 0 ≤ S)
    (hmax : S ≤ INT_MAX) :
    physical_location_to_sector (get_physical_sector N S)
      = (get_physical_sector N S).stripe_number * 4 + (get_physical_sector N S).place_in_block := by
  have h := sector_index_le hN hS
  rw [get_physical_sector_eq hN hS]
  unfold physical_location_to_sector SECTORS_PER_BLOCK
  simp only
  have hp : 0 ≤ S % 4 := by omega
  have hm : S ≤ 2147483647 := hmax
  have e1 : wrap32 (S / (N - 1) / 4 * 4) = S / (N - 1) / 4 * 4 :=
    wrap32_of_range (by omega) (by unfold INT_MAX; omega)
  rw [e1, wrap32_of_range (by omega) (by unfold INT_MAX; omega)]

/-! ## The backup set -/

theorem backup_loop_length (bad : PhysicalLocation) (q : Int) (n : Nat) (c : Int) :
    (get_backup_sectors_loop bad q n c).length = n := by
  induction n generalizing c with
  | zero => rfl
  | succ n ih => simp [get_backup_sectors_loop, ih]

theorem backup_loop_entry (bad : PhysicalLocation) (q : Int) (n : Nat) (c : Int)
    (e : PhysicalLocation) (he : e ∈ get_backup_sectors_loop bad q n c) :
    e.stripe_number = bad.stripe_number ∧ e.place_in_block = bad.place_in_block ∧
      (e.is_parity = true ↔ e.device_index = q) ∧ e.device_index ≠ bad.device_index ∧
      c ≤ e.device_index := by
  induction n generalizing c with
  | zero => simp [get_backup_sectors_loop] at he
  | succ n ih =>
    simp only [get_backup_sectors_loop, List.mem_cons] at he
    rcases he with rfl | he
    · refine ⟨rfl, rfl, ?_, ?_, ?_⟩
      · simp only [decide_eq_true_eq]
        exact eq_comm
      · simp only; split_ifs <;> omega
      · simp only; split_ifs <;> omega
    · obtain ⟨h1, h2, h3, h4, h5⟩ := ih _ he
      refine ⟨h1, h2, h3, h4, ?_⟩
      split_ifs at h5 <;> omega

theorem backup_loop_ascending (bad : PhysicalLocation) (q : Int) (n : Nat) (c : Int) :
    (get_backup_sectors_loop bad q n c).Pairwise
      (fun a b => a.device_index < b.device_index) := by
  induction n generalizing c with
  | zero => simp [get_backup_sectors_loop]
  | succ n ih =>
    simp only [get_backup_sectors_loop, List.pairwise_cons]
    refine ⟨?_, ih _⟩
    intro e he
    have h := (backup_loop_entry bad q n _ e he).2.2.2.2
    omega

theorem backup_loop_mem_device (bad : PhysicalLocation) (q : Int) (n : Nat) (c d : Int) :
    d ∈ (get_backup_sectors_loop bad q n c).map (fun e => e.device_index) ↔
      c ≤ d ∧ d ≠ bad.device_index ∧
        d < (if c ≤ bad.device_index ∧ bad.device_index < c + n then c + n + 1 else c + n) := by
  induction n generalizing c with
  | zero =>
    simp only [get_backup_sectors_loop, List.map_nil, List.not_mem_nil, false_iff]
    split_ifs <;> omega
  | succ n ih =>
    simp only [get_backup_sectors_loop, List.map_cons, List.mem_cons, ih]
    push_cast
    split_ifs <;> omega

theorem backup_length {N : Int} (hN : 2 ≤ N) (loc : PhysicalLocation) :
    ((get_backup_sectors N loc).length : Int) = N - 1 := by
  unfold get_backup_sectors
  simp only [backup_loop_length]
  omega

theorem backup_mem_device {N : Int} (hN : 2 ≤ N) (loc : PhysicalLocation)
    (h0 : 0 ≤ loc.device_index) (h1 : loc.device_index < N) (d : Int) :
    d ∈ (get_backup_sectors N loc).map (fun e => e.device_index) ↔
      0 ≤ d ∧ d < N ∧ d ≠ loc.device_index := by
  unfold get_backup_sectors
  simp only [backup_loop_mem_device]
  have h : ((N - 1).toNat : Int) = N - 1 := Int.toNat_of_nonneg (by omega)
  rw [h]
  split_ifs <;> omega

theorem backup_entry {N : Int} (loc e : PhysicalLocation) (he : e ∈ get_backup_sectors N loc) :
    e.stripe_number = loc.stripe_number ∧ e.place_in_block = loc.place_in_block ∧
      (e.is_parity = true ↔ e.device_index = get_parity_index_in_stripe N loc.stripe_number) ∧
      e.device_index ≠ loc.device_index ∧ 0 ≤ e.device_index :=
  backup_loop_entry loc _ _ 0 e he

theorem backup_ascending (N : Int) (loc : PhysicalLocation) :
    (get_backup_sectors N loc).Pairwise (fun a b => a.device_index < b.device_index) :=
  backup_loop_ascending loc _ _ 0

theorem backup_entry_range {N : Int} (hN : 2 ≤ N) (loc e : PhysicalLocation)
    (h0 : 0 ≤ loc.device_index) (h1 : loc.device_index < N)
    (he : e ∈ get_backup_sectors N loc) : 0 ≤ e.device_index ∧ e.device_index < N := by
  have h := (backup_mem_device hN loc h0 h1 e.device_index).1
    (List.mem_map.2 ⟨e, he, rfl⟩)
  omega

/-! ## Sector transport -/

theorem dev_status_get_ok {st : State} {i : Int} (hwf : st.wf) (h0 : 0 ≤ i)
    (h1 : i < st.g_num_dev) :
    dev_status_get st i = .ok (st.g_dev_status.getD i.toNat INVALID_DEVICE) := by
  unfold dev_status_get
  rw [if_pos ⟨h0, by rw [hwf.2]; exact h1⟩]

theorem bad_reports_append (t u : List Event) :
    bad_reports (t ++ u) = bad_reports t + bad_reports u := by
  unfold bad_reports
  exact List.countP_append _ _ _

theorem bad_reports_cons (e : Event) (t : List Event) :
    bad_reports (e :: t) = bad_reports t + (if e.is_bad_report then 1 else 0) := by
  unfold bad_reports
  rw [List.countP_cons]

theorem bad_reports_nil : bad_reports [] = 0 := rfl

theorem close_device_ok {st : State} {i : Int} (hwf : st.wf) (h0 : 0 ≤ i)
    (h1 : i < st.g_num_dev) :
    ∃ st', close_device st i = .ok st' ∧ st'.wf ∧ st'.g_num_dev = st.g_num_dev ∧
      bad_reports st'.trace = bad_reports st.trace ∧
      st'.g_last_bad_device = st.g_last_bad_device := by
  unfold close_device
  rw [if_pos ⟨h0, h1⟩, dev_status_get_ok hwf h0 h1]
  simp only
  split_ifs with h
  · unfold dev_status_set
    have hlen : i < ((syscall (Event.sys_close
        (st.g_dev_status.getD i.toNat INVALID_DEVICE)) st).g_dev_status.length : Int) := by
      simp only [syscall]; rw [hwf.2]; exact h1
    rw [if_pos ⟨h0, hlen⟩]
    refine ⟨_, rfl, ?_, rfl, ?_, rfl⟩
    · exact ⟨hwf.1, by simp only [syscall, List.length_set]; exact hwf.2⟩
    · simp [syscall, bad_reports_append, bad_reports_cons, bad_reports_nil,
        Event.is_bad_report]
  · exact ⟨st, rfl, hwf, rfl, rfl, rfl⟩

/-- A sector transfer on an in-range device always returns; it keeps the table size and
prints no bad-device line. -/
theorem io_operation_ok (env : Env) {st : State} {loc : PhysicalLocation} (k : IoKind)
    (hwf : st.wf) (h0 : 0 ≤ loc.device_index) (h1 : loc.device_index < st.g_num_dev) :
    ∃ b st', io_operation env st loc k = .ok (b, st') ∧ st'.wf ∧
      st'.g_num_dev = st.g_num_dev ∧ bad_reports st'.trace = bad_reports st.trace := by
  unfold io_operation
  simp only [dev_status_get_ok hwf h0 h1]
  split_ifs with hfd hseek hio
  · exact ⟨false, _, rfl, hwf, rfl, rfl⟩
  · have hwf2 : State.wf { log (Event.print_seek_failed loc.device_index)
        (syscall (Event.sys_lseek (st.g_dev_status.getD loc.device_index.toNat INVALID_DEVICE)
          (physical_location_to_offset loc)
          (env.lseek_result st.clock
            (st.g_dev_status.getD loc.device_index.toNat INVALID_DEVICE)
            (physical_location_to_offset loc))) st) with
        g_last_bad_device := loc.device_index } := hwf
    obtain ⟨st', e1, e2, e3, e4, _⟩ := close_device_ok hwf2 h0 h1
    rw [e1]
    refine ⟨false, st', rfl, e2, e3, ?_⟩
    rw [e4]
    simp [log, syscall, bad_reports_append, bad_reports_cons, bad_reports_nil,
      Event.is_bad_report]
  · have hwf2 : State.wf { log (Event.print_transfer_failed k loc.device_index)
        (syscall (Event.sys_transfer k
          (st.g_dev_status.getD loc.device_index.toNat INVALID_DEVICE)
          (env.transfer_result (syscall (Event.sys_lseek
              (st.g_dev_status.getD loc.device_index.toNat INVALID_DEVICE)
              (physical_location_to_offset loc)
              (env.lseek_result st.clock
                (st.g_dev_status.getD loc.device_index.toNat INVALID_DEVICE)
                (physical_location_to_offset loc))) st).clock k
            (st.g_dev_status.getD loc.device_index.toNat INVALID_DEVICE)))
          (syscall (Event.sys_lseek
              (st.g_dev_status.getD loc.device_index.toNat INVALID_DEVICE)
              (physical_location_to_offset loc)
              (env.lseek_result st.clock
                (st.g_dev_status.getD loc.device_index.toNat INVALID_DEVICE)
                (physical_location_to_offset loc))) st)) with
        g_last_bad_device := loc.device_index } := hwf
    obtain ⟨st', e1, e2, e3, e4, _⟩ := close_device_ok hwf2 h0 h1
    rw [e1]
    refine ⟨false, st', rfl, e2, e3, ?_⟩
    rw [e4]
    simp [log, syscall, bad_reports_append, bad_reports_cons, bad_reports_nil,
      Event.is_bad_report]
  · refine ⟨true, _, rfl, hwf, rfl, ?_⟩
    simp [print_operated_on_device, log, syscall, bad_reports_append, bad_reports_cons,
      bad_reports_nil, Event.is_bad_report]

theorem io_operation_failed_device (env : Env) {st : State} {loc : PhysicalLocation}
    (k : IoKind) (hwf : st.wf) (h0 : 0 ≤ loc.device_index)
    (h1 : loc.device_index < st.g_num_dev)
    (hfd : st.g_dev_status.getD loc.device_index.toNat INVALID_DEVICE < 0) :
    io_operation env st loc k
      = .ok (false, { st with g_last_bad_device := loc.device_index }) := by
  unfold io_operation
  simp only [dev_status_get_ok hwf h0 h1]
  rw [if_pos hfd]

theorem io_operation_success (env : Env) {st : State} {loc : PhysicalLocation}
    (k : IoKind) (hwf : st.wf) (h0 : 0 ≤ loc.device_index)
    (h1 : loc.device_index < st.g_num_dev)
    (hfd : 0 ≤ st.g_dev_status.getD loc.device_index.toNat INVALID_DEVICE)
    (hseek : env.lseek_result st.clock
        (st.g_dev_status.getD loc.device_index.toNat INVALID_DEVICE)
        (physical_location_to_offset loc) = physical_location_to_offset loc)
    (hio : env.transfer_result (st.clock + 1) k
        (st.g_dev_status.getD loc.device_index.toNat INVALID_DEVICE) = IO_SIZE) :
    io_operation env st loc k
      = .ok (true, io_success_state st k
          (st.g_dev_status.getD loc.device_index.toNat INVALID_DEVICE) loc) := by
  unfold io_operation
  simp only [dev_status_get_ok hwf h0 h1]
  rw [if_neg (by omega), if_neg (by rw [hseek]; simp)]
  have hclock : (syscall (Event.sys_lseek
      (st.g_dev_status.getD loc.device_index.toNat INVALID_DEVICE)
      (physical_location_to_offset loc)
      (env.lseek_result st.clock
        (st.g_dev_status.getD loc.device_index.toNat INVALID_DEVICE)
        (physical_location_to_offset loc))) st).clock = st.clock + 1 := rfl
  rw [hclock, hio, if_neg (by simp), hseek]
  simp [io_success_state, io_success_events, print_operated_on_device, log, syscall]

/-- A sector transfer that returns success did exactly one seek and one full-size
transfer on an Open device, and changed nothing but the clock and the trace. -/
theorem io_operation_true_inv (env : Env) {st st' : State} {loc : PhysicalLocation}
    (k : IoKind) (hwf : st.wf) (h0 : 0 ≤ loc.device_index)
    (h1 : loc.device_index < st.g_num_dev)
    (h : io_operation env st loc k = .ok (true, st')) :
    0 ≤ st.g_dev_status.getD loc.device_index.toNat INVALID_DEVICE ∧
      st' = io_success_state st k
        (st.g_dev_status.getD loc.device_index.toNat INVALID_DEVICE) loc := by
  by_cases hfd : st.g_dev_status.getD loc.device_index.toNat INVALID_DEVICE < 0
  · rw [io_operation_failed_device env k hwf h0 h1 hfd] at h
    simp at h
  · by_cases hseek : env.lseek_result st.clock
        (st.g_dev_status.getD loc.device_index.toNat INVALID_DEVICE)
        (physical_location_to_offset loc) = physical_location_to_offset loc
    · by_cases hio : env.transfer_result (st.clock + 1) k
          (st.g_dev_status.getD loc.device_index.toNat INVALID_DEVICE) = IO_SIZE
      · rw [io_operation_success env k hwf h0 h1 (by omega) hseek hio] at h
        simp only [Except.ok.injEq, Prod.mk.injEq, true_and] at h
        exact ⟨by omega, h.symm⟩
      · exfalso
        unfold io_operation at h
        simp only [dev_status_get_ok hwf h0 h1] at h
        rw [if_neg hfd, if_neg (by rw [hseek]; simp)] at h
        have hclock : (syscall (Event.sys_lseek
            (st.g_dev_status.getD loc.device_index.toNat INVALID_DEVICE)
            (physical_location_to_offset loc)
            (env.lseek_result st.clock
              (st.g_dev_status.getD loc.device_index.toNat INVALID_DEVICE)
              (physical_location_to_offset loc))) st).clock = st.clock + 1 := rfl
        rw [hclock, if_pos hio] at h
        split at h <;> simp at h
    · exfalso
      unfold io_operation at h
      simp only [dev_status_get_ok hwf h0 h1] at h
      rw [if_neg hfd, if_pos hseek] at h
      split at h <;> simp at h

/-! ## Degraded read -/

theorem read_backup_loop_first_failure (env : Env) (l : List PhysicalLocation) :
    ∀ (s : State) (k : Nat) (x : PhysicalLocation) (sk s' : State),
      l[k]? = some x → reads_ok env s (l.take k) sk →
      read_physical env sk x = .ok (false, s') →
      read_backup_loop env s l = .ok (false, s') := by
  induction l with
  | nil => intro s k x sk s' hx; simp at hx
  | cons a l ih =>
    intro s k x sk s' hx hok hfail
    cases k with
    | zero =>
      simp only [List.getElem?_cons_zero, Option.some.injEq] at hx
      simp only [List.take_zero, reads_ok] at hok
      subst hx; subst hok
      simp [read_backup_loop, hfail]
    | succ k =>
      simp only [List.getElem?_cons_succ] at hx
      simp only [List.take_succ_cons, reads_ok] at hok
      obtain ⟨s1, h1, h2⟩ := hok
      simp only [read_backup_loop, h1]
      simpa using ih s1 k x sk s' hx h2 hfail

theorem read_backup_loop_ok (env : Env) (l : List PhysicalLocation) :
    ∀ (s : State), s.wf →
      (∀ e ∈ l, 0 ≤ e.device_index ∧ e.device_index < s.g_num_dev) →
      ∃ b s', read_backup_loop env s l = .ok (b, s') ∧ s'.wf ∧
        s'.g_num_dev = s.g_num_dev ∧ bad_reports s'.trace = bad_reports s.trace ∧
        (b = true → reads_ok env s l s') ∧
        (b = false → ∃ k x sk, l[k]? = some x ∧ reads_ok env s (l.take k) sk ∧
          read_physical env sk x = .ok (false, s')) := by
  induction l with
  | nil =>
    intro s hwf _
    exact ⟨true, s, rfl, hwf, rfl, rfl, fun _ => rfl, fun h => by simp at h⟩
  | cons a l ih =>
    intro s hwf hr
    have ha := hr a (List.mem_cons_self _ _)
    obtain ⟨b, s1, e1, w1, n1, r1⟩ := io_operation_ok env IoKind.Read hwf ha.1 ha.2
    cases b with
    | false =>
      refine ⟨false, s1, ?_, w1, n1, r1, fun h => by simp at h, fun _ => ?_⟩
      · simp [read_backup_loop, read_physical, e1]
      · exact ⟨0, a, s, by simp, rfl, e1⟩
    | true =>
      obtain ⟨b, s2, e2, w2, n2, r2, ht, hf⟩ := ih s1 w1
        (fun e he => by rw [n1]; exact hr e (List.mem_cons_of_mem _ he))
      refine ⟨b, s2, ?_, w2, by rw [n2, n1], by rw [r2, r1], fun h => ?_, fun h => ?_⟩
      · simp [read_backup_loop, read_physical, e1, e2]
      · exact ⟨s1, e1, ht h⟩
      · obtain ⟨k, x, sk, hx, hok, hfail⟩ := hf h
        exact ⟨k + 1, x, sk, by simpa using hx, ⟨s1, e1, hok⟩, hfail⟩

/-! ## Writes -/

theorem frame_kept_refl {st : State} (hwf : st.wf) : frame_kept st st := ⟨hwf, rfl, rfl⟩

theorem frame_kept_trans {a b c : State} (h1 : frame_kept a b) (h2 : frame_kept b c) :
    frame_kept a c :=
  ⟨h2.1, by rw [h2.2.1, h1.2.1], by rw [h2.2.2, h1.2.2]⟩

theorem io_operation_frame (env : Env) {st : State} {loc : PhysicalLocation} (k : IoKind)
    (hwf : st.wf) (h0 : 0 ≤ loc.device_index) (h1 : loc.device_index < st.g_num_dev) :
    ∃ b st', io_operation env st loc k = .ok (b, st') ∧ frame_kept st st' := by
  obtain ⟨b, s, e, w, n, r⟩ := io_operation_ok env k hwf h0 h1
  exact ⟨b, s, e, w, n, r⟩

/-- The four steps of `standard_write` when the parity device is not marked Failed:
each step runs in the state left by the previous one, and the first failing step ends
the write in the state that step left. -/
theorem standard_write_steps (env : Env) {st : State} {real parity : PhysicalLocation}
    (hwf : st.wf) (hr0 : 0 ≤ real.device_index) (hr1 : real.device_index < st.g_num_dev)
    (hp0 : 0 ≤ parity.device_index) (hp1 : parity.device_index < st.g_num_dev)
    (hne : real.device_index ≠ parity.device_index)
    (hpar : st.g_dev_status.getD parity.device_index.toNat INVALID_DEVICE ≠ INVALID_DEVICE)
    (lo hi : PhysicalLocation)
    (hlo : lo = if real.device_index < parity.device_index then real else parity)
    (hhi : hi = if real.device_index > parity.device_index then real else parity) :
    ∃ b1 s1, read_physical env st lo = .ok (b1, s1) ∧ frame_kept st s1 ∧
      (b1 = false → standard_write env st real parity = .ok (false, s1)) ∧
      (b1 = true → ∃ b2 s2, write_physical env s1 lo = .ok (b2, s2) ∧ frame_kept st s2 ∧
        (b2 = false → standard_write env st real parity = .ok (false, s2)) ∧
        (b2 = true → ∃ b3 s3, read_physical env s2 hi = .ok (b3, s3) ∧ frame_kept st s3 ∧
          (b3 = false → standard_write env st real parity = .ok (false, s3)) ∧
          (b3 = true → ∃ b4 s4, write_physical env s3 hi = .ok (b4, s4) ∧
            frame_kept st s4 ∧
            standard_write env st real parity = .ok (b4, s4)))) := by
  have hlo0 : 0 ≤ lo.device_index ∧ lo.device_index < st.g_num_dev := by
    rw [hlo]; split_ifs <;> exact ⟨by assumption, by assumption⟩
  have hhi0 : 0 ≤ hi.device_index ∧ hi.device_index < st.g_num_dev := by
    rw [hhi]; split_ifs <;> exact ⟨by assumption, by assumption⟩
  have hsw : standard_write env st real parity =
      match read_physical env st lo with
      | .error e => .error e
      | .ok (io_result, st) =>
        if !io_result then .ok (false, st) else
        match write_physical env st lo with
        | .error e => .error e
        | .ok (io_result, st) =>
          if !io_result then .ok (false, st) else
          match read_physical env st hi with
          | .error e => .error e
          | .ok (io_result, st) =>
            if !io_result then .ok (false, st) else
            match write_physical env st hi with
            | .error e => .error e
            | .ok (io_result, st) =>
              if !io_result then .ok (false, st) else .ok (true, st) := by
    unfold standard_write
    simp only [dev_status_get_ok hwf hp0 hp1]
    rw [if_pos (Ne.symm hpar), if_pos hne, ← hlo, ← hhi]
  obtain ⟨b1, s1, e1, f1⟩ := io_operation_frame env IoKind.Read hwf hlo0.1 hlo0.2
  refine ⟨b1, s1, e1, f1, fun h => ?_, fun h => ?_⟩
  · subst h
    rw [hsw]; simp only [read_physical]; rw [e1]; rfl
  subst h
  obtain ⟨b2, s2, e2, f2⟩ :=
    io_operation_frame env IoKind.Write f1.1 hlo0.1 (by rw [f1.2.1]; exact hlo0.2)
  have g2 := frame_kept_trans f1 f2
  refine ⟨b2, s2, e2, g2, fun h => ?_, fun h => ?_⟩
  · subst h
    rw [hsw]; simp only [read_physical, write_physical]; rw [e1]; simp only; rw [e2]; rfl
  subst h
  obtain ⟨b3, s3, e3, f3⟩ :=
    io_operation_frame env IoKind.Read g2.1 hhi0.1 (by rw [g2.2.1]; exact hhi0.2)
  have g3 := frame_kept_trans g2 f3
  refine ⟨b3, s3, e3, g3, fun h => ?_, fun h => ?_⟩
  · subst h
    rw [hsw]; simp only [read_physical, write_physical]
    rw [e1]; simp only; rw [e2]; simp only; rw [e3]; rfl
  subst h
  obtain ⟨b4, s4, e4, f4⟩ :=
    io_operation_frame env IoKind.Write g3.1 hhi0.1 (by rw [g3.2.1]; exact hhi0.2)
  refine ⟨b4, s4, e4, frame_kept_trans g3 f4, ?_⟩
  rw [hsw]; simp only [read_physical, write_physical]
  rw [e1]; simp only; rw [e2]; simp only; rw [e3]; simp only; rw [e4]
  cases b4 <;> rfl

/-- Totality of `standard_write` on two in-range locations of different devices. -/
theorem standard_write_ok (env : Env) {st : State} {real parity : PhysicalLocation}
    (hwf : st.wf) (hr0 : 0 ≤ real.device_index) (hr1 : real.device_index < st.g_num_dev)
    (hp0 : 0 ≤ parity.device_index) (hp1 : parity.device_index < st.g_num_dev)
    (hne : real.device_index ≠ parity.device_index) :
    ∃ b s', standard_write env st real parity = .ok (b, s') ∧ frame_kept st s' := by
  by_cases hpar :
      st.g_dev_status.getD parity.device_index.toNat INVALID_DEVICE = INVALID_DEVICE
  · obtain ⟨b, s, e, f⟩ := io_operation_frame env IoKind.Write hwf hr0 hr1
    refine ⟨b, s, ?_, f⟩
    unfold standard_write
    simp only [dev_status_get_ok hwf hp0 hp1]
    rw [if_neg (by rw [hpar]; simp)]
    exact e
  · obtain ⟨b1, s1, _, f1, h1f, h1t⟩ :=
      standard_write_steps env hwf hr0 hr1 hp0 hp1 hne hpar _ _ rfl rfl
    cases b1 with
    | false => exact ⟨false, s1, h1f rfl, f1⟩
    | true =>
      obtain ⟨b2, s2, _, f2, h2f, h2t⟩ := h1t rfl
      cases b2 with
      | false => exact ⟨false, s2, h2f rfl, f2⟩
      | true =>
        obtain ⟨b3, s3, _, f3, h3f, h3t⟩ := h2t rfl
        cases b3 with
        | false => exact ⟨false, s3, h3f rfl, f3⟩
        | true =>
          obtain ⟨b4, s4, _, f4, h4⟩ := h3t rfl
          exact ⟨b4, s4, h4, f4⟩

theorem error_state_write_loop_ok (env : Env) (l : List PhysicalLocation) :
    ∀ (s : State), s.wf →
      (∀ e ∈ l, 0 ≤ e.device_index ∧ e.device_index < s.g_num_dev) →
      ∃ b s', error_state_write_loop env s l = .ok (b, s') ∧ frame_kept s s' := by
  induction l with
  | nil =>
    intro s hwf _
    exact ⟨true, s, rfl, frame_kept_refl hwf⟩
  | cons a l ih =>
    intro s hwf hr
    have ha := hr a (List.mem_cons_self _ _)
    obtain ⟨b, s1, e1, f1⟩ :
        ∃ b s1, (if a.is_parity then write_physical env s a else read_physical env s a)
          = .ok (b, s1) ∧ frame_kept s s1 := by
      split_ifs
      · exact io_operation_frame env IoKind.Write hwf ha.1 ha.2
      · exact io_operation_frame env IoKind.Read hwf ha.1 ha.2
    cases b with
    | false =>
      refine ⟨false, s1, ?_, f1⟩
      simp only [error_state_write_loop]; rw [e1]; rfl
    | true =>
      obtain ⟨b, s2, e2, f2⟩ := ih s1 f1.1
        (fun e he => by rw [f1.2.1]; exact hr e (List.mem_cons_of_mem _ he))
      refine ⟨b, s2, ?_, frame_kept_trans f1 f2⟩
      simp only [error_state_write_loop]; rw [e1]; simpa using e2

/-- Totality of `write_operation` on a non-negative sector: no assertion fails and no
index leaves the device table. -/
theorem write_operation_ok (env : Env) {st : State} {S : Int} (hwf : st.wf) (hS : 0 ≤ S) :
    ∃ st', write_operation env st S = .ok st' ∧ st'.wf ∧ st'.g_num_dev = st.g_num_dev := by
  have hd := device_range hwf.1 hS
  have hs := stripe_nonneg hwf.1 hS
  have hq := parity_range hwf.1 hs
  have hne := device_ne_parity hwf.1 hS
  have hback : ∀ (s : State), s.g_num_dev = st.g_num_dev →
      ∀ e ∈ get_backup_sectors s.g_num_dev (get_physical_sector st.g_num_dev S),
        0 ≤ e.device_index ∧ e.device_index < s.g_num_dev := by
    intro s hs e he
    rw [hs] at he ⊢
    exact backup_entry_range hwf.1 _ e hd.1 hd.2 he
  obtain ⟨b1, s1, e1, f1⟩ :
      ∃ b1 s1, (if INVALID_DEVICE ≠ st.g_dev_status.getD
            (get_physical_sector st.g_num_dev S).device_index.toNat INVALID_DEVICE
          then standard_write env st (get_physical_sector st.g_num_dev S)
            (get_relevant_parity_sector st.g_num_dev (get_physical_sector st.g_num_dev S))
          else .ok (false, st)) = .ok (b1, s1) ∧ frame_kept st s1 := by
    split_ifs
    · exact standard_write_ok env hwf hd.1 hd.2 hq.1 hq.2 hne
    · exact ⟨false, st, rfl, frame_kept_refl hwf⟩
  obtain ⟨b2, s2, e2, f2⟩ :
      ∃ b2 s2, (if !b1 then error_state_write env s1 (get_physical_sector st.g_num_dev S)
          else .ok (b1, s1)) = .ok (b2, s2) ∧ frame_kept st s2 := by
    cases b1 with
    | false =>
      obtain ⟨b, s, e, f⟩ := error_state_write_loop_ok env _ s1 f1.1 (hback s1 f1.2.1)
      exact ⟨b, s, by simpa [error_state_write] using e, frame_kept_trans f1 f⟩
    | true => exact ⟨true, s1, rfl, f1⟩
  unfold write_operation
  simp only [dev_status_get_ok hwf hd.1 hd.2]
  rw [e1]; simp only; rw [e2]; simp only
  cases b2 with
  | false => exact ⟨_, rfl, f2.1, f2.2.1⟩
  | true => exact ⟨_, rfl, f2.1, f2.2.1⟩

/-! ## Reconstruction of a sector from a location -/

theorem sector_eq_of_fields {N S S' : Int} (hN : 2 ≤ N) (hS : 0 ≤ S) (hS' : 0 ≤ S')
    (hd : (get_physical_sector N S).device_index = (get_physical_sector N S').device_index)
    (hs : (get_physical_sector N S).stripe_number = (get_physical_sector N S').stripe_number)
    (hp : (get_physical_sector N S).place_in_block
      = (get_physical_sector N S').place_in_block) : S = S' := by
  rw [sector_of_location hN hS, sector_of_location hN hS', hd, hs, hp]

theorem place_range {N S : Int} (hN : 2 ≤ N) (hS : 0 ≤ S) :
    0 ≤ (get_physical_sector N S).place_in_block ∧
      (get_physical_sector N S).place_in_block < 4 := by
  rw [get_physical_sector_eq hN hS]
  simp only
  omega

/-- The sector built from a stripe, a slot and a place translates back to them. -/
theorem locate_of_parts {N s slot p : Int} (hN : 2 ≤ N) (hs : 0 ≤ s)
    (hslot0 : 0 ≤ slot) (hslot1 : slot < N - 1) (hp0 : 0 ≤ p) (hp1 : p < 4) :
    0 ≤ (s * (N - 1) + slot) * 4 + p ∧
    get_physical_sector N ((s * (N - 1) + slot) * 4 + p) =
      { device_index := if slot < N - 1 - s % N then slot else slot + 1
        stripe_number := s
        place_in_block := p
        is_parity := false } := by
  have hprod : 0 ≤ s * (N - 1) := Int.mul_nonneg hs (by omega)
  have hS : 0 ≤ (s * (N - 1) + slot) * 4 + p := by omega
  have hb : ((s * (N - 1) + slot) * 4 + p) / 4 = s * (N - 1) + slot := by omega
  have hpl : ((s * (N - 1) + slot) * 4 + p) % 4 = p := by omega
  have hslot : (s * (N - 1) + slot) % (N - 1) = slot := by
    rw [Int.add_comm, Int.add_mul_emod_self]
    exact Int.emod_eq_of_lt hslot0 hslot1
  have hstripe : (s * (N - 1) + slot) / (N - 1) = s := by
    rw [Int.add_comm, Int.add_mul_ediv_right _ _ (by omega : N - 1 ≠ 0),
      Int.ediv_eq_zero_of_lt hslot0 hslot1]
    omega
  have hst : ((s * (N - 1) + slot) * 4 + p) / (N - 1) / 4 = s := by
    rw [← stripe_eq_ediv hN hS, stripe_eq_block_div hN hS, hb, hstripe]
  refine ⟨hS, ?_⟩
  rw [get_physical_sector_eq hN hS, hb, hpl, hslot, hst]

/-! ## Claims on address translation -/

/-- C1: for `N ≥ 2` and a logical sector `S ≥ 0` the device of `get_physical_sector S`
differs from the device of its parity location; so on a table of `N` slots
`standard_write` called with the two locations and `write_operation S` return a result:
the assertion `real_sector.device_index != parity_sector.device_index` does not fail. -/
theorem locate_device_ne_parity_device (N S : Int) (hN : 2 ≤ N) (hS : 0 ≤ S) :
    (get_physical_sector N S).device_index
        ≠ (get_relevant_parity_sector N (get_physical_sector N S)).device_index ∧
      ∀ (env : Env) (st : State), st.wf → st.g_num_dev = N →
        (∃ b s', standard_write env st (get_physical_sector N S)
            (get_relevant_parity_sector N (get_physical_sector N S)) = .ok (b, s')) ∧
        (∃ st', write_operation env st S = .ok st') := by
  have hne := device_ne_parity hN hS
  refine ⟨hne, ?_⟩
  intro env st hwf hn
  subst hn
  have hd := device_range hwf.1 hS
  have hq := parity_range hwf.1 (stripe_nonneg hwf.1 hS)
  constructor
  · obtain ⟨b, s', e, _⟩ := @standard_write_ok env st (get_physical_sector st.g_num_dev S)
      (get_relevant_parity_sector st.g_num_dev (get_physical_sector st.g_num_dev S))
      hwf hd.1 hd.2 hq.1 hq.2 hne
    exact ⟨b, s', e⟩
  · obtain ⟨st', e, _⟩ := write_operation_ok env hwf hS
    exact ⟨st', e⟩

theorem locate_device_ne_parity_device_witness :
    (get_physical_sector 4 13).device_index
        ≠ (get_relevant_parity_sector 4 (get_physical_sector 4 13)).device_index ∧
      ∃ st', write_operation healthy_env four_devices 13 = .ok st' :=
  ⟨(locate_device_ne_parity_device 4 13 (by decide) (by decide)).1,
   ((locate_device_ne_parity_device 4 13 (by decide) (by decide)).2 healthy_env four_devices
      ⟨by decide, by decide⟩ rfl).2⟩

/-- C2: for `N ≥ 2` a sector `S ≥ 0` is recovered from its location `(d, s, p)` as
`((s*(N-1) + slot)*4 + p)` with `slot = d` if `d < N-1-(s mod N)` and `d-1` otherwise;
so `get_physical_sector` is injective on non-negative sectors, and two non-negative
sectors with the same device and the same on-device sector index `s*4 + p` are equal
(also with the index as `physical_location_to_sector` computes it, for sectors in `int`
range). -/
theorem get_physical_sector_inverse (N : Int) (hN : 2 ≤ N) :
    (∀ S, 0 ≤ S →
      S = (((get_physical_sector N S).stripe_number * (N - 1)
            + (if (get_physical_sector N S).device_index
                  < N - 1 - (get_physical_sector N S).stripe_number % N
               then (get_physical_sector N S).device_index
               else (get_physical_sector N S).device_index - 1)) * 4
          + (get_physical_sector N S).place_in_block)) ∧
    (∀ S S', 0 ≤ S → 0 ≤ S' → get_physical_sector N S = get_physical_sector N S' → S = S') ∧
    (∀ S S', 0 ≤ S → 0 ≤ S' →
      (get_physical_sector N S).device_index = (get_physical_sector N S').device_index →
      (get_physical_sector N S).stripe_number * 4 + (get_physical_sector N S).place_in_block
        = (get_physical_sector N S').stripe_number * 4
          + (get_physical_sector N S').place_in_block → S = S') ∧
    (∀ S S', 0 ≤ S → S ≤ INT_MAX → 0 ≤ S' → S' ≤ INT_MAX →
      (get_physical_sector N S).device_index = (get_physical_sector N S').device_index →
      physical_location_to_sector (get_physical_sector N S)
        = physical_location_to_sector (get_physical_sector N S') → S = S') := by
  refine ⟨fun S hS => sector_of_location hN hS, ?_, ?_, ?_⟩
  · intro S S' hS hS' h
    exact sector_eq_of_fields hN hS hS' (by rw [h]) (by rw [h]) (by rw [h])
  · intro S S' hS hS' hd hsec
    have p1 := place_range hN hS
    have p2 := place_range hN hS'
    exact sector_eq_of_fields hN hS hS' hd (by omega) (by omega)
  · intro S S' hS hm hS' hm' hd hsec
    rw [physical_location_to_sector_locate hN hS hm,
      physical_location_to_sector_locate hN hS' hm'] at hsec
    have p1 := place_range hN hS
    have p2 := place_range hN hS'
    exact sector_eq_of_fields hN hS hS' hd (by omega) (by omega)

theorem get_physical_sector_inverse_witness :
    (13 : Int) = (((get_physical_sector 4 13).stripe_number * (4 - 1)
            + (if (get_physical_sector 4 13).device_index
                  < 4 - 1 - (get_physical_sector 4 13).stripe_number % 4
               then (get_physical_sector 4 13).device_index
               else (get_physical_sector 4 13).device_index - 1)) * 4
          + (get_physical_sector 4 13).place_in_block) :=
  (get_physical_sector_inverse 4 (by decide)).1 13 (by decide)

/-- C3: for `N ≥ 2` and `S ≥ 0`, `get_physical_sector S` is the record with
`stripe_number = (S / (N-1)) / 4`, `device_index = slot` if `slot < parity_dev` else
`slot + 1` where `slot = (S / 4) mod (N-1)` and `parity_dev = N-1-(stripe_number mod N)`,
`place_in_block = S mod 4` and `is_parity = false`. -/
theorem get_physical_sector_formula (N S : Int) (hN : 2 ≤ N) (hS : 0 ≤ S) :
    get_physical_sector N S =
      { stripe_number := S / (N - 1) / 4
        device_index :=
          if S / 4 % (N - 1) < N - 1 - (S / (N - 1) / 4) % N then S / 4 % (N - 1)
          else S / 4 % (N - 1) + 1
        place_in_block := S % 4
        is_parity := false } :=
  get_physical_sector_eq hN hS

theorem get_physical_sector_formula_witness :
    get_physical_sector 4 13 =
      { stripe_number := 13 / (4 - 1) / 4
        device_index :=
          if (13 : Int) / 4 % (4 - 1) < 4 - 1 - (13 / (4 - 1) / 4) % 4 then 13 / 4 % (4 - 1)
          else 13 / 4 % (4 - 1) + 1
        place_in_block := 13 % 4
        is_parity := false } :=
  get_physical_sector_formula 4 13 (by decide) (by decide)

/-- C4: for `N ≥ 2`, `get_parity_index_in_stripe s = N-1-(s mod N)` for every stripe
`s ≥ 0`; over the stripes `0..N-1` it takes values in `0..N-1` and takes every device
index exactly once; and it has period `N`. -/
theorem parity_rotation (N : Int) (hN : 2 ≤ N) :
    (∀ s, 0 ≤ s → get_parity_index_in_stripe N s = N - 1 - s % N) ∧
    (∀ s, 0 ≤ s → s < N →
      0 ≤ get_parity_index_in_stripe N s ∧ get_parity_index_in_stripe N s < N) ∧
    (∀ d, 0 ≤ d → d < N →
      ∃ s, (0 ≤ s ∧ s < N ∧ get_parity_index_in_stripe N s = d) ∧
        ∀ s', 0 ≤ s' → s' < N → get_parity_index_in_stripe N s' = d → s' = s) ∧
    (∀ s, 0 ≤ s → get_parity_index_in_stripe N (s + N) = get_parity_index_in_stripe N s) := by
  refine ⟨fun s hs => parity_eq_emod hN hs, fun s hs _ => parity_range hN hs, ?_, ?_⟩
  · intro d hd0 hd1
    refine ⟨N - 1 - d, ⟨by omega, by omega, ?_⟩, ?_⟩
    · rw [parity_eq_emod hN (by omega), Int.emod_eq_of_lt (by omega) (by omega)]
      omega
    · intro s' h0 h1 h
      rw [parity_eq_emod hN h0, Int.emod_eq_of_lt h0 h1] at h
      omega
  · intro s hs
    rw [parity_eq_emod hN hs, parity_eq_emod hN (by omega), Int.add_emod_self]

theorem parity_rotation_witness :
    get_parity_index_in_stripe 4 6 = 4 - 1 - 6 % 4 ∧
      get_parity_index_in_stripe 4 (6 + 4) = get_parity_index_in_stripe 4 6 :=
  ⟨(parity_rotation 4 (by decide)).1 6 (by decide),
   (parity_rotation 4 (by decide)).2.2.2 6 (by decide)⟩

/-- C5: for `N ≥ 2` and a stripe `s ≥ 0`, every device `d` in `0..N-1` other than the
parity device of `s` holds data of the stripe at every place `p` in `0..3` (some
sector `S ≥ 0` translates to `(d, s, p)`), and every sector `S ≥ 0` of stripe `s` lies
on a device in `0..N-1` that is not the parity device of `s`. -/
theorem stripe_data_devices (N s : Int) (hN : 2 ≤ N) (hs : 0 ≤ s) :
    (∀ d p, 0 ≤ d → d < N → d ≠ get_parity_index_in_stripe N s → 0 ≤ p → p < 4 →
      ∃ S, 0 ≤ S ∧ get_physical_sector N S =
        { device_index := d, stripe_number := s, place_in_block := p, is_parity := false }) ∧
    (∀ S, 0 ≤ S → (get_physical_sector N S).stripe_number = s →
      0 ≤ (get_physical_sector N S).device_index ∧
      (get_physical_sector N S).device_index < N ∧
      (get_physical_sector N S).device_index ≠ get_parity_index_in_stripe N s) := by
  constructor
  · intro d p hd0 hd1 hdq hp0 hp1
    rw [parity_eq_emod hN hs] at hdq
    have hm0 := Int.emod_nonneg s (by omega : N ≠ 0)
    have hm1 := Int.emod_lt_of_pos s (by omega : 0 < N)
    by_cases hlt : d < N - 1 - s % N
    · obtain ⟨h1, h2⟩ := @locate_of_parts N s d p hN hs hd0 (by omega) hp0 hp1
      refine ⟨_, h1, ?_⟩
      rw [h2, if_pos hlt]
    · obtain ⟨h1, h2⟩ := @locate_of_parts N s (d - 1) p hN hs (by omega) (by omega)
        hp0 hp1
      refine ⟨_, h1, ?_⟩
      rw [h2, if_neg (by omega)]
      simp
  · intro S hS hst
    have h1 := device_range hN hS
    have h2 := device_ne_parity hN hS
    rw [hst] at h2
    exact ⟨h1.1, h1.2, h2⟩

theorem stripe_data_devices_witness :
    (∃ S, 0 ≤ S ∧ get_physical_sector 4 S =
        { device_index := 3, stripe_number := 1, place_in_block := 2, is_parity := false }) ∧
      (get_physical_sector 4 13).device_index ≠ get_parity_index_in_stripe 4 1 :=
  ⟨(stripe_data_devices 4 1 (by decide) (by decide)).1 3 2 (by decide) (by decide)
      (by decide) (by decide) (by decide),
   ((stripe_data_devices 4 1 (by decide) (by decide)).2 13 (by decide) (by decide)).2.2⟩

/-! ## Claims on the backup set -/

theorem backup_nodup (N : Int) (loc : PhysicalLocation) : (get_backup_sectors N loc).Nodup :=
  (backup_ascending N loc).imp (fun h he => by rw [he] at h; omega)

/-- With a parity device in range and different from the bad device, exactly one
backup entry is flagged. -/
theorem backup_parity_count {N : Int} (hN : 2 ≤ N) (loc : PhysicalLocation)
    (h0 : 0 ≤ loc.device_index) (h1 : loc.device_index < N)
    (hq0 : 0 ≤ get_parity_index_in_stripe N loc.stripe_number)
    (hq1 : get_parity_index_in_stripe N loc.stripe_number < N)
    (hne : loc.device_index ≠ get_parity_index_in_stripe N loc.stripe_number) :
    (get_backup_sectors N loc).countP (fun e => e.is_parity) = 1 := by
  have hall : ∀ e ∈ (get_backup_sectors N loc).filter (fun e => e.is_parity),
      e = { device_index := get_parity_index_in_stripe N loc.stripe_number
            stripe_number := loc.stripe_number
            place_in_block := loc.place_in_block
            is_parity := true } := by
    intro e he
    rw [List.mem_filter] at he
    obtain ⟨e1, e2, e3, _, _⟩ := backup_entry loc e he.1
    have e4 := e3.1 he.2
    cases e
    simp only [PhysicalLocation.mk.injEq]
    exact ⟨e4, e1, e2, he.2⟩
  have hmem : ∃ e, e ∈ (get_backup_sectors N loc).filter (fun e => e.is_parity) := by
    have h := (backup_mem_device hN loc h0 h1
      (get_parity_index_in_stripe N loc.stripe_number)).2 ⟨hq0, hq1, Ne.symm hne⟩
    obtain ⟨e, he, hd⟩ := List.mem_map.1 h
    exact ⟨e, List.mem_filter.2 ⟨he, (backup_entry loc e he).2.2.1.2 hd⟩⟩
  have hnd : ((get_backup_sectors N loc).filter (fun e => e.is_parity)).Nodup :=
    (backup_nodup N loc).sublist (List.filter_sublist _)
  rw [List.countP_eq_length_filter]
  rw [List.eq_replicate_length.2 hall, List.nodup_replicate] at hnd
  obtain ⟨e, he⟩ := hmem
  have hpos := List.length_pos_of_mem he
  omega

/-- C6, as amended: for `N ≥ 2` and a location `loc` with `0 ≤ loc.device_index < N`,
`get_backup_sectors loc` has `N-1` entries whose device indices are exactly the indices
`0..N-1` other than `loc.device_index`, each once; and when `loc.stripe_number ≥ 0` and
`loc.device_index` is not the parity device of the stripe, exactly one entry has
`is_parity = true` and every flagged entry is on the stripe's parity device. -/
theorem backup_set_cover (N : Int) (loc : PhysicalLocation) (hN : 2 ≤ N)
    (h0 : 0 ≤ loc.device_index) (h1 : loc.device_index < N) :
    ((get_backup_sectors N loc).length : Int) = N - 1 ∧
    (∀ d, d ∈ (get_backup_sectors N loc).map (fun e => e.device_index) ↔
      0 ≤ d ∧ d < N ∧ d ≠ loc.device_index) ∧
    ((get_backup_sectors N loc).map (fun e => e.device_index)).Nodup ∧
    (0 ≤ loc.stripe_number →
      loc.device_index ≠ get_parity_index_in_stripe N loc.stripe_number →
      (get_backup_sectors N loc).countP (fun e => e.is_parity) = 1 ∧
      ∀ e ∈ get_backup_sectors N loc, e.is_parity = true →
        e.device_index = get_parity_index_in_stripe N loc.stripe_number) := by
  refine ⟨backup_length hN loc, backup_mem_device hN loc h0 h1, ?_, ?_⟩
  · rw [List.Nodup, List.pairwise_map]
    exact (backup_ascending N loc).imp (fun h => by omega)
  · intro hs hne
    have hq := parity_range hN hs
    exact ⟨backup_parity_count hN loc h0 h1 hq.1 hq.2 hne,
      fun e he hp => (backup_entry loc e he).2.2.1.1 hp⟩

theorem backup_set_cover_witness :
    ((get_backup_sectors 4 ⟨0, 2, 3, false⟩).length : Int) = 4 - 1 ∧
      (get_backup_sectors 4 ⟨0, 2, 3, false⟩).countP (fun e => e.is_parity) = 1 :=
  ⟨(backup_set_cover 4 ⟨0, 2, 3, false⟩ (by decide) (by decide) (by decide)).1,
   ((backup_set_cover 4 ⟨0, 2, 3, false⟩ (by decide) (by decide) (by decide)).2.2.2
      (by decide) (by decide)).1⟩

/-- C6, as stated, fails at a negative stripe: with `N = 4` the location
`(device 0, stripe -1, place 0)`, which is the translation of sector `-12`, has parity
index `4`, so its device is not the parity device and yet no backup entry is flagged. -/
theorem backup_set_negative_stripe_no_parity :
    (2 : Int) ≤ 4 ∧
      get_physical_sector 4 (-12) = ⟨0, -1, 0, false⟩ ∧
      (0 : Int) ≤ (⟨0, -1, 0, false⟩ : PhysicalLocation).device_index ∧
      (⟨0, -1, 0, false⟩ : PhysicalLocation).device_index < 4 ∧
      (⟨0, -1, 0, false⟩ : PhysicalLocation).device_index
        ≠ get_parity_index_in_stripe 4 (⟨0, -1, 0, false⟩ : PhysicalLocation).stripe_number ∧
      (get_backup_sectors 4 ⟨0, -1, 0, false⟩).countP (fun e => e.is_parity) = 0 := by
  decide

/-- C7: for `N ≥ 2` and a location `loc` with `0 ≤ loc.device_index < N`, the entries of
`get_backup_sectors loc` are in strictly ascending device-index order, each has the
stripe and place of `loc`, and an entry is flagged `is_parity` exactly when its device
index is `get_parity_index_in_stripe loc.stripe_number`. -/
theorem backup_set_order (N : Int) (loc : PhysicalLocation) (hN : 2 ≤ N)
    (h0 : 0 ≤ loc.device_index) (h1 : loc.device_index < N) :
    (get_backup_sectors N loc).Pairwise (fun a b => a.device_index < b.device_index) ∧
    ∀ e ∈ get_backup_sectors N loc,
      e.stripe_number = loc.stripe_number ∧ e.place_in_block = loc.place_in_block ∧
      (e.is_parity = true ↔
        e.device_index = get_parity_index_in_stripe N loc.stripe_number) ∧
      0 ≤ e.device_index ∧ e.device_index < N ∧ e.device_index ≠ loc.device_index := by
  refine ⟨backup_ascending N loc, fun e he => ?_⟩
  obtain ⟨e1, e2, e3, e4, _⟩ := backup_entry loc e he
  have hr := backup_entry_range hN loc e h0 h1 he
  exact ⟨e1, e2, e3, hr.1, hr.2, e4⟩

theorem backup_set_order_witness :
    (get_backup_sectors 4 ⟨0, 2, 3, false⟩).Pairwise
      (fun a b => a.device_index < b.device_index) :=
  (backup_set_order 4 ⟨0, 2, 3, false⟩ (by decide) (by decide) (by decide)).1

/-! ## Claims on reads -/

/-- C8: for a table of `N ≥ 2` devices, any I/O outcomes and `S ≥ 0`, `read_operation S`
returns, and it prints the bad-device line if and only if the direct read at
`get_physical_sector S` fails and, after some number of successful backup reads, the read
of the next backup location fails; the state it returns is then the state left by that
failing read plus the printed line, so nothing is accessed after the first failing backup
read. -/
theorem read_operation_failure_iff (env : Env) (st : State) (S : Int) (hwf : st.wf)
    (hS : 0 ≤ S) :
    ∃ st' b0 s0,
      read_operation env st S = .ok st' ∧
      read_physical env st (get_physical_sector st.g_num_dev S) = .ok (b0, s0) ∧
      (reports_failure st st' ↔
        b0 = false ∧ ∃ k x sk s',
          (get_backup_sectors st.g_num_dev (get_physical_sector st.g_num_dev S))[k]? = some x ∧
          reads_ok env s0
            ((get_backup_sectors st.g_num_dev (get_physical_sector st.g_num_dev S)).take k) sk ∧
          read_physical env sk x = .ok (false, s')) ∧
      (¬ reports_failure st st' → bad_reports st'.trace = bad_reports st.trace) ∧
      (b0 = false → ∀ k x sk s',
        (get_backup_sectors st.g_num_dev (get_physical_sector st.g_num_dev S))[k]? = some x →
        reads_ok env s0
          ((get_backup_sectors st.g_num_dev (get_physical_sector st.g_num_dev S)).take k) sk →
        read_physical env sk x = .ok (false, s') →
        st' = print_bad_operation_on_device s') := by
  have hd := device_range hwf.1 hS
  obtain ⟨b0, s0, e0, f0⟩ := io_operation_frame env IoKind.Read hwf hd.1 hd.2
  have hro : read_operation env st S =
      match (if !b0 then read_backup env s0 (get_physical_sector st.g_num_dev S)
             else .ok (b0, s0)) with
      | .error e => .error e
      | .ok (read_ok, st) =>
        if !read_ok then .ok (print_bad_operation_on_device st) else .ok st := by
    unfold read_operation
    simp only [read_physical]
    rw [e0]
  cases b0 with
  | true =>
    refine ⟨s0, true, s0, ?_, e0, ?_, fun _ => f0.2.2, fun h => by simp at h⟩
    · rw [hro]; rfl
    · unfold reports_failure
      rw [f0.2.2]
      simp
  | false =>
    have hrange : ∀ e ∈ get_backup_sectors st.g_num_dev (get_physical_sector st.g_num_dev S),
        0 ≤ e.device_index ∧ e.device_index < s0.g_num_dev := by
      intro e he
      rw [f0.2.1]
      exact backup_entry_range hwf.1 _ e hd.1 hd.2 he
    obtain ⟨b, s1, e1, w1, n1, r1, _, hf⟩ := read_backup_loop_ok env _ s0 f0.1 hrange
    have hrb : read_backup env s0 (get_physical_sector st.g_num_dev S) = .ok (b, s1) := by
      unfold read_backup
      rw [f0.2.1]
      exact e1
    cases b with
    | false =>
      refine ⟨print_bad_operation_on_device s1, false, s0, ?_, e0, ?_, ?_, ?_⟩
      · rw [hro]; simp only [Bool.not_false, if_true]; rw [hrb]; rfl
      · have hrep : reports_failure st (print_bad_operation_on_device s1) := by
          unfold reports_failure print_bad_operation_on_device log
          simp only [bad_reports_append, bad_reports_cons, bad_reports_nil,
            Event.is_bad_report, if_true]
          rw [r1, f0.2.2]
        obtain ⟨k, x, sk, hx, hok, hfail⟩ := hf rfl
        exact ⟨fun _ => ⟨rfl, k, x, sk, s1, hx, hok, hfail⟩, fun _ => hrep⟩
      · intro hno
        exfalso
        apply hno
        unfold reports_failure print_bad_operation_on_device log
        simp only [bad_reports_append, bad_reports_cons, bad_reports_nil,
          Event.is_bad_report, if_true]
        rw [r1, f0.2.2]
      · intro _ k x sk s' hx hok hfail
        have h := read_backup_loop_first_failure env _ s0 k x sk s' hx hok hfail
        rw [e1] at h
        simp only [Except.ok.injEq, Prod.mk.injEq, true_and] at h
        rw [h]
    | true =>
      have hnone : ¬ ∃ k x sk s',
          (get_backup_sectors st.g_num_dev (get_physical_sector st.g_num_dev S))[k]? = some x ∧
          reads_ok env s0
            ((get_backup_sectors st.g_num_dev (get_physical_sector st.g_num_dev S)).take k) sk ∧
          read_physical env sk x = .ok (false, s') := by
        rintro ⟨k, x, sk, s', hx, hok, hfail⟩
        have h := read_backup_loop_first_failure env _ s0 k x sk s' hx hok hfail
        rw [e1] at h
        simp at h
      refine ⟨s1, false, s0, ?_, e0, ?_, fun _ => by rw [r1, f0.2.2], ?_⟩
      · rw [hro]; simp only [Bool.not_false, if_true]; rw [hrb]; rfl
      · unfold reports_failure
        rw [r1, f0.2.2]
        constructor
        · intro h; omega
        · intro h; exact absurd h.2 hnone
      · intro _ k x sk s' hx hok hfail
        exact absurd ⟨k, x, sk, s', hx, hok, hfail⟩ hnone

theorem read_operation_failure_iff_witness :
    ∃ st', read_operation broken_env four_devices 0 = .ok st' ∧
      reports_failure four_devices st' := by
  obtain ⟨st', b0, s0, h1, h2, h3, _, _⟩ :=
    read_operation_failure_iff broken_env four_devices 0 ⟨by decide, by decide⟩ (by decide)
  refine ⟨st', h1, ?_⟩
  have e : read_operation broken_env four_devices 0 = .ok
      { g_num_dev := 4, g_dev_status := [-1, -1, 5, 6], g_last_bad_device := 1, clock := 8,
        trace := [.sys_lseek 3 0 (-1), .print_seek_failed 0, .sys_close 3,
          .sys_lseek 4 0 (-1), .print_seek_failed 1, .sys_close 4, .print_bad 1] } := by
    rfl
  rw [e] at h1
  simp only [Except.ok.injEq] at h1
  rw [← h1]
  unfold reports_failure
  decide

/-- Reading a list of locations on Open devices whose seeks and reads all succeed:
every location is read once, in order, and the device table is not changed. -/
theorem read_backup_loop_all_succeed (env : Env) (l : List PhysicalLocation) :
    ∀ (s : State), s.wf →
      (∀ e ∈ l, 0 ≤ e.device_index ∧ e.device_index < s.g_num_dev ∧
        0 ≤ s.handle e.device_index ∧
        (∀ t off, env.lseek_result t (s.handle e.device_index) off = off) ∧
        (∀ t, env.transfer_result t IoKind.Read (s.handle e.device_index) = IO_SIZE)) →
      read_backup_loop env s l = .ok (true,
        { s with
          clock := s.clock + 2 * l.length
          trace := s.trace ++ l.flatMap (fun e =>
            io_success_events IoKind.Read (s.handle e.device_index) e.device_index
              (physical_location_to_offset e) (physical_location_to_sector e)) }) := by
  induction l with
  | nil => intro s _ _; simp [read_backup_loop]
  | cons a l ih =>
    intro s hwf h
    obtain ⟨a0, a1, a2, a3, a4⟩ := h a (List.mem_cons_self _ _)
    have e1 := io_operation_success env IoKind.Read hwf a0 a1 a2 (a3 _ _) (a4 _)
    have hwf1 : (io_success_state s IoKind.Read
        (s.g_dev_status.getD a.device_index.toNat INVALID_DEVICE) a).wf := hwf
    have e2 := ih _ hwf1 (fun e he => h e (List.mem_cons_of_mem _ he))
    simp only [read_backup_loop, read_physical]
    rw [e1]
    simp only [Bool.not_true, Bool.false_eq_true, if_false]
    rw [e2]
    simp only [io_success_state, State.handle, List.flatMap_cons, List.length_cons,
      List.append_assoc, Except.ok.injEq, Prod.mk.injEq, true_and]
    congr 1
    omega

theorem flatMap_backup_events (l : List PhysicalLocation) (F : Int → Int → Int → List Event)
    (off sec : Int)
    (h : ∀ e ∈ l, physical_location_to_offset e = off ∧ physical_location_to_sector e = sec) :
    l.flatMap (fun e => F e.device_index (physical_location_to_offset e)
        (physical_location_to_sector e))
      = (l.map (fun e => e.device_index)).flatMap (fun d => F d off sec) := by
  induction l with
  | nil => rfl
  | cons a l ih =>
    obtain ⟨h1, h2⟩ := h a (List.mem_cons_self _ _)
    simp only [List.flatMap_cons, List.map_cons]
    rw [ih (fun e he => h e (List.mem_cons_of_mem _ he)), h1, h2]

theorem sector_of_same_place {e loc : PhysicalLocation}
    (h1 : e.stripe_number = loc.stripe_number) (h2 : e.place_in_block = loc.place_in_block) :
    physical_location_to_offset e = physical_location_to_offset loc ∧
      physical_location_to_sector e = physical_location_to_sector loc := by
  unfold physical_location_to_offset physical_location_to_sector
  rw [h1, h2]
  exact ⟨rfl, rfl⟩

theorem bad_reports_flatMap_success (devs : List Int) (kind : IoKind)
    (fd : Int → Int) (off sec : Int) :
    bad_reports (devs.flatMap (fun d => io_success_events kind (fd d) d off sec)) = 0 := by
  induction devs with
  | nil => rfl
  | cons a l ih =>
    rw [List.flatMap_cons, bad_reports_append, ih]
    simp [io_success_events, bad_reports_cons, bad_reports_nil, Event.is_bad_report]

/-- Degraded read: for `N ≥ 2` and a sector `S ≥ 0`, if the device of `get_physical_sector S` is
Failed and every other device is Open with all its seeks and reads succeeding,
`read_operation S` returns a state whose trace is extended by exactly one successful
seek-and-read per other device, in ascending device order, each reported at the
on-device sector of `get_physical_sector S`, which is `stripe*4 + place` for `S` in `int`
range; nothing is written, no bad-device line is printed and the device table is
unchanged.  The seeks go to `physical_location_to_offset`, the product formed in `int`. -/
theorem degraded_read_all_healthy (env : Env) (st : State) (S : Int) (hwf : st.wf)
    (hS : 0 ≤ S)
    (hfailed : st.is_failed (get_physical_sector st.g_num_dev S).device_index)
    (hopen : ∀ d, 0 ≤ d → d < st.g_num_dev →
      d ≠ (get_physical_sector st.g_num_dev S).device_index → st.is_open d)
    (hseek : ∀ d, 0 ≤ d → d < st.g_num_dev →
      d ≠ (get_physical_sector st.g_num_dev S).device_index →
      ∀ t off, env.lseek_result t (st.handle d) off = off)
    (hread : ∀ d, 0 ≤ d → d < st.g_num_dev →
      d ≠ (get_physical_sector st.g_num_dev S).device_index →
      ∀ t, env.transfer_result t IoKind.Read (st.handle d) = IO_SIZE) :
    ∃ (devs : List Int) (st' : State),
      devs.Pairwise (fun a b => a < b) ∧
      (∀ d, d ∈ devs ↔ 0 ≤ d ∧ d < st.g_num_dev ∧
        d ≠ (get_physical_sector st.g_num_dev S).device_index) ∧
      (devs.length : Int) = st.g_num_dev - 1 ∧
      read_operation env st S = .ok st' ∧
      st' =
        { st with
          g_last_bad_device := (get_physical_sector st.g_num_dev S).device_index
          clock := st.clock + 2 * devs.length
          trace := st.trace ++ devs.flatMap (fun d =>
            io_success_events IoKind.Read (st.handle d) d
              (physical_location_to_offset (get_physical_sector st.g_num_dev S))
              (physical_location_to_sector (get_physical_sector st.g_num_dev S))) } ∧
      ¬ reports_failure st st' ∧
      (S ≤ INT_MAX →
        physical_location_to_sector (get_physical_sector st.g_num_dev S)
          = (get_physical_sector st.g_num_dev S).stripe_number * 4
            + (get_physical_sector st.g_num_dev S).place_in_block) := by
  have hd := device_range hwf.1 hS
  refine ⟨(get_backup_sectors st.g_num_dev (get_physical_sector st.g_num_dev S)).map
      (fun e => e.device_index), _, ?_, backup_mem_device hwf.1 _ hd.1 hd.2, ?_, ?_, rfl, ?_,
      fun hmax => physical_location_to_sector_locate hwf.1 hS hmax⟩
  · rw [List.pairwise_map]
    exact backup_ascending _ _
  · rw [List.length_map]
    exact backup_length hwf.1 _
  · have hfd : st.g_dev_status.getD
        (get_physical_sector st.g_num_dev S).device_index.toNat INVALID_DEVICE < 0 := by
      rw [hfailed.2.2]; decide
    have e0 := io_operation_failed_device env IoKind.Read hwf hd.1 hd.2 hfd
    have hwf0 : State.wf { st with
        g_last_bad_device := (get_physical_sector st.g_num_dev S).device_index } := hwf
    have hall : ∀ e ∈ get_backup_sectors st.g_num_dev (get_physical_sector st.g_num_dev S),
        0 ≤ e.device_index ∧ e.device_index < st.g_num_dev ∧
        0 ≤ st.handle e.device_index ∧
        (∀ t off, env.lseek_result t (st.handle e.device_index) off = off) ∧
        (∀ t, env.transfer_result t IoKind.Read (st.handle e.device_index) = IO_SIZE) := by
      intro e he
      have hr := backup_entry_range hwf.1 _ e hd.1 hd.2 he
      have hne := (backup_entry _ e he).2.2.2.1
      exact ⟨hr.1, hr.2, (hopen _ hr.1 hr.2 hne).2.2, hseek _ hr.1 hr.2 hne,
        hread _ hr.1 hr.2 hne⟩
    have e1 := read_backup_loop_all_succeed env _ _ hwf0 hall
    have hsame : ∀ e ∈ get_backup_sectors st.g_num_dev (get_physical_sector st.g_num_dev S),
        physical_location_to_offset e
          = physical_location_to_offset (get_physical_sector st.g_num_dev S) ∧
        physical_location_to_sector e
          = physical_location_to_sector (get_physical_sector st.g_num_dev S) := by
      intro e he
      obtain ⟨h1, h2, _⟩ := backup_entry _ e he
      exact sector_of_same_place h1 h2
    have e2 := flatMap_backup_events _
      (fun d off sec => io_success_events IoKind.Read (st.handle d) d off sec) _ _ hsame
    unfold read_operation
    simp only [read_physical]
    rw [e0]
    simp only [Bool.not_false, if_true, read_backup]
    rw [e1]
    simp only [State.handle] at e2 ⊢
    rw [e2]
    simp [List.length_map]
  · unfold reports_failure
    simp only [bad_reports_append, bad_reports_flatMap_success]
    omega

theorem degraded_read_all_healthy_witness :
    (∃ (devs : List Int) (st' : State),
      devs.Pairwise (fun a b => a < b) ∧
      (∀ d, d ∈ devs ↔ 0 ≤ d ∧ d < 4 ∧ d ≠ 0) ∧
      read_operation healthy_env four_devices_killed_0 0 = .ok st' ∧
      ¬ reports_failure four_devices_killed_0 st') ∧
    read_operation healthy_env four_devices_killed_0 0 = .ok
      { g_num_dev := 4, g_dev_status := [-1, 4, 5, 6], g_last_bad_device := 0, clock := 11,
        trace := [.sys_lseek 4 0 0, .sys_transfer .Read 4 4096, .print_operated 1 0,
          .sys_lseek 5 0 0, .sys_transfer .Read 5 4096, .print_operated 2 0,
          .sys_lseek 6 0 0, .sys_transfer .Read 6 4096, .print_operated 3 0] } := by
  have hopen : ∀ d, 0 ≤ d → d < four_devices_killed_0.g_num_dev →
      d ≠ (get_physical_sector four_devices_killed_0.g_num_dev 0).device_index →
      four_devices_killed_0.is_open d := by
    intro d h0 h1 h2
    have h1' : d < 4 := h1
    have h2' : d ≠ 0 := h2
    have h : d = 1 ∨ d = 2 ∨ d = 3 := by omega
    rcases h with rfl | rfl | rfl <;> exact ⟨by decide, by decide, by decide⟩
  obtain ⟨devs, st', h1, h2, _, h4, _, h6, _⟩ :=
    degraded_read_all_healthy healthy_env four_devices_killed_0 0 ⟨by decide, by decide⟩
      (by decide) ⟨by decide, by decide, by decide⟩ hopen
      (fun _ _ _ _ _ _ => rfl) (fun _ _ _ _ _ => rfl)
  exact ⟨⟨devs, st', h1, h2, h4, h6⟩, rfl⟩

/-! ## Claims on writes -/

/-- C10: when the target device of `S` and the parity device of its stripe are both
Open, `standard_write` reads then writes the location with the lower device index, then
reads then writes the one with the higher device index, each step in the state left by
the previous one; the first failing step ends the write with failure in the state that
step left, and when all four succeed the write returns success with exactly these four
transfers appended to the trace. -/
theorem standard_write_order (env : Env) (st : State) (S : Int) (hwf : st.wf) (hS : 0 ≤ S)
    (_htarget : st.is_open (get_physical_sector st.g_num_dev S).device_index)
    (hparity : st.is_open
      (get_relevant_parity_sector st.g_num_dev (get_physical_sector st.g_num_dev S)).device_index) :
    ∃ lo hi : PhysicalLocation,
      ((lo = get_physical_sector st.g_num_dev S ∧
          hi = get_relevant_parity_sector st.g_num_dev (get_physical_sector st.g_num_dev S)) ∨
        (lo = get_relevant_parity_sector st.g_num_dev (get_physical_sector st.g_num_dev S) ∧
          hi = get_physical_sector st.g_num_dev S)) ∧
      lo.device_index < hi.device_index ∧
      ∃ b1 s1, read_physical env st lo = .ok (b1, s1) ∧
        (b1 = false →
          standard_write env st (get_physical_sector st.g_num_dev S)
            (get_relevant_parity_sector st.g_num_dev (get_physical_sector st.g_num_dev S))
            = .ok (false, s1)) ∧
        (b1 = true → ∃ b2 s2, write_physical env s1 lo = .ok (b2, s2) ∧
          (b2 = false →
            standard_write env st (get_physical_sector st.g_num_dev S)
              (get_relevant_parity_sector st.g_num_dev (get_physical_sector st.g_num_dev S))
              = .ok (false, s2)) ∧
          (b2 = true → ∃ b3 s3, read_physical env s2 hi = .ok (b3, s3) ∧
            (b3 = false →
              standard_write env st (get_physical_sector st.g_num_dev S)
                (get_relevant_parity_sector st.g_num_dev (get_physical_sector st.g_num_dev S))
                = .ok (false, s3)) ∧
            (b3 = true → ∃ b4 s4, write_physical env s3 hi = .ok (b4, s4) ∧
              standard_write env st (get_physical_sector st.g_num_dev S)
                (get_relevant_parity_sector st.g_num_dev (get_physical_sector st.g_num_dev S))
                = .ok (b4, s4) ∧
              (b4 = true → s4 =
                { st with
                  clock := st.clock + 8
                  trace := st.trace
                    ++ io_success_events IoKind.Read (st.handle lo.device_index)
                        lo.device_index (physical_location_to_offset lo)
                        (physical_location_to_sector lo)
                    ++ io_success_events IoKind.Write (st.handle lo.device_index)
                        lo.device_index (physical_location_to_offset lo)
                        (physical_location_to_sector lo)
                    ++ io_success_events IoKind.Read (st.handle hi.device_index)
                        hi.device_index (physical_location_to_offset hi)
                        (physical_location_to_sector hi)
                    ++ io_success_events IoKind.Write (st.handle hi.device_index)
                        hi.device_index (physical_location_to_offset hi)
                        (physical_location_to_sector hi) })))) := by
  have hd := device_range hwf.1 hS
  have hq := parity_range hwf.1 (stripe_nonneg hwf.1 hS)
  have hne := device_ne_parity hwf.1 hS
  have hpar : st.g_dev_status.getD
      (get_relevant_parity_sector st.g_num_dev
        (get_physical_sector st.g_num_dev S)).device_index.toNat INVALID_DEVICE
      ≠ INVALID_DEVICE := by
    have h := hparity.2.2
    intro hc
    rw [hc] at h
    exact absurd h (by decide)
  obtain ⟨lo, hlo⟩ : ∃ lo, lo =
      if (get_physical_sector st.g_num_dev S).device_index
          < (get_relevant_parity_sector st.g_num_dev
              (get_physical_sector st.g_num_dev S)).device_index
      then get_physical_sector st.g_num_dev S
      else get_relevant_parity_sector st.g_num_dev (get_physical_sector st.g_num_dev S) :=
    ⟨_, rfl⟩
  obtain ⟨hi, hhi⟩ : ∃ hi, hi =
      if (get_physical_sector st.g_num_dev S).device_index
          > (get_relevant_parity_sector st.g_num_dev
              (get_physical_sector st.g_num_dev S)).device_index
      then get_physical_sector st.g_num_dev S
      else get_relevant_parity_sector st.g_num_dev (get_physical_sector st.g_num_dev S) :=
    ⟨_, rfl⟩
  have hchoice :
      ((lo = get_physical_sector st.g_num_dev S ∧
          hi = get_relevant_parity_sector st.g_num_dev (get_physical_sector st.g_num_dev S)) ∨
        (lo = get_relevant_parity_sector st.g_num_dev (get_physical_sector st.g_num_dev S) ∧
          hi = get_physical_sector st.g_num_dev S)) ∧
      lo.device_index < hi.device_index := by
    have hne' : (get_physical_sector st.g_num_dev S).device_index
        ≠ (get_relevant_parity_sector st.g_num_dev
            (get_physical_sector st.g_num_dev S)).device_index := hne
    rw [hlo, hhi]
    by_cases hlt : (get_physical_sector st.g_num_dev S).device_index
        < (get_relevant_parity_sector st.g_num_dev
            (get_physical_sector st.g_num_dev S)).device_index
    · rw [if_pos hlt, if_neg (by omega)]
      exact ⟨Or.inl ⟨rfl, rfl⟩, hlt⟩
    · rw [if_neg hlt, if_pos (by omega)]
      exact ⟨Or.inr ⟨rfl, rfl⟩, by omega⟩
  have hlo0 : 0 ≤ lo.device_index ∧ lo.device_index < st.g_num_dev := by
    rcases hchoice.1 with ⟨h, _⟩ | ⟨h, _⟩ <;> rw [h]
    · exact hd
    · exact hq
  have hhi0 : 0 ≤ hi.device_index ∧ hi.device_index < st.g_num_dev := by
    rcases hchoice.1 with ⟨_, h⟩ | ⟨_, h⟩ <;> rw [h]
    · exact hq
    · exact hd
  obtain ⟨b1, s1, e1, f1, h1f, h1t⟩ :=
    standard_write_steps env hwf hd.1 hd.2 hq.1 hq.2 hne hpar lo hi hlo hhi
  refine ⟨lo, hi, hchoice.1, hchoice.2, b1, s1, e1, h1f, fun hb1 => ?_⟩
  obtain ⟨b2, s2, e2, f2, h2f, h2t⟩ := h1t hb1
  refine ⟨b2, s2, e2, h2f, fun hb2 => ?_⟩
  obtain ⟨b3, s3, e3, f3, h3f, h3t⟩ := h2t hb2
  refine ⟨b3, s3, e3, h3f, fun hb3 => ?_⟩
  obtain ⟨b4, s4, e4, _, h4⟩ := h3t hb3
  refine ⟨b4, s4, e4, h4, fun hb4 => ?_⟩
  subst hb1 hb2 hb3 hb4
  have i1 := (io_operation_true_inv env IoKind.Read hwf hlo0.1 hlo0.2 e1).2
  have i2 := (io_operation_true_inv env IoKind.Write f1.1 hlo0.1
    (by rw [f1.2.1]; exact hlo0.2) e2).2
  have i3 := (io_operation_true_inv env IoKind.Read f2.1 hhi0.1
    (by rw [f2.2.1]; exact hhi0.2) e3).2
  have i4 := (io_operation_true_inv env IoKind.Write f3.1 hhi0.1
    (by rw [f3.2.1]; exact hhi0.2) e4).2
  rw [i4, i3, i2, i1]
  simp [io_success_state, State.handle, List.append_assoc]

theorem standard_write_order_witness :
    ∃ lo hi : PhysicalLocation,
      lo.device_index < hi.device_index ∧
      ∃ b1 s1, read_physical healthy_env four_devices lo = .ok (b1, s1) := by
  obtain ⟨lo, hi, _, h2, b1, s1, h3, _⟩ :=
    standard_write_order healthy_env four_devices 13 ⟨by decide, by decide⟩ (by decide)
      ⟨by decide, by decide, by decide⟩ ⟨by decide, by decide, by decide⟩
  exact ⟨lo, hi, h2, b1, s1, h3⟩

/-! ## Inversion of the transport -/

theorem close_device_inv {st st' : State} {i : Int} (h : close_device st i = .ok st') :
    0 ≤ i ∧ i < st.g_num_dev ∧ i < st.g_dev_status.length ∧
      ((st.handle i = INVALID_DEVICE ∧ st' = st) ∨
        (st.handle i ≠ INVALID_DEVICE ∧
          st' = { st with
            g_dev_status := st.g_dev_status.set i.toNat INVALID_DEVICE
            clock := st.clock + 1
            trace := st.trace ++ [Event.sys_close (st.handle i)] })) := by
  unfold close_device at h
  by_cases hr : i ≥ 0 ∧ i < st.g_num_dev
  · rw [if_pos hr] at h
    unfold dev_status_get at h
    by_cases hl : 0 ≤ i ∧ i < (st.g_dev_status.length : Int)
    · rw [if_pos hl] at h
      simp only at h
      by_cases hfd : INVALID_DEVICE ≠ st.g_dev_status.getD i.toNat INVALID_DEVICE
      · rw [if_pos hfd] at h
        unfold dev_status_set at h
        have hl2 : 0 ≤ i ∧ i < ((syscall (Event.sys_close
            (st.g_dev_status.getD i.toNat INVALID_DEVICE)) st).g_dev_status.length : Int) := hl
        rw [if_pos hl2] at h
        simp only [Except.ok.injEq] at h
        exact ⟨hr.1, hr.2, hl.2, Or.inr ⟨Ne.symm hfd, by rw [← h]; rfl⟩⟩
      · rw [if_neg hfd] at h
        simp only [Except.ok.injEq] at h
        exact ⟨hr.1, hr.2, hl.2, Or.inl ⟨(not_not.1 hfd).symm, h.symm⟩⟩
    · rw [if_neg hl] at h
      simp at h
  · rw [if_neg hr] at h
    simp at h

/-- The four ways a sector transfer can return: the device was already marked Failed,
the seek missed, the transfer was short, or both succeeded. -/
theorem io_operation_inv (env : Env) {st st' : State} {loc : PhysicalLocation} {k : IoKind}
    {b : Bool} (h : io_operation env st loc k = .ok (b, st')) :
    0 ≤ loc.device_index ∧ loc.device_index < st.g_dev_status.length ∧
    ((st.handle loc.device_index < 0 ∧ b = false ∧
        st' = { st with g_last_bad_device := loc.device_index }) ∨
     (0 ≤ st.handle loc.device_index ∧ loc.device_index < st.g_num_dev ∧
        env.lseek_result st.clock (st.handle loc.device_index)
          (physical_location_to_offset loc) ≠ physical_location_to_offset loc ∧
        b = false ∧
        st' = io_closed_state st loc.device_index 2
          [Event.sys_lseek (st.handle loc.device_index) (physical_location_to_offset loc)
              (env.lseek_result st.clock (st.handle loc.device_index)
                (physical_location_to_offset loc)),
            Event.print_seek_failed loc.device_index,
            Event.sys_close (st.handle loc.device_index)]) ∨
     (0 ≤ st.handle loc.device_index ∧ loc.device_index < st.g_num_dev ∧
        env.lseek_result st.clock (st.handle loc.device_index)
          (physical_location_to_offset loc) = physical_location_to_offset loc ∧
        env.transfer_result (st.clock + 1) k (st.handle loc.device_index) ≠ IO_SIZE ∧
        b = false ∧
        st' = io_closed_state st loc.device_index 3
          [Event.sys_lseek (st.handle loc.device_index) (physical_location_to_offset loc)
              (physical_location_to_offset loc),
            Event.sys_transfer k (st.handle loc.device_index)
              (env.transfer_result (st.clock + 1) k (st.handle loc.device_index)),
            Event.print_transfer_failed k loc.device_index,
            Event.sys_close (st.handle loc.device_index)]) ∨
     (0 ≤ st.handle loc.device_index ∧
        env.lseek_result st.clock (st.handle loc.device_index)
          (physical_location_to_offset loc) = physical_location_to_offset loc ∧
        env.transfer_result (st.clock + 1) k (st.handle loc.device_index) = IO_SIZE ∧
        b = true ∧
        st' = io_success_state st k (st.handle loc.device_index) loc)) := by
  unfold io_operation at h
  simp only [dev_status_get] at h
  by_cases hl : 0 ≤ loc.device_index ∧ loc.device_index < (st.g_dev_status.length : Int)
  · rw [if_pos hl] at h
    simp only at h
    refine ⟨hl.1, hl.2, ?_⟩
    by_cases hfd : st.g_dev_status.getD loc.device_index.toNat INVALID_DEVICE < 0
    · rw [if_pos hfd] at h
      simp only [Except.ok.injEq, Prod.mk.injEq] at h
      exact Or.inl ⟨hfd, h.1.symm, h.2.symm⟩
    · rw [if_neg hfd] at h
      have hfd0 : 0 ≤ st.handle loc.device_index := by
        unfold State.handle; omega
      have hne : st.handle loc.device_index ≠ INVALID_DEVICE := by
        intro hc; rw [hc] at hfd0; exact absurd hfd0 (by decide)
      by_cases hseek : env.lseek_result st.clock
          (st.g_dev_status.getD loc.device_index.toNat INVALID_DEVICE)
          (physical_location_to_offset loc) = physical_location_to_offset loc
      · rw [if_neg (by rw [hseek]; simp)] at h
        have hclock : (syscall (Event.sys_lseek
            (st.g_dev_status.getD loc.device_index.toNat INVALID_DEVICE)
            (physical_location_to_offset loc)
            (env.lseek_result st.clock
              (st.g_dev_status.getD loc.device_index.toNat INVALID_DEVICE)
              (physical_location_to_offset loc))) st).clock = st.clock + 1 := rfl
        rw [hclock] at h
        by_cases hio : env.transfer_result (st.clock + 1) k
            (st.g_dev_status.getD loc.device_index.toNat INVALID_DEVICE) = IO_SIZE
        · rw [if_neg (by rw [hio]; simp)] at h
          simp only [Except.ok.injEq, Prod.mk.injEq] at h
          refine Or.inr (Or.inr (Or.inr ⟨hfd0, hseek, hio, h.1.symm, ?_⟩))
          rw [← h.2, hseek, hio]
          simp [io_success_state, io_success_events, print_operated_on_device, log, syscall,
            State.handle]
        · rw [if_pos hio] at h
          split at h
          · simp at h
          · rename_i sc hc
            simp only [Except.ok.injEq, Prod.mk.injEq] at h
            obtain ⟨_, c1, _, c3⟩ := close_device_inv hc
            refine Or.inr (Or.inr (Or.inl ⟨hfd0, c1, hseek, hio, h.1.symm, ?_⟩))
            rcases c3 with ⟨c4, _⟩ | ⟨_, c5⟩
            · exact absurd c4 hne
            · rw [← h.2, c5, hseek]
              simp [io_closed_state, log, syscall, State.handle]
      · rw [if_pos hseek] at h
        split at h
        · simp at h
        · rename_i sc hc
          simp only [Except.ok.injEq, Prod.mk.injEq] at h
          obtain ⟨_, c1, _, c3⟩ := close_device_inv hc
          refine Or.inr (Or.inl ⟨hfd0, c1, hseek, h.1.symm, ?_⟩)
          rcases c3 with ⟨c4, _⟩ | ⟨_, c5⟩
          · exact absurd c4 hne
          · rw [← h.2, c5]
            simp [io_closed_state, log, syscall, State.handle]
  · rw [if_neg hl] at h
    simp at h

theorem getD_set_self (l : List Int) (n : Nat) (v dflt : Int) (h : n < l.length) :
    (l.set n v).getD n dflt = v := by
  simp [h]

theorem getD_set_ne (l : List Int) (n m : Nat) (v dflt : Int) (h : n ≠ m) :
    (l.set n v).getD m dflt = l.getD m dflt := by
  simp [h]

theorem io_closed_state_handle_self (st : State) (d : Int) (t : Nat) (ev : List Event)
    (h0 : 0 ≤ d) (h1 : d < st.g_dev_status.length) :
    (io_closed_state st d t ev).handle d = INVALID_DEVICE := by
  unfold State.handle io_closed_state
  exact getD_set_self _ _ _ _ (by omega)

theorem io_closed_state_handle_ne (st : State) (d j : Int) (t : Nat) (ev : List Event)
    (h0 : 0 ≤ d) (hj : 0 ≤ j) (hne : j ≠ d) :
    (io_closed_state st d t ev).handle j = st.handle j := by
  unfold State.handle io_closed_state
  exact getD_set_ne _ _ _ _ _ (by omega)

/-- What a sector transfer may change: nothing about the number of devices and the table
size, no slot other than the one of its device, and that one only to `INVALID_DEVICE`. -/
theorem io_operation_effect (env : Env) {st st' : State} {loc : PhysicalLocation}
    {k : IoKind} {b : Bool} (h : io_operation env st loc k = .ok (b, st')) :
    st'.g_num_dev = st.g_num_dev ∧
    st'.g_dev_status.length = st.g_dev_status.length ∧
    (∀ j, 0 ≤ j → j ≠ loc.device_index → st'.handle j = st.handle j) ∧
    (st'.handle loc.device_index = st.handle loc.device_index ∨
      st'.handle loc.device_index = INVALID_DEVICE) ∧
    (b = true → st'.g_dev_status = st.g_dev_status ∧
      st'.g_last_bad_device = st.g_last_bad_device ∧
      0 ≤ st.handle loc.device_index) ∧
    (b = false → st'.g_last_bad_device = loc.device_index ∧
      (st'.handle loc.device_index = INVALID_DEVICE ∨
        st'.handle loc.device_index < INVALID_DEVICE)) ∧
    bad_reports st'.trace = bad_reports st.trace := by
  obtain ⟨h0, h1, hc⟩ := io_operation_inv env h
  rcases hc with ⟨hfd, hb, hs⟩ | ⟨hfd, _, _, hb, hs⟩ | ⟨hfd, _, _, _, hb, hs⟩ | ⟨hfd, _, _, hb, hs⟩
  · subst hb hs
    refine ⟨rfl, rfl, fun _ _ _ => rfl, Or.inl rfl, fun hc => by simp at hc, fun _ => ⟨rfl, ?_⟩,
      rfl⟩
    have hh : st.handle loc.device_index < 0 := hfd
    have hv : INVALID_DEVICE = -1 := rfl
    show st.handle loc.device_index = INVALID_DEVICE ∨ st.handle loc.device_index < INVALID_DEVICE
    omega
  · subst hb hs
    refine ⟨rfl, by simp [io_closed_state],
      fun j hj hne => io_closed_state_handle_ne _ _ _ _ _ h0 hj hne,
      Or.inr (io_closed_state_handle_self _ _ _ _ h0 h1), fun hc => by simp at hc,
      fun _ => ⟨rfl, Or.inl (io_closed_state_handle_self _ _ _ _ h0 h1)⟩, ?_⟩
    simp [io_closed_state, bad_reports_append, bad_reports_cons, bad_reports_nil,
      Event.is_bad_report]
  · subst hb hs
    refine ⟨rfl, by simp [io_closed_state],
      fun j hj hne => io_closed_state_handle_ne _ _ _ _ _ h0 hj hne,
      Or.inr (io_closed_state_handle_self _ _ _ _ h0 h1), fun hc => by simp at hc,
      fun _ => ⟨rfl, Or.inl (io_closed_state_handle_self _ _ _ _ h0 h1)⟩, ?_⟩
    simp [io_closed_state, bad_reports_append, bad_reports_cons, bad_reports_nil,
      Event.is_bad_report]
  · subst hb hs
    refine ⟨rfl, rfl, fun _ _ _ => rfl, Or.inl rfl, fun _ => ⟨rfl, rfl, hfd⟩,
      fun hc => by simp at hc, ?_⟩
    simp [io_success_state, io_success_events, bad_reports_append, bad_reports_cons,
      bad_reports_nil, Event.is_bad_report]

theorem is_failed_of_effect {st st' : State} {d : Int}
    (hlen : st'.g_dev_status.length = st.g_dev_status.length)
    (hother : ∀ j, 0 ≤ j → j ≠ d → st'.handle j = st.handle j)
    (hself : st'.handle d = st.handle d ∨ st'.handle d = INVALID_DEVICE)
    (j : Int) (hj : st.is_failed j) : st'.is_failed j := by
  obtain ⟨j0, j1, j2⟩ := hj
  refine ⟨j0, by rw [hlen]; exact j1, ?_⟩
  by_cases hjd : j = d
  · subst hjd
    rcases hself with h | h
    · exact h.trans j2
    · exact h
  · exact (hother j j0 hjd).trans j2

/-- A device marked Failed stays so across a sector transfer. -/
theorem io_operation_failed_mono (env : Env) {st st' : State} {loc : PhysicalLocation}
    {k : IoKind} {b : Bool} (h : io_operation env st loc k = .ok (b, st'))
    (j : Int) (hj : st.is_failed j) : st'.is_failed j := by
  obtain ⟨_, hlen, hother, hself, _⟩ := io_operation_effect env h
  exact is_failed_of_effect hlen hother hself j hj

/-! ## Sequences of sector transfers -/

theorem io_run_append (env : Env) (a : List (IoKind × PhysicalLocation × Bool)) :
    ∀ (s s1 s2 : State) (b : List (IoKind × PhysicalLocation × Bool)),
      io_run env s a s1 → io_run env s1 b s2 → io_run env s (a ++ b) s2 := by
  induction a with
  | nil =>
    intro s s1 s2 b h1 h2
    simp only [io_run] at h1
    subst h1
    exact h2
  | cons c a ih =>
    intro s s1 s2 b h1 h2
    obtain ⟨kd, x, f⟩ := c
    obtain ⟨sm, e, h⟩ := h1
    exact ⟨sm, e, ih sm s1 s2 b h h2⟩

theorem io_run_single (env : Env) {s s' : State} {kd : IoKind} {x : PhysicalLocation}
    {f : Bool} (h : io_operation env s x kd = .ok (f, s')) :
    io_run env s [(kd, x, f)] s' :=
  ⟨s', h, rfl⟩

/-- Across a sequence of sector transfers the number of devices, the table size and the
number of bad-device lines stay, and a device marked Failed stays so. -/
theorem io_run_effect (env : Env) (calls : List (IoKind × PhysicalLocation × Bool)) :
    ∀ (s s' : State), io_run env s calls s' →
      s'.g_num_dev = s.g_num_dev ∧ s'.g_dev_status.length = s.g_dev_status.length ∧
      bad_reports s'.trace = bad_reports s.trace ∧
      ∀ j, s.is_failed j → s'.is_failed j := by
  induction calls with
  | nil =>
    intro s s' h
    simp only [io_run] at h
    subst h
    exact ⟨rfl, rfl, rfl, fun _ h => h⟩
  | cons c calls ih =>
    intro s s' h
    obtain ⟨kd, x, f⟩ := c
    obtain ⟨sm, e, h⟩ := h
    obtain ⟨a1, a2, a3, a4⟩ := ih sm s' h
    obtain ⟨b1, b2, _, _, _, _, b3⟩ := io_operation_effect env e
    exact ⟨a1.trans b1, a2.trans b2, a3.trans b3,
      fun j hj => a4 j (io_operation_failed_mono env e j hj)⟩

theorem run_transfers_first_failure (env : Env) (ops : List (IoKind × PhysicalLocation)) :
    ∀ (s : State) (n : Nat) (kd : IoKind) (x : PhysicalLocation) (sk s' : State),
      ops[n]? = some (kd, x) → io_run env s (all_succeed (ops.take n)) sk →
      io_operation env sk x kd = .ok (false, s') →
      run_transfers env s ops = .ok (false, s') := by
  induction ops with
  | nil => intro s n kd x sk s' hx; simp at hx
  | cons a ops ih =>
    intro s n kd x sk s' hx hok hfail
    obtain ⟨ka, xa⟩ := a
    cases n with
    | zero =>
      simp only [List.getElem?_cons_zero, Option.some.injEq, Prod.mk.injEq] at hx
      simp only [List.take_zero, all_succeed, List.map_nil, io_run] at hok
      obtain ⟨h1, h2⟩ := hx
      subst h1 h2 hok
      simp [run_transfers, hfail]
    | succ n =>
      simp only [List.getElem?_cons_succ] at hx
      simp only [List.take_succ_cons, all_succeed, List.map_cons, io_run] at hok
      obtain ⟨s1, h1, h2⟩ := hok
      simp only [run_transfers, h1]
      simpa using ih s1 n kd x sk s' hx h2 hfail

/-- Transfers on in-range devices always return a result: either all succeeded, or the
first failing one ended the sequence in the state it left. -/
theorem run_transfers_outcome (env : Env) (ops : List (IoKind × PhysicalLocation)) :
    ∀ (s : State), s.wf →
      (∀ op ∈ ops, 0 ≤ op.2.device_index ∧ op.2.device_index < s.g_num_dev) →
      ∃ b s', run_transfers env s ops = .ok (b, s') ∧ frame_kept s s' ∧
        (b = true → io_run env s (all_succeed ops) s') ∧
        (b = false → ∃ n kd x sk, ops[n]? = some (kd, x) ∧
          io_run env s (all_succeed (ops.take n)) sk ∧
          io_operation env sk x kd = .ok (false, s')) := by
  induction ops with
  | nil =>
    intro s hwf _
    exact ⟨true, s, rfl, frame_kept_refl hwf, fun _ => rfl, fun h => by simp at h⟩
  | cons a ops ih =>
    intro s hwf hr
    obtain ⟨ka, xa⟩ := a
    have ha := hr (ka, xa) (List.mem_cons_self _ _)
    obtain ⟨b, s1, e1, f1⟩ := io_operation_frame env ka hwf ha.1 ha.2
    cases b with
    | false =>
      refine ⟨false, s1, ?_, f1, fun h => by simp at h, fun _ => ?_⟩
      · simp [run_transfers, e1]
      · exact ⟨0, ka, xa, s, by simp, rfl, e1⟩
    | true =>
      obtain ⟨b, s2, e2, f2, ht, hf⟩ := ih s1 f1.1
        (fun op hop => by rw [f1.2.1]; exact hr op (List.mem_cons_of_mem _ hop))
      refine ⟨b, s2, ?_, frame_kept_trans f1 f2, fun h => ?_, fun h => ?_⟩
      · simp [run_transfers, e1, e2]
      · exact ⟨s1, e1, ht h⟩
      · obtain ⟨n, kd, x, sk, hx, hok, hfail⟩ := hf h
        exact ⟨n + 1, kd, x, sk, by simpa using hx, ⟨s1, e1, hok⟩, hfail⟩

theorem read_backup_loop_eq_run (env : Env) (l : List PhysicalLocation) :
    ∀ (s : State), read_backup_loop env s l
      = run_transfers env s (l.map (fun e => (IoKind.Read, e))) := by
  induction l with
  | nil => intro s; rfl
  | cons a l ih =>
    intro s
    simp only [read_backup_loop, List.map_cons, run_transfers, read_physical]
    cases io_operation env s a IoKind.Read with
    | error e => rfl
    | ok r =>
      obtain ⟨b, s1⟩ := r
      cases b with
      | false => rfl
      | true => simpa using ih s1

theorem error_state_write_loop_eq_run (env : Env) (l : List PhysicalLocation) :
    ∀ (s : State), error_state_write_loop env s l
      = run_transfers env s
          (l.map (fun e => (if e.is_parity then IoKind.Write else IoKind.Read, e))) := by
  induction l with
  | nil => intro s; rfl
  | cons a l ih =>
    intro s
    have hstep : (if a.is_parity then write_physical env s a else read_physical env s a)
        = io_operation env s a (if a.is_parity then IoKind.Write else IoKind.Read) := by
      split_ifs <;> rfl
    simp only [error_state_write_loop, List.map_cons, run_transfers]
    rw [hstep]
    cases io_operation env s a (if a.is_parity then IoKind.Write else IoKind.Read) with
    | error e => rfl
    | ok r =>
      obtain ⟨b, s1⟩ := r
      cases b with
      | false => rfl
      | true => simpa using ih s1

theorem error_state_write_eq_run (env : Env) (s : State) (loc : PhysicalLocation) :
    error_state_write env s loc
      = run_transfers env s (degraded_write_ops s.g_num_dev loc) := by
  unfold error_state_write degraded_write_ops
  exact error_state_write_loop_eq_run env _ s

theorem run_transfers_single (env : Env) (s : State) (kd : IoKind) (x : PhysicalLocation) :
    run_transfers env s [(kd, x)] = io_operation env s x kd := by
  simp only [run_transfers]
  cases io_operation env s x kd with
  | error e => rfl
  | ok r =>
    obtain ⟨b, s1⟩ := r
    cases b <;> rfl

/-- With the parity device marked Failed, `standard_write` is the write of the target. -/
theorem standard_write_parity_failed (env : Env) {st : State}
    {real parity : PhysicalLocation} (hwf : st.wf)
    (hp0 : 0 ≤ parity.device_index) (hp1 : parity.device_index < st.g_num_dev)
    (hpar : st.handle parity.device_index = INVALID_DEVICE) :
    standard_write env st real parity = run_transfers env st [(IoKind.Write, real)] := by
  rw [run_transfers_single]
  unfold standard_write
  simp only [dev_status_get_ok hwf hp0 hp1]
  have h : st.g_dev_status.getD parity.device_index.toNat INVALID_DEVICE = INVALID_DEVICE :=
    hpar
  rw [if_neg (by rw [h]; simp)]
  rfl

/-- With the parity device not marked Failed, `standard_write` is the sequence of the
four transfers, lower device index first. -/
theorem standard_write_eq_run (env : Env) {st : State} {real parity : PhysicalLocation}
    (hwf : st.wf) (hp0 : 0 ≤ parity.device_index) (hp1 : parity.device_index < st.g_num_dev)
    (hne : real.device_index ≠ parity.device_index)
    (hpar : st.handle parity.device_index ≠ INVALID_DEVICE) :
    standard_write env st real parity = run_transfers env st
      (standard_write_ops
        (if real.device_index < parity.device_index then real else parity)
        (if real.device_index > parity.device_index then real else parity)) := by
  unfold standard_write
  simp only [dev_status_get_ok hwf hp0 hp1]
  have h : st.g_dev_status.getD parity.device_index.toNat INVALID_DEVICE ≠ INVALID_DEVICE :=
    hpar
  rw [if_pos (Ne.symm h), if_pos hne]
  rfl

theorem run_transfers_all_succeed (env : Env) (ops : List (IoKind × PhysicalLocation)) :
    ∀ (s s' : State), io_run env s (all_succeed ops) s' →
      run_transfers env s ops = .ok (true, s') := by
  induction ops with
  | nil =>
    intro s s' h
    simp only [all_succeed, List.map_nil, io_run] at h
    subst h
    rfl
  | cons a ops ih =>
    intro s s' h
    obtain ⟨ka, xa⟩ := a
    simp only [all_succeed, List.map_cons, io_run] at h
    obtain ⟨s1, h1, h2⟩ := h
    simp only [run_transfers, h1]
    simpa using ih s1 s' h2

theorem io_run_append_inv (env : Env) (a : List (IoKind × PhysicalLocation × Bool)) :
    ∀ (s s2 : State) (b : List (IoKind × PhysicalLocation × Bool)),
      io_run env s (a ++ b) s2 → ∃ s1, io_run env s a s1 ∧ io_run env s1 b s2 := by
  induction a with
  | nil => intro s s2 b h; exact ⟨s, rfl, h⟩
  | cons c a ih =>
    intro s s2 b h
    obtain ⟨kd, x, f⟩ := c
    obtain ⟨sm, e, h⟩ := h
    obtain ⟨s1, h1, h2⟩ := ih sm s2 b h
    exact ⟨s1, ⟨sm, e, h1⟩, h2⟩

/-- After a sequence of transfers whose last call failed, the last bad device is the
device of that call. -/
theorem io_run_last_failed (env : Env) {s s' : State}
    {c : List (IoKind × PhysicalLocation × Bool)} {kd : IoKind} {x : PhysicalLocation}
    (h : io_run env s (c ++ [(kd, x, false)]) s') :
    s'.g_last_bad_device = x.device_index := by
  obtain ⟨s1, _, h2⟩ := io_run_append_inv env c s s' _ h
  obtain ⟨s2, e, h3⟩ := h2
  simp only [io_run] at h3
  subst h3
  exact ((io_operation_effect env e).2.2.2.2.2.1 rfl).1

/-- Outcome of a sequence of transfers as the list of calls made: when it fails, the
last call made is the failing one. -/
theorem run_transfers_calls (env : Env) (ops : List (IoKind × PhysicalLocation))
    (s : State) (hwf : s.wf)
    (hr : ∀ op ∈ ops, 0 ≤ op.2.device_index ∧ op.2.device_index < s.g_num_dev) :
    ∃ b s' calls, run_transfers env s ops = .ok (b, s') ∧ frame_kept s s' ∧
      io_run env s calls s' ∧
      (b = false → ∃ c kd x, calls = c ++ [(kd, x, false)] ∧ (kd, x) ∈ ops) := by
  obtain ⟨b, s', e, f, ht, hf⟩ := run_transfers_outcome env ops s hwf hr
  cases b with
  | true => exact ⟨true, s', _, e, f, ht rfl, fun h => by simp at h⟩
  | false =>
    obtain ⟨n, kd, x, sk, hx, hok, hfail⟩ := hf rfl
    refine ⟨false, s', _, e, f,
      io_run_append env _ s sk s' _ hok (io_run_single env hfail),
      fun _ => ⟨_, kd, x, rfl, List.getElem?_mem hx⟩⟩

theorem print_bad_reports (st s : State) (h : bad_reports s.trace = bad_reports st.trace) :
    reports_failure st (print_bad_operation_on_device s) := by
  unfold reports_failure print_bad_operation_on_device log
  simp only [bad_reports_append, bad_reports_cons, bad_reports_nil, Event.is_bad_report,
    if_true]
  rw [h]

theorem not_reports_of_same (st s : State) (h : bad_reports s.trace = bad_reports st.trace) :
    ¬ reports_failure st s := by
  unfold reports_failure
  omega

/-! ## Shape of a whole operation -/

/-- The effect of `read_operation`: a sequence of sector transfers, followed by the
bad-device line exactly when the last transfer made has failed in the degraded read. -/
theorem read_operation_structure (env : Env) {st : State} {S : Int} (hwf : st.wf)
    (hS : 0 ≤ S) :
    ∃ st' calls s, read_operation env st S = .ok st' ∧ io_run env st calls s ∧
      frame_kept st s ∧
      (st' = s ∨ (st' = print_bad_operation_on_device s ∧
        ∃ c kd x, calls = c ++ [(kd, x, false)])) := by
  have hd := device_range hwf.1 hS
  obtain ⟨b0, s0, e0, f0⟩ := io_operation_frame env IoKind.Read hwf hd.1 hd.2
  have hro : read_operation env st S =
      match (if !b0 then read_backup env s0 (get_physical_sector st.g_num_dev S)
             else .ok (b0, s0)) with
      | .error e => .error e
      | .ok (read_ok, st) =>
        if !read_ok then .ok (print_bad_operation_on_device st) else .ok st := by
    unfold read_operation
    simp only [read_physical]
    rw [e0]
  cases b0 with
  | true =>
    refine ⟨s0, _, s0, ?_, io_run_single env e0, f0, Or.inl rfl⟩
    rw [hro]; rfl
  | false =>
    have hrange : ∀ op ∈ (get_backup_sectors s0.g_num_dev
        (get_physical_sector st.g_num_dev S)).map (fun e => (IoKind.Read, e)),
        0 ≤ op.2.device_index ∧ op.2.device_index < s0.g_num_dev := by
      intro op hop
      obtain ⟨e, he, rfl⟩ := List.mem_map.1 hop
      rw [f0.2.1] at he ⊢
      exact backup_entry_range hwf.1 _ e hd.1 hd.2 he
    obtain ⟨b, s1, calls, e1, f1, r1, hl⟩ := run_transfers_calls env _ s0 f0.1 hrange
    have hrb : read_backup env s0 (get_physical_sector st.g_num_dev S) = .ok (b, s1) := by
      unfold read_backup
      rw [read_backup_loop_eq_run]
      exact e1
    have hrun := io_run_append env _ st s0 s1 calls (io_run_single env e0) r1
    cases b with
    | true =>
      refine ⟨s1, _, s1, ?_, hrun, frame_kept_trans f0 f1, Or.inl rfl⟩
      rw [hro]; simp only [Bool.not_false, if_true]; rw [hrb]; rfl
    | false =>
      obtain ⟨c, kd, x, hc, _⟩ := hl rfl
      refine ⟨print_bad_operation_on_device s1, _, s1, ?_, hrun, frame_kept_trans f0 f1,
        Or.inr ⟨rfl, (IoKind.Read, get_physical_sector st.g_num_dev S, false) :: c, kd, x, ?_⟩⟩
      · rw [hro]; simp only [Bool.not_false, if_true]; rw [hrb]; rfl
      · rw [hc]; rfl

/-- The transfers `standard_write` attempts on the locations `write_operation` passes. -/
theorem standard_write_run (env : Env) {st : State} {S : Int} (hwf : st.wf) (hS : 0 ≤ S) :
    ∃ ops, standard_write env st (get_physical_sector st.g_num_dev S)
        (get_relevant_parity_sector st.g_num_dev (get_physical_sector st.g_num_dev S))
        = run_transfers env st ops ∧
      ∀ op ∈ ops, 0 ≤ op.2.device_index ∧ op.2.device_index < st.g_num_dev := by
  have hd := device_range hwf.1 hS
  have hq := parity_range hwf.1 (stripe_nonneg hwf.1 hS)
  have hne := device_ne_parity hwf.1 hS
  by_cases hpar : st.handle (get_relevant_parity_sector st.g_num_dev
      (get_physical_sector st.g_num_dev S)).device_index = INVALID_DEVICE
  · refine ⟨_, standard_write_parity_failed env hwf hq.1 hq.2 hpar, ?_⟩
    intro op hop
    simp only [List.mem_singleton] at hop
    subst hop
    exact hd
  · refine ⟨_, standard_write_eq_run env hwf hq.1 hq.2 hne hpar, ?_⟩
    intro op hop
    simp only [standard_write_ops, List.mem_cons, List.mem_singleton, List.not_mem_nil,
      or_false] at hop
    rcases hop with rfl | rfl | rfl | rfl <;> simp only <;> split_ifs <;>
      first | exact hd | exact hq

/-- The effect of `write_operation`: a sequence of sector transfers, followed by the
bad-device line exactly when the last transfer made has failed in the degraded write. -/
theorem write_operation_structure (env : Env) {st : State} {S : Int} (hwf : st.wf)
    (hS : 0 ≤ S) :
    ∃ st' calls s, write_operation env st S = .ok st' ∧ io_run env st calls s ∧
      frame_kept st s ∧
      (st' = s ∨ (st' = print_bad_operation_on_device s ∧
        ∃ c kd x, calls = c ++ [(kd, x, false)])) := by
  have hd := device_range hwf.1 hS
  obtain ⟨b1, s1, calls1, e1, f1, r1⟩ :
      ∃ b1 s1 calls1, (if INVALID_DEVICE ≠ st.g_dev_status.getD
            (get_physical_sector st.g_num_dev S).device_index.toNat INVALID_DEVICE
          then standard_write env st (get_physical_sector st.g_num_dev S)
            (get_relevant_parity_sector st.g_num_dev (get_physical_sector st.g_num_dev S))
          else .ok (false, st)) = .ok (b1, s1) ∧ frame_kept st s1 ∧
        io_run env st calls1 s1 := by
    split_ifs
    · obtain ⟨ops, ho, hr⟩ := standard_write_run env hwf hS
      obtain ⟨b, s', calls, e, f, r, _⟩ := run_transfers_calls env ops st hwf hr
      exact ⟨b, s', calls, by rw [ho]; exact e, f, r⟩
    · exact ⟨false, st, [], rfl, frame_kept_refl hwf, rfl⟩
  have hwo : write_operation env st S =
      match (if !b1 then error_state_write env s1 (get_physical_sector st.g_num_dev S)
             else .ok (b1, s1)) with
      | .error e => .error e
      | .ok (write_succeeded, st) =>
        if !write_succeeded then .ok (print_bad_operation_on_device st) else .ok st := by
    unfold write_operation
    simp only [dev_status_get_ok hwf hd.1 hd.2]
    rw [e1]
  cases b1 with
  | true =>
    refine ⟨s1, calls1, s1, ?_, r1, f1, Or.inl rfl⟩
    rw [hwo]; rfl
  | false =>
    have hrange : ∀ op ∈ degraded_write_ops s1.g_num_dev (get_physical_sector st.g_num_dev S),
        0 ≤ op.2.device_index ∧ op.2.device_index < s1.g_num_dev := by
      intro op hop
      obtain ⟨e, he, rfl⟩ := List.mem_map.1 hop
      rw [f1.2.1] at he ⊢
      exact backup_entry_range hwf.1 _ e hd.1 hd.2 he
    obtain ⟨b, s2, calls2, e2, f2, r2, hl⟩ := run_transfers_calls env _ s1 f1.1 hrange
    have hes : error_state_write env s1 (get_physical_sector st.g_num_dev S) = .ok (b, s2) := by
      rw [error_state_write_eq_run]
      exact e2
    have hrun := io_run_append env _ st s1 s2 calls2 r1 r2
    cases b with
    | true =>
      refine ⟨s2, _, s2, ?_, hrun, frame_kept_trans f1 f2, Or.inl rfl⟩
      rw [hwo]; simp only [Bool.not_false, if_true]; rw [hes]; rfl
    | false =>
      obtain ⟨c, kd, x, hc, _⟩ := hl rfl
      refine ⟨print_bad_operation_on_device s2, _, s2, ?_, hrun, frame_kept_trans f1 f2,
        Or.inr ⟨rfl, calls1 ++ c, kd, x, ?_⟩⟩
      · rw [hwo]; simp only [Bool.not_false, if_true]; rw [hes]; rfl
      · rw [hc, List.append_assoc]

/-! ## Claims on degraded writes -/

/-- Write with a failed parity device: for `N ≥ 2` and `S ≥ 0`, if the target device of `get_physical_sector S` is Open,
the parity device of its stripe is Failed and the seek and the write on the target
succeed, `write_operation S` returns the state in which exactly one sector transfer was
made, a write on the target at `get_physical_sector S`; no other device is accessed, the
device table is unchanged and no bad-device line is printed. -/
theorem write_with_failed_parity (env : Env) (st : State) (S : Int) (hwf : st.wf)
    (hS : 0 ≤ S)
    (htarget : st.is_open (get_physical_sector st.g_num_dev S).device_index)
    (hparity : st.is_failed
      (get_relevant_parity_sector st.g_num_dev (get_physical_sector st.g_num_dev S)).device_index)
    (hseek : env.lseek_result st.clock
        (st.handle (get_physical_sector st.g_num_dev S).device_index)
        (physical_location_to_offset (get_physical_sector st.g_num_dev S))
      = physical_location_to_offset (get_physical_sector st.g_num_dev S))
    (hio : env.transfer_result (st.clock + 1) IoKind.Write
        (st.handle (get_physical_sector st.g_num_dev S).device_index) = IO_SIZE) :
    write_operation env st S = .ok
        { st with
          clock := st.clock + 2
          trace := st.trace ++ io_success_events IoKind.Write
            (st.handle (get_physical_sector st.g_num_dev S).device_index)
            (get_physical_sector st.g_num_dev S).device_index
            (physical_location_to_offset (get_physical_sector st.g_num_dev S))
            (physical_location_to_sector (get_physical_sector st.g_num_dev S)) } ∧
      ¬ reports_failure st
        { st with
          clock := st.clock + 2
          trace := st.trace ++ io_success_events IoKind.Write
            (st.handle (get_physical_sector st.g_num_dev S).device_index)
            (get_physical_sector st.g_num_dev S).device_index
            (physical_location_to_offset (get_physical_sector st.g_num_dev S))
            (physical_location_to_sector (get_physical_sector st.g_num_dev S)) } ∧
      (get_physical_sector st.g_num_dev S).device_index
        ≠ (get_relevant_parity_sector st.g_num_dev
            (get_physical_sector st.g_num_dev S)).device_index := by
  have hd := device_range hwf.1 hS
  have hq := parity_range hwf.1 (stripe_nonneg hwf.1 hS)
  have hne := device_ne_parity hwf.1 hS
  have hfd : 0 ≤ st.g_dev_status.getD
      (get_physical_sector st.g_num_dev S).device_index.toNat INVALID_DEVICE := htarget.2.2
  have e1 := io_operation_success env IoKind.Write hwf hd.1 hd.2 hfd hseek hio
  have hsw : standard_write env st (get_physical_sector st.g_num_dev S)
      (get_relevant_parity_sector st.g_num_dev (get_physical_sector st.g_num_dev S))
      = .ok (true, io_success_state st IoKind.Write
          (st.g_dev_status.getD
            (get_physical_sector st.g_num_dev S).device_index.toNat INVALID_DEVICE)
          (get_physical_sector st.g_num_dev S)) := by
    rw [standard_write_parity_failed env hwf hq.1 hq.2 hparity.2.2, run_transfers_single]
    exact e1
  refine ⟨?_, ?_, hne⟩
  · unfold write_operation
    simp only [dev_status_get_ok hwf hd.1 hd.2]
    rw [if_pos (by intro hc; rw [← hc] at hfd; exact absurd hfd (by decide)), hsw]
    rfl
  · apply not_reports_of_same
    simp [io_success_events, bad_reports_append, bad_reports_cons, bad_reports_nil,
      Event.is_bad_report]

theorem write_with_failed_parity_witness :
    write_operation healthy_env four_devices_killed_3 0 = .ok
      { four_devices_killed_3 with
        clock := 7
        trace := [.sys_lseek 3 0 0, .sys_transfer .Write 3 4096, .print_operated 0 0] } :=
  (write_with_failed_parity healthy_env four_devices_killed_3 0 ⟨by decide, by decide⟩
    (by decide) ⟨by decide, by decide, by decide⟩ ⟨by decide, by decide, by decide⟩
    rfl rfl).1

/-- C12: for `N ≥ 2` and `S ≥ 0`, if the target device of `get_physical_sector S` is
Failed when `write_operation S` starts, the transfers of the operation are those of the
backup set: `N-1` locations in ascending device order, one on every device other than
the target, a write on the stripe's parity device and a read on every other device.  The
operation returns; it prints no bad-device line if and only if all of them succeed, and
then ends in the state they left; at the first failing transfer it stops, in the state
that transfer left plus the bad-device line. -/
theorem degraded_write_target_failed (env : Env) (st : State) (S : Int) (hwf : st.wf)
    (hS : 0 ≤ S)
    (hfailed : st.is_failed (get_physical_sector st.g_num_dev S).device_index) :
    ((degraded_write_ops st.g_num_dev (get_physical_sector st.g_num_dev S)).length : Int)
        = st.g_num_dev - 1 ∧
    (degraded_write_ops st.g_num_dev (get_physical_sector st.g_num_dev S)).Pairwise
        (fun a b => a.2.device_index < b.2.device_index) ∧
    (∀ op ∈ degraded_write_ops st.g_num_dev (get_physical_sector st.g_num_dev S),
      0 ≤ op.2.device_index ∧ op.2.device_index < st.g_num_dev ∧
      op.2.device_index ≠ (get_physical_sector st.g_num_dev S).device_index ∧
      op.2.stripe_number = (get_physical_sector st.g_num_dev S).stripe_number ∧
      op.2.place_in_block = (get_physical_sector st.g_num_dev S).place_in_block ∧
      (op.1 = IoKind.Write ↔ op.2.device_index
        = get_parity_index_in_stripe st.g_num_dev
            (get_physical_sector st.g_num_dev S).stripe_number) ∧
      (op.1 = IoKind.Read ↔ op.2.device_index
        ≠ get_parity_index_in_stripe st.g_num_dev
            (get_physical_sector st.g_num_dev S).stripe_number)) ∧
    (∀ d, 0 ≤ d → d < st.g_num_dev →
      d ≠ (get_physical_sector st.g_num_dev S).device_index →
      ∃ op ∈ degraded_write_ops st.g_num_dev (get_physical_sector st.g_num_dev S),
        op.2.device_index = d) ∧
    ∃ st', write_operation env st S = .ok st' ∧
      (¬ reports_failure st st' ↔
        ∃ s', io_run env st
          (all_succeed (degraded_write_ops st.g_num_dev (get_physical_sector st.g_num_dev S)))
          s') ∧
      (∀ s', io_run env st
          (all_succeed (degraded_write_ops st.g_num_dev (get_physical_sector st.g_num_dev S)))
          s' → st' = s') ∧
      (∀ n kd x sk s',
        (degraded_write_ops st.g_num_dev (get_physical_sector st.g_num_dev S))[n]?
          = some (kd, x) →
        io_run env st (all_succeed
          ((degraded_write_ops st.g_num_dev (get_physical_sector st.g_num_dev S)).take n)) sk →
        io_operation env sk x kd = .ok (false, s') →
        st' = print_bad_operation_on_device s' ∧ reports_failure st st') := by
  have hd := device_range hwf.1 hS
  have hentry : ∀ op ∈ degraded_write_ops st.g_num_dev (get_physical_sector st.g_num_dev S),
      0 ≤ op.2.device_index ∧ op.2.device_index < st.g_num_dev ∧
      op.2.device_index ≠ (get_physical_sector st.g_num_dev S).device_index ∧
      op.2.stripe_number = (get_physical_sector st.g_num_dev S).stripe_number ∧
      op.2.place_in_block = (get_physical_sector st.g_num_dev S).place_in_block ∧
      (op.1 = IoKind.Write ↔ op.2.device_index
        = get_parity_index_in_stripe st.g_num_dev
            (get_physical_sector st.g_num_dev S).stripe_number) ∧
      (op.1 = IoKind.Read ↔ op.2.device_index
        ≠ get_parity_index_in_stripe st.g_num_dev
            (get_physical_sector st.g_num_dev S).stripe_number) := by
    intro op hop
    obtain ⟨e, he, rfl⟩ := List.mem_map.1 hop
    obtain ⟨e1, e2, e3, e4, _⟩ := backup_entry _ e he
    have hr := backup_entry_range hwf.1 _ e hd.1 hd.2 he
    refine ⟨hr.1, hr.2, e4, e1, e2, ?_, ?_⟩
    · simp only
      rw [← e3]
      cases e.is_parity <;> simp
    · simp only
      rw [Ne, ← e3]
      cases e.is_parity <;> simp
  refine ⟨?_, ?_, hentry, ?_, ?_⟩
  · unfold degraded_write_ops
    rw [List.length_map]
    exact backup_length hwf.1 _
  · unfold degraded_write_ops
    rw [List.pairwise_map]
    exact backup_ascending _ _
  · intro d h0 h1 hne
    obtain ⟨e, he, hed⟩ := List.mem_map.1
      ((backup_mem_device hwf.1 _ hd.1 hd.2 d).2 ⟨h0, h1, hne⟩)
    exact ⟨_, List.mem_map.2 ⟨e, he, rfl⟩, hed⟩
  · obtain ⟨b, s2, e2, f2, ht, hf⟩ := run_transfers_outcome env _ st hwf
      (fun op hop => ⟨(hentry op hop).1, (hentry op hop).2.1⟩)
    have hwo : write_operation env st S =
        match run_transfers env st
          (degraded_write_ops st.g_num_dev (get_physical_sector st.g_num_dev S)) with
        | .error e => .error e
        | .ok (write_succeeded, st) =>
          if !write_succeeded then .ok (print_bad_operation_on_device st) else .ok st := by
      unfold write_operation
      simp only [dev_status_get_ok hwf hd.1 hd.2]
      rw [if_neg (by rw [hfailed.2.2]; simp)]
      simp only [Bool.not_false, if_true]
      rw [error_state_write_eq_run]
    rw [e2] at hwo
    cases b with
    | true =>
      refine ⟨s2, by rw [hwo]; rfl, ?_, ?_, ?_⟩
      · exact ⟨fun _ => ⟨s2, ht rfl⟩, fun _ => not_reports_of_same _ _ f2.2.2⟩
      · intro s' hs'
        have h := run_transfers_all_succeed env _ st s' hs'
        rw [e2] at h
        simp only [Except.ok.injEq, Prod.mk.injEq, true_and] at h
        exact h
      · intro n kd x sk s' hx hok hfail
        have h := run_transfers_first_failure env _ st n kd x sk s' hx hok hfail
        rw [e2] at h
        simp at h
    | false =>
      refine ⟨print_bad_operation_on_device s2, by rw [hwo]; rfl, ?_, ?_, ?_⟩
      · constructor
        · intro h
          exact absurd (print_bad_reports st s2 f2.2.2) h
        · rintro ⟨s', hs'⟩
          have h := run_transfers_all_succeed env _ st s' hs'
          rw [e2] at h
          simp at h
      · intro s' hs'
        have h := run_transfers_all_succeed env _ st s' hs'
        rw [e2] at h
        simp at h
      · intro n kd x sk s' hx hok hfail
        have h := run_transfers_first_failure env _ st n kd x sk s' hx hok hfail
        rw [e2] at h
        simp only [Except.ok.injEq, Prod.mk.injEq, true_and] at h
        rw [h]
        exact ⟨rfl, print_bad_reports st s' (by rw [← h]; exact f2.2.2)⟩

theorem degraded_write_target_failed_witness :
    (∃ st', write_operation healthy_env four_devices_killed_0 0 = .ok st' ∧
      (¬ reports_failure four_devices_killed_0 st' ↔
        ∃ s', io_run healthy_env four_devices_killed_0
          (all_succeed (degraded_write_ops 4 (get_physical_sector 4 0))) s')) ∧
    degraded_write_ops 4 (get_physical_sector 4 0)
      = [(.Read, ⟨1, 0, 0, false⟩), (.Read, ⟨2, 0, 0, false⟩), (.Write, ⟨3, 0, 0, true⟩)] ∧
    write_operation healthy_env four_devices_killed_0 0 = .ok
      { four_devices_killed_0 with
        clock := 11
        trace := [.sys_lseek 4 0 0, .sys_transfer .Read 4 4096, .print_operated 1 0,
          .sys_lseek 5 0 0, .sys_transfer .Read 5 4096, .print_operated 2 0,
          .sys_lseek 6 0 0, .sys_transfer .Write 6 4096, .print_operated 3 0] } := by
  obtain ⟨_, _, _, _, st', h1, h2, _⟩ :=
    degraded_write_target_failed healthy_env four_devices_killed_0 0 ⟨by decide, by decide⟩
      (by decide) ⟨by decide, by decide, by decide⟩
  exact ⟨⟨st', h1, h2⟩, by decide, rfl⟩

/-! ## Claims on failing writes and on the transport -/

/-- C13, as amended: when the target device of `S` and the parity device of its stripe
are both Open and one of the four sub-steps of the standard write fails after the
earlier ones succeeded, `standard_write` returns failure in the state that sub-step
left; `write_operation` then runs `error_state_write` on the target from that state, and
the bad-device line is printed if and only if `error_state_write` fails. -/
theorem standard_write_failure_falls_back (env : Env) (st : State) (S : Int) (hwf : st.wf)
    (hS : 0 ≤ S)
    (_htarget : st.is_open (get_physical_sector st.g_num_dev S).device_index)
    (hparity : st.is_open
      (get_relevant_parity_sector st.g_num_dev (get_physical_sector st.g_num_dev S)).device_index)
    (n : Nat) (kd : IoKind) (x : PhysicalLocation) (sk s1 : State)
    (hx : (standard_write_ops
        (lower_index (get_physical_sector st.g_num_dev S)
          (get_relevant_parity_sector st.g_num_dev (get_physical_sector st.g_num_dev S)))
        (higher_index (get_physical_sector st.g_num_dev S)
          (get_relevant_parity_sector st.g_num_dev (get_physical_sector st.g_num_dev S))))[n]?
      = some (kd, x))
    (hok : io_run env st (all_succeed ((standard_write_ops
        (lower_index (get_physical_sector st.g_num_dev S)
          (get_relevant_parity_sector st.g_num_dev (get_physical_sector st.g_num_dev S)))
        (higher_index (get_physical_sector st.g_num_dev S)
          (get_relevant_parity_sector st.g_num_dev
            (get_physical_sector st.g_num_dev S)))).take n)) sk)
    (hfail : io_operation env sk x kd = .ok (false, s1)) :
    standard_write env st (get_physical_sector st.g_num_dev S)
        (get_relevant_parity_sector st.g_num_dev (get_physical_sector st.g_num_dev S))
        = .ok (false, s1) ∧
    ∃ b2 s2 st', error_state_write env s1 (get_physical_sector st.g_num_dev S) = .ok (b2, s2) ∧
      write_operation env st S = .ok st' ∧
      (b2 = true → st' = s2) ∧
      (b2 = false → st' = print_bad_operation_on_device s2) ∧
      (reports_failure st st' ↔ b2 = false) := by
  have hd := device_range hwf.1 hS
  have hq := parity_range hwf.1 (stripe_nonneg hwf.1 hS)
  have hne := device_ne_parity hwf.1 hS
  have hpar : st.handle (get_relevant_parity_sector st.g_num_dev
      (get_physical_sector st.g_num_dev S)).device_index ≠ INVALID_DEVICE := by
    have h : 0 ≤ st.handle (get_relevant_parity_sector st.g_num_dev
        (get_physical_sector st.g_num_dev S)).device_index := hparity.2.2
    intro hc
    rw [hc] at h
    exact absurd h (by decide)
  have htgt : INVALID_DEVICE ≠ st.g_dev_status.getD
      (get_physical_sector st.g_num_dev S).device_index.toNat INVALID_DEVICE := by
    have h : 0 ≤ st.g_dev_status.getD
        (get_physical_sector st.g_num_dev S).device_index.toNat INVALID_DEVICE := _htarget.2.2
    intro hc
    rw [← hc] at h
    exact absurd h (by decide)
  have hsw := standard_write_eq_run env hwf hq.1 hq.2 hne hpar
  have hrun := run_transfers_first_failure env _ st n kd x sk s1 hx hok hfail
  have e1 : standard_write env st (get_physical_sector st.g_num_dev S)
      (get_relevant_parity_sector st.g_num_dev (get_physical_sector st.g_num_dev S))
      = .ok (false, s1) := hsw.trans hrun
  have f1 : frame_kept st s1 := by
    obtain ⟨b, s', e, f⟩ := @standard_write_ok env st (get_physical_sector st.g_num_dev S)
      (get_relevant_parity_sector st.g_num_dev (get_physical_sector st.g_num_dev S))
      hwf hd.1 hd.2 hq.1 hq.2 hne
    rw [e1] at e
    simp only [Except.ok.injEq, Prod.mk.injEq] at e
    rw [e.2]
    exact f
  have hrange : ∀ op ∈ degraded_write_ops s1.g_num_dev (get_physical_sector st.g_num_dev S),
      0 ≤ op.2.device_index ∧ op.2.device_index < s1.g_num_dev := by
    intro op hop
    obtain ⟨e, he, rfl⟩ := List.mem_map.1 hop
    rw [f1.2.1] at he ⊢
    exact backup_entry_range hwf.1 _ e hd.1 hd.2 he
  obtain ⟨b2, s2, e2, f2, _, _⟩ := run_transfers_outcome env _ s1 f1.1 hrange
  have hes : error_state_write env s1 (get_physical_sector st.g_num_dev S) = .ok (b2, s2) := by
    rw [error_state_write_eq_run]
    exact e2
  have hwo : write_operation env st S =
      if !b2 then .ok (print_bad_operation_on_device s2) else .ok s2 := by
    unfold write_operation
    simp only [dev_status_get_ok hwf hd.1 hd.2]
    rw [if_pos htgt, e1]
    simp only [Bool.not_false, if_true]
    rw [hes]
  have f12 := frame_kept_trans f1 f2
  cases b2 with
  | true =>
    exact ⟨e1, true, s2, s2, hes, hwo, fun _ => rfl, fun h => by simp at h,
      fun h => absurd h (not_reports_of_same _ _ f12.2.2), fun h => by simp at h⟩
  | false =>
    exact ⟨e1, false, s2, print_bad_operation_on_device s2, hes, hwo,
      fun h => by simp at h, fun _ => rfl,
      fun _ => rfl, fun _ => print_bad_reports st s2 f12.2.2⟩

theorem standard_write_failure_falls_back_witness :
    standard_write handle_3_broken_env four_devices (get_physical_sector 4 0)
        (get_relevant_parity_sector 4 (get_physical_sector 4 0))
      = .ok (false,
          { four_devices with
            g_dev_status := [-1, 4, 5, 6]
            clock := 6
            trace := [.sys_lseek 3 0 (-1), .print_seek_failed 0, .sys_close 3] }) :=
  (standard_write_failure_falls_back handle_3_broken_env four_devices 0
    ⟨by decide, by decide⟩ (by decide) ⟨by decide, by decide, by decide⟩
    ⟨by decide, by decide, by decide⟩ 0 IoKind.Read (get_physical_sector 4 0) four_devices
    { four_devices with
      g_dev_status := [-1, 4, 5, 6]
      clock := 6
      trace := [.sys_lseek 3 0 (-1), .print_seek_failed 0, .sys_close 3] }
    rfl rfl rfl).1

/-- C13, as stated, fails: with four Open devices and every seek on the handle of
device 0 failing, `WRITE 0` fails in the first sub-step of the standard write (the read
of the lower-index location, on device 0), the degraded write on devices 1, 2, 3 then
succeeds, and no bad-device line is printed. -/
theorem write_succeeds_after_failed_substep :
    four_devices.is_open (get_physical_sector 4 0).device_index ∧
    four_devices.is_open
      (get_relevant_parity_sector 4 (get_physical_sector 4 0)).device_index ∧
    read_physical handle_3_broken_env four_devices
        (lower_index (get_physical_sector 4 0)
          (get_relevant_parity_sector 4 (get_physical_sector 4 0)))
      = .ok (false,
          { four_devices with
            g_dev_status := [-1, 4, 5, 6]
            clock := 6
            trace := [.sys_lseek 3 0 (-1), .print_seek_failed 0, .sys_close 3] }) ∧
    write_operation handle_3_broken_env four_devices 0 = .ok
      { four_devices with
        g_dev_status := [-1, 4, 5, 6]
        clock := 12
        trace := [.sys_lseek 3 0 (-1), .print_seek_failed 0, .sys_close 3,
          .sys_lseek 4 0 0, .sys_transfer .Read 4 4096, .print_operated 1 0,
          .sys_lseek 5 0 0, .sys_transfer .Read 5 4096, .print_operated 2 0,
          .sys_lseek 6 0 0, .sys_transfer .Write 6 4096, .print_operated 3 0] } ∧
    ¬ reports_failure four_devices
      { four_devices with
        g_dev_status := [-1, 4, 5, 6]
        clock := 12
        trace := [.sys_lseek 3 0 (-1), .print_seek_failed 0, .sys_close 3,
          .sys_lseek 4 0 0, .sys_transfer .Read 4 4096, .print_operated 1 0,
          .sys_lseek 5 0 0, .sys_transfer .Read 5 4096, .print_operated 2 0,
          .sys_lseek 6 0 0, .sys_transfer .Write 6 4096, .print_operated 3 0] } := by
  refine ⟨⟨by decide, by decide, by decide⟩, ⟨by decide, by decide, by decide⟩, rfl, rfl, ?_⟩
  unfold reports_failure
  decide

/-! ## Repair and close -/

theorem handle_ge_of_valid {st : State} (hv : st.handles_valid) {d : Int} (h0 : 0 ≤ d)
    (h1 : d < st.g_dev_status.length) : INVALID_DEVICE ≤ st.handle d := by
  unfold State.handle
  have hlt : d.toNat < st.g_dev_status.length := by omega
  rw [List.getD_eq_getElem _ _ hlt]
  exact hv _ (List.getElem_mem hlt)

theorem reopened_state_handle_self (st : State) (i fd : Int) (h0 : 0 ≤ i)
    (h1 : i < st.g_dev_status.length) : (reopened_state st i fd).handle i = fd := by
  unfold State.handle reopened_state
  exact getD_set_self _ _ _ _ (by omega)

theorem reopened_state_handle_ne (st : State) (i fd j : Int) (h0 : 0 ≤ i) (hj : 0 ≤ j)
    (hne : j ≠ i) : (reopened_state st i fd).handle j = st.handle j := by
  unfold State.handle reopened_state
  exact getD_set_ne _ _ _ _ _ (by omega)

/-- The result of `open_device` on an in-range index: the slot holds what `open`
returned, and a diagnostic is printed when that is `INVALID_DEVICE`. -/
theorem open_device_eq (env : Env) {st : State} {i : Int} (hwf : st.wf) (h0 : 0 ≤ i)
    (h1 : i < st.g_num_dev) :
    open_device env st i = .ok
      (if INVALID_DEVICE = env.open_result st.clock i
        then log (Event.print_open_failed i) (reopened_state st i (env.open_result st.clock i))
        else reopened_state st i (env.open_result st.clock i)) := by
  have hl : i < (st.g_dev_status.length : Int) := by rw [hwf.2]; exact h1
  unfold open_device
  rw [if_pos ⟨by omega, by omega⟩]
  simp only [dev_status_set, dev_status_get, syscall, List.length_set]
  rw [if_pos ⟨h0, hl⟩]
  simp only
  rw [if_pos ⟨h0, by rw [List.length_set]; exact hl⟩]
  simp only
  rw [getD_set_self _ _ _ _ (by omega)]
  split_ifs <;> rfl

/-- The result of `repair_device` on an in-range index: the slot holds what `open`
returned; the old handle is closed exactly when that is not `INVALID_DEVICE`. -/
theorem repair_device_eq (env : Env) {st : State} {i : Int} (hwf : st.wf) (h0 : 0 ≤ i)
    (h1 : i < st.g_num_dev) :
    repair_device env st i = .ok
      (if INVALID_DEVICE = env.open_result st.clock i
        then log (Event.print_open_failed i) (reopened_state st i (env.open_result st.clock i))
        else syscall (Event.sys_close (st.handle i))
          (reopened_state st i (env.open_result st.clock i))) := by
  have hl : i < (st.g_dev_status.length : Int) := by rw [hwf.2]; exact h1
  unfold repair_device
  rw [if_pos ⟨by omega, by omega⟩, dev_status_get_ok hwf h0 h1, open_device_eq env hwf h0 h1]
  simp only
  by_cases hfd : INVALID_DEVICE = env.open_result st.clock i
  · rw [if_pos hfd]
    have hg : dev_status_get (log (Event.print_open_failed i)
        (reopened_state st i (env.open_result st.clock i))) i
        = .ok (env.open_result st.clock i) := by
      simp only [dev_status_get, log, reopened_state, List.length_set]
      rw [if_pos ⟨h0, hl⟩, getD_set_self _ _ _ _ (by omega)]
    rw [hg]
    simp only
    rw [if_pos hfd, if_pos hfd]
  · rw [if_neg hfd]
    have hg : dev_status_get (reopened_state st i (env.open_result st.clock i)) i
        = .ok (env.open_result st.clock i) := by
      simp only [dev_status_get, reopened_state, List.length_set]
      rw [if_pos ⟨h0, hl⟩, getD_set_self _ _ _ _ (by omega)]
    rw [hg]
    simp only
    rw [if_neg hfd, if_neg hfd]
    rfl

/-- C14: for a location on a device index `d` in range, `io_operation` (`read_physical`
with `Read`, `write_physical` with `Write`) returns, and it returns failure if and only
if the slot of device `d` is already negative, or the seek does not return the requested
byte offset, or the transfer does not return `SECTOR_SIZE = 4096` bytes; after a failure
the slot of `d` is negative and `g_last_bad_device = d`; after a success the device table
and `g_last_bad_device` are unchanged.  On a table whose slots hold handles or
`INVALID_DEVICE`, a negative slot is a Failed device, before and after. -/
theorem io_operation_failure_iff (env : Env) (st : State) (loc : PhysicalLocation)
    (k : IoKind) (hwf : st.wf) (h0 : 0 ≤ loc.device_index)
    (h1 : loc.device_index < st.g_num_dev) :
    ∃ b st', io_operation env st loc k = .ok (b, st') ∧
      (b = false ↔
        (st.handle loc.device_index < 0 ∨
          env.lseek_result st.clock (st.handle loc.device_index)
            (physical_location_to_offset loc) ≠ physical_location_to_offset loc ∨
          env.transfer_result (st.clock + 1) k (st.handle loc.device_index) ≠ SECTOR_SIZE)) ∧
      (b = false → st'.handle loc.device_index < 0 ∧
        st'.g_last_bad_device = loc.device_index) ∧
      (b = true → st'.g_dev_status = st.g_dev_status ∧
        st'.g_last_bad_device = st.g_last_bad_device) ∧
      (st.handles_valid →
        (st.handle loc.device_index < 0 ↔ st.is_failed loc.device_index) ∧
        (b = false → st'.is_failed loc.device_index)) ∧
      SECTOR_SIZE = 4096 ∧
      read_physical env st loc = io_operation env st loc IoKind.Read ∧
      write_physical env st loc = io_operation env st loc IoKind.Write := by
  obtain ⟨b, st', e, _⟩ := io_operation_frame env k hwf h0 h1
  obtain ⟨_, hl, hc⟩ := io_operation_inv env e
  obtain ⟨_, hlen, _, _, ht, hf, _⟩ := io_operation_effect env e
  have hv : INVALID_DEVICE = -1 := rfl
  have hneg : b = false → st'.handle loc.device_index < 0 := by
    intro hb
    rcases (hf hb).2 with hh | hh <;> omega
  refine ⟨b, st', e, ?_, fun hb => ⟨hneg hb, (hf hb).1⟩,
    fun hb => ⟨(ht hb).1, (ht hb).2.1⟩, ?_, rfl, rfl, rfl⟩
  · rcases hc with ⟨hfd, hb, _⟩ | ⟨_, _, hseek, hb, _⟩ | ⟨_, _, _, hio, hb, _⟩ |
        ⟨hfd, hseek, hio, hb, _⟩
    · exact ⟨fun _ => Or.inl hfd, fun _ => hb⟩
    · exact ⟨fun _ => Or.inr (Or.inl hseek), fun _ => hb⟩
    · exact ⟨fun _ => Or.inr (Or.inr hio), fun _ => hb⟩
    · constructor
      · intro hf'; rw [hb] at hf'; simp at hf'
      · rintro (hf' | hf' | hf')
        · omega
        · exact absurd hseek hf'
        · exact absurd hio hf'
  · intro hvalid
    have hge := handle_ge_of_valid hvalid h0 hl
    constructor
    · constructor
      · intro hlt
        exact ⟨h0, hl, by
          show st.handle loc.device_index = INVALID_DEVICE
          omega⟩
      · intro hfl
        have h2 : st.handle loc.device_index = INVALID_DEVICE := hfl.2.2
        omega
    · intro hb
      refine ⟨h0, by rw [hlen]; exact hl, ?_⟩
      rcases (hf hb).2 with hh | hh
      · exact hh
      · exfalso
        rcases hc with ⟨_, _, hs⟩ | ⟨_, _, _, _, hs⟩ | ⟨_, _, _, _, _, hs⟩ | ⟨_, _, _, hb', _⟩
        · rw [hs] at hh
          have h2 : st.handle loc.device_index < INVALID_DEVICE := hh
          omega
        · rw [hs, io_closed_state_handle_self _ _ _ _ h0 hl] at hh
          omega
        · rw [hs, io_closed_state_handle_self _ _ _ _ h0 hl] at hh
          omega
        · rw [hb] at hb'; simp at hb'

theorem io_operation_failure_iff_witness :
    ∃ b st', io_operation healthy_env four_devices_killed_0 ⟨0, 0, 0, false⟩ IoKind.Read
        = .ok (b, st') ∧
      (b = false → st'.handle 0 < 0 ∧ st'.g_last_bad_device = 0) := by
  obtain ⟨b, st', h1, _, h3, _⟩ :=
    io_operation_failure_iff healthy_env four_devices_killed_0 ⟨0, 0, 0, false⟩ IoKind.Read
      ⟨by decide, by decide⟩ (by decide) (by decide)
  exact ⟨b, st', h1, h3⟩

/-- C15 fails on the code: `REPAIR 0` on four Open devices with a reopen that fails
leaves slot 0 marked Failed; the handle 3 it held is neither kept nor closed. -/
theorem repair_failed_reopen_loses_handle :
    four_devices.is_open 0 ∧ four_devices.handle 0 = 3 ∧
    broken_env.open_result four_devices.clock 0 = INVALID_DEVICE ∧
    repair_device broken_env four_devices 0 = .ok
      { four_devices with
        g_dev_status := [-1, 4, 5, 6]
        clock := 5
        trace := [.sys_open 0 (-1), .print_open_failed 0] } ∧
    State.is_failed
      { four_devices with
        g_dev_status := [-1, 4, 5, 6]
        clock := 5
        trace := [.sys_open 0 (-1), .print_open_failed 0] } 0 :=
  ⟨⟨by decide, by decide, by decide⟩, by decide, by decide, rfl,
    ⟨by decide, by decide, by decide⟩⟩

/-- C16: for a device index `i` in range, if the reopen attempted by `repair_device i`
returns a handle `h ≥ 0`, then `repair_device` returns a state in which slot `i` is Open
with handle `h`, every other slot is unchanged, and the only system calls made are the
`open` and the `close` of the handle the slot held before: no seek, read or write. -/
theorem repair_success (env : Env) (st : State) (i h : Int) (hwf : st.wf) (h0 : 0 ≤ i)
    (h1 : i < st.g_num_dev) (hopen : env.open_result st.clock i = h) (hh : 0 ≤ h) :
    ∃ st', repair_device env st i = .ok st' ∧
      st'.is_open i ∧ st'.handle i = h ∧
      (∀ j, 0 ≤ j → j ≠ i → st'.handle j = st.handle j) ∧
      st'.g_dev_status.length = st.g_dev_status.length ∧
      st'.g_num_dev = st.g_num_dev ∧
      st'.trace = st.trace ++ [Event.sys_open i h, Event.sys_close (st.handle i)] ∧
      st'.clock = st.clock + 2 ∧
      st'.g_last_bad_device = st.g_last_bad_device := by
  have hl : i < (st.g_dev_status.length : Int) := by rw [hwf.2]; exact h1
  have hne : ¬ INVALID_DEVICE = env.open_result st.clock i := by
    rw [hopen]; intro hc; rw [← hc] at hh; exact absurd hh (by decide)
  have e := repair_device_eq env hwf h0 h1
  rw [if_neg hne, hopen] at e
  have hself : (syscall (Event.sys_close (st.handle i)) (reopened_state st i h)).handle i = h :=
    reopened_state_handle_self st i h h0 hl
  refine ⟨_, e, ⟨h0, ?_, ?_⟩, hself, ?_, ?_, rfl, ?_, rfl, rfl⟩
  · simp only [syscall, reopened_state, List.length_set]
    exact hl
  · have h2 : 0 ≤ (syscall (Event.sys_close (st.handle i)) (reopened_state st i h)).handle i := by
      rw [hself]; exact hh
    exact h2
  · intro j hj hji
    exact reopened_state_handle_ne st i h j h0 hj hji
  · simp only [syscall, reopened_state, List.length_set]
  · simp only [syscall, reopened_state, List.append_assoc, List.singleton_append]

theorem repair_success_witness :
    ∃ st', repair_device healthy_env four_devices_killed_0 0 = .ok st' ∧
      st'.is_open 0 ∧ st'.handle 0 = 15 ∧
      st'.trace = four_devices_killed_0.trace ++ [Event.sys_open 0 15, Event.sys_close (-1)] := by
  obtain ⟨st', e, a1, a2, _, _, _, a6, _⟩ :=
    repair_success healthy_env four_devices_killed_0 0 15 ⟨by decide, by decide⟩ (by decide)
      (by decide) (by decide) (by decide)
  exact ⟨st', e, a1, a2, a6⟩

/-- C17: for a device index `0 ≤ i < N` and every device table, `close_device i` returns
a state in which slot `i` is Failed and every other slot is unchanged; on a slot already
Failed it changes nothing and makes no `close` call, on an Open slot it makes exactly one
`close` call, on the handle the slot held; applied again it changes nothing. -/
theorem close_device_idempotent (st : State) (i : Int) (hwf : st.wf) (h0 : 0 ≤ i)
    (h1 : i < st.g_num_dev) :
    ∃ st', close_device st i = .ok st' ∧
      st'.is_failed i ∧
      (∀ j, 0 ≤ j → j ≠ i → st'.handle j = st.handle j) ∧
      st'.g_dev_status.length = st.g_dev_status.length ∧
      (st.is_failed i → st' = st) ∧
      (st.is_open i → st'.trace = st.trace ++ [Event.sys_close (st.handle i)]) ∧
      (st.handles_valid → st.is_open i ∨ st.is_failed i) ∧
      close_device st' i = .ok st' := by
  have hl : i < (st.g_dev_status.length : Int) := by rw [hwf.2]; exact h1
  obtain ⟨st', e, w', n', _, _⟩ := close_device_ok hwf h0 h1
  obtain ⟨_, _, _, hc⟩ := close_device_inv e
  have hv : INVALID_DEVICE = -1 := rfl
  have hvalid : st.handles_valid → st.is_open i ∨ st.is_failed i := by
    intro hval
    have hge := handle_ge_of_valid hval h0 hl
    by_cases hneg : st.handle i = INVALID_DEVICE
    · exact Or.inr ⟨h0, hl, hneg⟩
    · refine Or.inl ⟨h0, hl, ?_⟩
      show 0 ≤ st.handle i
      omega
  have hfailed' : st'.handle i = INVALID_DEVICE := by
    rcases hc with ⟨c1, c2⟩ | ⟨_, c2⟩
    · rw [c2]; exact c1
    · rw [c2]
      exact getD_set_self _ _ _ _ (by omega)
  have hlen : st'.g_dev_status.length = st.g_dev_status.length := by
    rcases hc with ⟨_, c2⟩ | ⟨_, c2⟩
    · rw [c2]
    · rw [c2]; simp only [List.length_set]
  refine ⟨st', e, ⟨h0, by rw [hlen]; exact hl, hfailed'⟩, ?_, hlen, ?_, ?_, hvalid, ?_⟩
  · intro j hj hji
    rcases hc with ⟨_, c2⟩ | ⟨_, c2⟩
    · rw [c2]
    · rw [c2]
      exact getD_set_ne _ _ _ _ _ (by omega)
  · intro hf
    rcases hc with ⟨_, c2⟩ | ⟨c1, _⟩
    · exact c2
    · exact absurd hf.2.2 c1
  · intro ho
    rcases hc with ⟨c1, _⟩ | ⟨_, c2⟩
    · have h2 : 0 ≤ st.handle i := ho.2.2
      omega
    · rw [c2]
  · obtain ⟨st2, e2, _⟩ := close_device_ok w' h0 (by rw [n']; exact h1)
    obtain ⟨_, _, _, hc2⟩ := close_device_inv e2
    rcases hc2 with ⟨_, c2⟩ | ⟨c1, _⟩
    · rw [e2, c2]
    · exact absurd hfailed' c1

theorem close_device_idempotent_witness :
    ∃ st', close_device four_devices 0 = .ok st' ∧ st'.is_failed 0 ∧
      close_device st' 0 = .ok st' := by
  obtain ⟨st', e, a1, _, _, _, _, _, a7⟩ :=
    close_device_idempotent four_devices 0 ⟨by decide, by decide⟩ (by decide) (by decide)
  exact ⟨st', e, a1, a7⟩

/-! ## Claims on whole commands -/

theorem not_open_of_failed {st : State} {j : Int} (hf : st.is_failed j) : ¬ st.is_open j := by
  intro ho
  have h1 : st.handle j = INVALID_DEVICE := hf.2.2
  have h2 : 0 ≤ st.handle j := ho.2.2
  rw [h1] at h2
  exact absurd h2 (by decide)

theorem close_device_effect {st st' : State} {i : Int} (h : close_device st i = .ok st') :
    st'.g_dev_status.length = st.g_dev_status.length ∧
    (∀ j, 0 ≤ j → j ≠ i → st'.handle j = st.handle j) ∧
    (st'.handle i = st.handle i ∨ st'.handle i = INVALID_DEVICE) := by
  obtain ⟨h0, _, hl, hc⟩ := close_device_inv h
  rcases hc with ⟨_, c2⟩ | ⟨_, c2⟩
  · rw [c2]
    exact ⟨rfl, fun _ _ _ => rfl, Or.inl rfl⟩
  · rw [c2]
    refine ⟨by simp only [List.length_set], fun j hj hji => ?_, Or.inr ?_⟩
    · exact getD_set_ne _ _ _ _ _ (by omega)
    · exact getD_set_self _ _ _ _ (by omega)

/-- Across `read_operation` and `write_operation` a device marked Failed stays so. -/
theorem operation_failed_mono (env : Env) {st st' s : State}
    {calls : List (IoKind × PhysicalLocation × Bool)} (hrun : io_run env st calls s)
    (hst : st' = s ∨ (st' = print_bad_operation_on_device s ∧
      ∃ c kd x, calls = c ++ [(kd, x, false)]))
    (j : Int) (hj : st.is_failed j) : st'.is_failed j := by
  have h := (io_run_effect env calls st s hrun).2.2.2 j hj
  rcases hst with rfl | ⟨rfl, _⟩
  · exact h
  · exact h

/-- C18: for every device table and any I/O outcomes, a command with its parameter in
range returns; after `READ`, `WRITE` or `KILL` every device that was Failed is Failed;
a device that was Failed is Open afterwards only if the command is `REPAIR` of that very
device and its reopen returned a handle; a `REPAIR` leaves Failed every Failed device
other than its own, and its own too when the reopen fails. -/
theorem failed_stays_failed (env : Env) (st : State) (op : Command) (param : Int)
    (hwf : st.wf) (hrange : param_in_range st op param) :
    ∃ st', run_command env st op param = .ok st' ∧
      (op ≠ Command.REPAIR → ∀ j, st.is_failed j → st'.is_failed j) ∧
      (∀ j, st.is_failed j → st'.is_open j →
        op = Command.REPAIR ∧ param = j ∧ 0 ≤ env.open_result st.clock j) ∧
      (op = Command.REPAIR → ∀ j, st.is_failed j →
        (j ≠ param ∨ env.open_result st.clock param = INVALID_DEVICE) → st'.is_failed j) := by
  cases op with
  | READ =>
    obtain ⟨st', calls, s, e, hrun, _, hst⟩ := read_operation_structure env hwf hrange
    have hm := operation_failed_mono env hrun hst
    exact ⟨st', e, fun _ => hm, fun j hj ho => absurd ho (not_open_of_failed (hm j hj)),
      fun h => by simp at h⟩
  | WRITE =>
    obtain ⟨st', calls, s, e, hrun, _, hst⟩ := write_operation_structure env hwf hrange
    have hm := operation_failed_mono env hrun hst
    exact ⟨st', e, fun _ => hm, fun j hj ho => absurd ho (not_open_of_failed (hm j hj)),
      fun h => by simp at h⟩
  | KILL =>
    obtain ⟨st', e, _⟩ := close_device_ok hwf hrange.1 hrange.2
    obtain ⟨a1, a2, a3⟩ := close_device_effect e
    have hm := is_failed_of_effect a1 a2 a3
    exact ⟨st', e, fun _ => hm, fun j hj ho => absurd ho (not_open_of_failed (hm j hj)),
      fun h => by simp at h⟩
  | REPAIR =>
    have h0 : 0 ≤ param := hrange.1
    have h1 : param < st.g_num_dev := hrange.2
    have hl : param < (st.g_dev_status.length : Int) := by rw [hwf.2]; exact h1
    have e := repair_device_eq env hwf h0 h1
    have htab : ∀ st', repair_device env st param = .ok st' →
        st'.g_dev_status = st.g_dev_status.set param.toNat (env.open_result st.clock param) := by
      intro st' e'
      rw [e] at e'
      simp only [Except.ok.injEq] at e'
      rw [← e']
      split_ifs <;> rfl
    obtain ⟨st', e'⟩ : ∃ st', repair_device env st param = .ok st' := ⟨_, e⟩
    have ht := htab st' e'
    have hother : ∀ j, 0 ≤ j → j ≠ param → st'.handle j = st.handle j := by
      intro j hj hne
      unfold State.handle
      rw [ht]
      exact getD_set_ne _ _ _ _ _ (by omega)
    have hself : st'.handle param = env.open_result st.clock param := by
      unfold State.handle
      rw [ht]
      exact getD_set_self _ _ _ _ (by omega)
    have hlen : st'.g_dev_status.length = st.g_dev_status.length := by
      rw [ht, List.length_set]
    refine ⟨st', e', fun h => absurd rfl h, ?_, ?_⟩
    · intro j hj ho
      by_cases hjp : j = param
      · subst hjp
        have h2 : 0 ≤ st'.handle j := ho.2.2
        rw [hself] at h2
        exact ⟨rfl, rfl, h2⟩
      · exfalso
        have h2 : 0 ≤ st'.handle j := ho.2.2
        rw [hother j hj.1 hjp] at h2
        have h3 : st.handle j = INVALID_DEVICE := hj.2.2
        rw [h3] at h2
        exact absurd h2 (by decide)
    · intro _ j hj hcase
      refine ⟨hj.1, by rw [hlen]; exact hj.2.1, ?_⟩
      by_cases hjp : j = param
      · subst hjp
        rcases hcase with hc | hc
        · exact absurd rfl hc
        · exact hself.trans hc
      · exact (hother j hj.1 hjp).trans hj.2.2

theorem failed_stays_failed_witness :
    ∃ st', run_command broken_env four_devices_killed_0 Command.WRITE 0 = .ok st' ∧
      st'.is_failed 0 := by
  obtain ⟨st', e, h, _⟩ :=
    failed_stays_failed broken_env four_devices_killed_0 Command.WRITE 0
      ⟨by decide, by decide⟩ (by unfold param_in_range; decide)
  exact ⟨st', e, h (by decide) 0 ⟨by decide, by decide, by decide⟩⟩

/-- C19: `read_operation` and `write_operation` on a sector `S ≥ 0` return, and whenever
one of them prints the bad-device line, its effect up to that line is a sequence of
sector transfers of this operation whose last call failed, and the device index printed,
`g_last_bad_device`, is the device of that last failing call. -/
theorem reported_device_is_last_failure (env : Env) (st : State) (S : Int) (hwf : st.wf)
    (hS : 0 ≤ S) :
    (∃ st', read_operation env st S = .ok st' ∧
      (reports_failure st st' → ∃ calls kd x s,
        io_run env st (calls ++ [(kd, x, false)]) s ∧
        st' = print_bad_operation_on_device s ∧
        s.g_last_bad_device = x.device_index ∧
        st'.trace = s.trace ++ [Event.print_bad x.device_index])) ∧
    (∃ st', write_operation env st S = .ok st' ∧
      (reports_failure st st' → ∃ calls kd x s,
        io_run env st (calls ++ [(kd, x, false)]) s ∧
        st' = print_bad_operation_on_device s ∧
        s.g_last_bad_device = x.device_index ∧
        st'.trace = s.trace ++ [Event.print_bad x.device_index])) := by
  have key : ∀ (st' s : State) (calls : List (IoKind × PhysicalLocation × Bool)),
      io_run env st calls s → frame_kept st s →
      (st' = s ∨ (st' = print_bad_operation_on_device s ∧
        ∃ c kd x, calls = c ++ [(kd, x, false)])) →
      reports_failure st st' → ∃ calls kd x s,
        io_run env st (calls ++ [(kd, x, false)]) s ∧
        st' = print_bad_operation_on_device s ∧
        s.g_last_bad_device = x.device_index ∧
        st'.trace = s.trace ++ [Event.print_bad x.device_index] := by
    intro st' s calls hrun hf hst hrep
    rcases hst with rfl | ⟨rfl, c, kd, x, rfl⟩
    · exact absurd hrep (not_reports_of_same _ _ hf.2.2)
    · have hlast := io_run_last_failed env hrun
      refine ⟨c, kd, x, s, hrun, rfl, hlast, ?_⟩
      unfold print_bad_operation_on_device log
      rw [hlast]
  constructor
  · obtain ⟨st', calls, s, e, hrun, hf, hst⟩ := read_operation_structure env hwf hS
    exact ⟨st', e, key st' s calls hrun hf hst⟩
  · obtain ⟨st', calls, s, e, hrun, hf, hst⟩ := write_operation_structure env hwf hS
    exact ⟨st', e, key st' s calls hrun hf hst⟩

theorem reported_device_is_last_failure_witness :
    (∃ st', read_operation broken_env four_devices 0 = .ok st' ∧
      (reports_failure four_devices st' → ∃ calls kd x s,
        io_run broken_env four_devices (calls ++ [(kd, x, false)]) s ∧
        st' = print_bad_operation_on_device s ∧
        s.g_last_bad_device = x.device_index ∧
        st'.trace = s.trace ++ [Event.print_bad x.device_index])) ∧
    read_operation broken_env four_devices 0 = .ok
      { g_num_dev := 4, g_dev_status := [-1, -1, 5, 6], g_last_bad_device := 1, clock := 8,
        trace := [.sys_lseek 3 0 (-1), .print_seek_failed 0, .sys_close 3,
          .sys_lseek 4 0 (-1), .print_seek_failed 1, .sys_close 4, .print_bad 1] } :=
  ⟨(reported_device_is_last_failure broken_env four_devices 0 ⟨by decide, by decide⟩
      (by decide)).1, rfl⟩

/-- Normal read: for `N ≥ 2` and `S ≥ 0`, if the device of `get_physical_sector S` is Open and
its seek and read succeed, `read_operation S` returns the state in which exactly one
sector transfer was made, a read on that device reported at the on-device sector of
`get_physical_sector S`, which is `stripe*4 + place` for `S` in `int` range; no other
device is accessed, the device table is unchanged and no bad-device line is printed. -/
theorem read_normal_path (env : Env) (st : State) (S : Int) (hwf : st.wf) (hS : 0 ≤ S)
    (hopen : st.is_open (get_physical_sector st.g_num_dev S).device_index)
    (hseek : env.lseek_result st.clock
        (st.handle (get_physical_sector st.g_num_dev S).device_index)
        (physical_location_to_offset (get_physical_sector st.g_num_dev S))
      = physical_location_to_offset (get_physical_sector st.g_num_dev S))
    (hio : env.transfer_result (st.clock + 1) IoKind.Read
        (st.handle (get_physical_sector st.g_num_dev S).device_index) = IO_SIZE) :
    read_operation env st S = .ok
        { st with
          clock := st.clock + 2
          trace := st.trace ++ io_success_events IoKind.Read
            (st.handle (get_physical_sector st.g_num_dev S).device_index)
            (get_physical_sector st.g_num_dev S).device_index
            (physical_location_to_offset (get_physical_sector st.g_num_dev S))
            (physical_location_to_sector (get_physical_sector st.g_num_dev S)) } ∧
      ¬ reports_failure st
        { st with
          clock := st.clock + 2
          trace := st.trace ++ io_success_events IoKind.Read
            (st.handle (get_physical_sector st.g_num_dev S).device_index)
            (get_physical_sector st.g_num_dev S).device_index
            (physical_location_to_offset (get_physical_sector st.g_num_dev S))
            (physical_location_to_sector (get_physical_sector st.g_num_dev S)) } ∧
      (S ≤ INT_MAX →
        physical_location_to_sector (get_physical_sector st.g_num_dev S)
          = (get_physical_sector st.g_num_dev S).stripe_number * 4
            + (get_physical_sector st.g_num_dev S).place_in_block) := by
  have hd := device_range hwf.1 hS
  have hfd : 0 ≤ st.g_dev_status.getD
      (get_physical_sector st.g_num_dev S).device_index.toNat INVALID_DEVICE := hopen.2.2
  have e1 := io_operation_success env IoKind.Read hwf hd.1 hd.2 hfd hseek hio
  refine ⟨?_, ?_, fun hmax => physical_location_to_sector_locate hwf.1 hS hmax⟩
  · unfold read_operation
    simp only [read_physical]
    rw [e1]
    rfl
  · apply not_reports_of_same
    simp [io_success_events, bad_reports_append, bad_reports_cons, bad_reports_nil,
      Event.is_bad_report]

theorem read_normal_path_witness :
    read_operation healthy_env four_devices 0 = .ok
      { four_devices with
        clock := 6
        trace := [.sys_lseek 3 0 0, .sys_transfer .Read 3 4096, .print_operated 0 0] } ∧
    (∃ st1, repair_device healthy_env four_devices_killed_0 0 = .ok st1 ∧
      read_operation healthy_env st1 0 = .ok
        { st1 with
          clock := st1.clock + 2
          trace := st1.trace
            ++ [.sys_lseek 15 0 0, .sys_transfer .Read 15 4096, .print_operated 0 0] }) :=
  ⟨(read_normal_path healthy_env four_devices 0 ⟨by decide, by decide⟩ (by decide)
      ⟨by decide, by decide, by decide⟩ rfl rfl).1, ⟨_, rfl, rfl⟩⟩

/-! ## Claims on offsets, blocks and bounds -/

/-- C21 fails on the code: with two devices the logical sector 524288 lies on device 0
at stripe 131072, place 0, on-device sector 524288; its byte offset 524288 * 4096 is
2147483648, but the product is formed in 32-bit `int` arithmetic and the offset passed
to the seek is -2147483648. -/
theorem offset_product_overflows_int :
    get_physical_sector 2 524288 = ⟨0, 131072, 0, false⟩ ∧
    physical_location_to_sector ⟨0, 131072, 0, false⟩ = 131072 * 4 + 0 ∧
    (131072 * 4 + 0 : Int) * 4096 = 2147483648 ∧
    physical_location_to_offset ⟨0, 131072, 0, false⟩ = -2147483648 := by
  decide

/-- C22: for `N ≥ 2` and a block index `b ≥ 0`, the logical sectors `4b + p`, `p` in
`0..3`, lie on the device and in the stripe of sector `4b` with `place_in_block = p`, so
their on-device sector indices `stripe*4 + place` are consecutive (also as
`physical_location_to_sector` computes them, for sectors in `int` range). -/
theorem block_sectors_consecutive (N b p : Int) (hN : 2 ≤ N) (hb : 0 ≤ b) (hp0 : 0 ≤ p)
    (hp1 : p < 4) :
    (get_physical_sector N (4 * b + p)).device_index
      = (get_physical_sector N (4 * b)).device_index ∧
    (get_physical_sector N (4 * b + p)).stripe_number
      = (get_physical_sector N (4 * b)).stripe_number ∧
    (get_physical_sector N (4 * b + p)).place_in_block = p ∧
    (get_physical_sector N (4 * b + p)).stripe_number * 4
        + (get_physical_sector N (4 * b + p)).place_in_block
      = (get_physical_sector N (4 * b)).stripe_number * 4
        + (get_physical_sector N (4 * b)).place_in_block + p ∧
    (4 * b + 3 ≤ INT_MAX →
      physical_location_to_sector (get_physical_sector N (4 * b + p))
        = physical_location_to_sector (get_physical_sector N (4 * b)) + p) := by
  have hS : 0 ≤ 4 * b + p := by omega
  have hS0 : 0 ≤ 4 * b := by omega
  have h1 : (4 * b + p) / (N - 1) / 4 = (4 * b + p) / 4 / (N - 1) := by
    rw [← stripe_eq_ediv hN hS, stripe_eq_block_div hN hS]
  have h2 : (4 * b) / (N - 1) / 4 = (4 * b) / 4 / (N - 1) := by
    rw [← stripe_eq_ediv hN hS0, stripe_eq_block_div hN hS0]
  have h3 : (4 * b + p) / 4 = b := by omega
  have h4 : (4 * b) / 4 = b := by omega
  have h5 : (4 * b + p) % 4 = p := by omega
  have h6 : (4 * b) % 4 = 0 := by omega
  have e1 := get_physical_sector_eq hN hS
  have e2 := get_physical_sector_eq hN hS0
  rw [h1, h3, h5] at e1
  rw [h2, h4, h6] at e2
  have hdev : (get_physical_sector N (4 * b + p)).device_index
      = (get_physical_sector N (4 * b)).device_index := by rw [e1, e2]
  have hstripe : (get_physical_sector N (4 * b + p)).stripe_number
      = (get_physical_sector N (4 * b)).stripe_number := by rw [e1, e2]
  have hplace : (get_physical_sector N (4 * b + p)).place_in_block = p := by rw [e1]
  have hplace0 : (get_physical_sector N (4 * b)).place_in_block = 0 := by rw [e2]
  refine ⟨hdev, hstripe, hplace, ?_, ?_⟩
  · rw [hstripe, hplace, hplace0]; omega
  · intro hmax
    have hm : (4 * b + 3 : Int) ≤ 2147483647 := hmax
    rw [physical_location_to_sector_locate hN hS (by unfold INT_MAX; omega),
      physical_location_to_sector_locate hN hS0 (by unfold INT_MAX; omega),
      hstripe, hplace, hplace0]
    omega

theorem block_sectors_consecutive_witness :
    (get_physical_sector 4 (4 * 3 + 2)).device_index
      = (get_physical_sector 4 (4 * 3)).device_index ∧
    (get_physical_sector 4 (4 * 3 + 2)).stripe_number
      = (get_physical_sector 4 (4 * 3)).stripe_number ∧
    (get_physical_sector 4 (4 * 3 + 2)).place_in_block = 2 :=
  ⟨(block_sectors_consecutive 4 3 2 (by decide) (by decide) (by decide) (by decide)).1,
   (block_sectors_consecutive 4 3 2 (by decide) (by decide) (by decide) (by decide)).2.1,
   (block_sectors_consecutive 4 3 2 (by decide) (by decide) (by decide) (by decide)).2.2.1⟩

/-- C26: for `N ≥ 2` and `S ≥ 0`, `get_physical_sector S` has `0 ≤ device_index < N`,
`0 ≤ place_in_block < 4` and `stripe_number ≥ 0`, every backup entry derived from it has
`0 ≤ device_index < N`, and on a table of `N` slots `read_operation S` and
`write_operation S` return a result: no index leaves the device table. -/
theorem indices_in_bounds (N S : Int) (hN : 2 ≤ N) (hS : 0 ≤ S) :
    (0 ≤ (get_physical_sector N S).device_index ∧
      (get_physical_sector N S).device_index < N) ∧
    (0 ≤ (get_physical_sector N S).place_in_block ∧
      (get_physical_sector N S).place_in_block < 4) ∧
    0 ≤ (get_physical_sector N S).stripe_number ∧
    (∀ e ∈ get_backup_sectors N (get_physical_sector N S),
      0 ≤ e.device_index ∧ e.device_index < N) ∧
    ∀ (env : Env) (st : State), st.wf → st.g_num_dev = N →
      (∃ st', read_operation env st S = .ok st') ∧
      (∃ st', write_operation env st S = .ok st') := by
  have hd := device_range hN hS
  refine ⟨hd, place_range hN hS, stripe_nonneg hN hS,
    fun e he => backup_entry_range hN _ e hd.1 hd.2 he, ?_⟩
  intro env st hwf hn
  subst hn
  obtain ⟨st1, _, _, e1, _⟩ := read_operation_structure env hwf hS
  obtain ⟨st2, e2, _⟩ := write_operation_ok env hwf hS
  exact ⟨⟨st1, e1⟩, ⟨st2, e2⟩⟩

theorem indices_in_bounds_witness :
    (0 ≤ (get_physical_sector 4 13).device_index ∧ (get_physical_sector 4 13).device_index < 4) ∧
      ∃ st', read_operation broken_env four_devices 13 = .ok st' :=
  ⟨(indices_in_bounds 4 13 (by decide) (by decide)).1,
   ((indices_in_bounds 4 13 (by decide) (by decide)).2.2.2.2 broken_env four_devices
      ⟨by decide, by decide⟩ rfl).1⟩

/-- C27: on a table of `N` slots the assertion of `close_device` fails exactly for the
indices outside `0 ≤ i < N`, whereas the assertion of `open_device` and of
`repair_device` fails exactly for the indices outside `0 ≤ i ≤ N`; `REPAIR N` passes the
assertion, and the accesses of `repair_device` and `open_device` to slot `N` are outside
the device table, while `KILL N` is stopped by the assertion. -/
theorem repair_admits_one_past_end (env : Env) (st : State) (hwf : st.wf) :
    (∀ i, close_device st i = .error Fault.assertion_failed ↔
      ¬ (0 ≤ i ∧ i < st.g_num_dev)) ∧
    (∀ i, open_device env st i = .error Fault.assertion_failed ↔
      ¬ (0 ≤ i ∧ i ≤ st.g_num_dev)) ∧
    (∀ i, repair_device env st i = .error Fault.assertion_failed ↔
      ¬ (0 ≤ i ∧ i ≤ st.g_num_dev)) ∧
    dev_status_get st st.g_num_dev = .error Fault.out_of_bounds ∧
    (∀ v, dev_status_set st st.g_num_dev v = .error Fault.out_of_bounds) ∧
    open_device env st st.g_num_dev = .error Fault.out_of_bounds ∧
    repair_device env st st.g_num_dev = .error Fault.out_of_bounds ∧
    run_command env st Command.REPAIR st.g_num_dev = .error Fault.out_of_bounds ∧
    run_command env st Command.KILL st.g_num_dev = .error Fault.assertion_failed := by
  have hN := hwf.1
  have hget : dev_status_get st st.g_num_dev = .error Fault.out_of_bounds := by
    unfold dev_status_get
    rw [if_neg (by rw [hwf.2]; omega)]
  have hset : ∀ (s : State) (v : Int), s.g_dev_status.length = st.g_dev_status.length →
      dev_status_set s st.g_num_dev v = .error Fault.out_of_bounds := by
    intro s v hs
    unfold dev_status_set
    rw [if_neg (by rw [hs, hwf.2]; omega)]
  have hopenN : open_device env st st.g_num_dev = .error Fault.out_of_bounds := by
    unfold open_device
    rw [if_pos ⟨by omega, by omega⟩]
    simp only
    rw [hset (syscall (Event.sys_open st.g_num_dev (env.open_result st.clock st.g_num_dev)) st)
      _ rfl]
  have hrepN : repair_device env st st.g_num_dev = .error Fault.out_of_bounds := by
    unfold repair_device
    rw [if_pos ⟨by omega, by omega⟩, hget]
  have hkill : ∀ i, close_device st i = .error Fault.assertion_failed ↔
      ¬ (0 ≤ i ∧ i < st.g_num_dev) := by
    intro i
    constructor
    · intro h hr
      obtain ⟨st', e, _⟩ := close_device_ok hwf hr.1 hr.2
      rw [e] at h
      simp at h
    · intro hr
      unfold close_device
      rw [if_neg (by intro hc; exact hr ⟨hc.1, hc.2⟩)]
  refine ⟨hkill, ?_, ?_, hget, fun v => hset st v rfl, hopenN, hrepN, hrepN, ?_⟩
  · intro i
    constructor
    · intro h hr
      by_cases hi : i = st.g_num_dev
      · subst hi
        rw [hopenN] at h
        simp at h
      · rw [open_device_eq env hwf hr.1 (by omega)] at h
        simp at h
    · intro hr
      unfold open_device
      rw [if_neg (by intro hc; exact hr ⟨hc.2, hc.1⟩)]
  · intro i
    constructor
    · intro h hr
      by_cases hi : i = st.g_num_dev
      · subst hi
        rw [hrepN] at h
        simp at h
      · rw [repair_device_eq env hwf hr.1 (by omega)] at h
        simp at h
    · intro hr
      unfold repair_device
      rw [if_neg (by intro hc; exact hr ⟨hc.2, hc.1⟩)]
  · exact (hkill st.g_num_dev).2 (by omega)

theorem repair_admits_one_past_end_witness :
    repair_device healthy_env four_devices 4 = .error Fault.out_of_bounds ∧
      close_device four_devices 4 = .error Fault.assertion_failed :=
  ⟨(repair_admits_one_past_end healthy_env four_devices ⟨by decide, by decide⟩).2.2.2.2.2.2.1,
   (repair_admits_one_past_end healthy_env four_devices ⟨by decide, by decide⟩).2.2.2.2.2.2.2.2⟩

/-! ## Where the table changes and what is reported -/

/-- Across a sequence of transfers a slot changes only to `INVALID_DEVICE` and only on a
device on which a call of the sequence failed; if every call succeeded the table is the
same. -/
theorem io_run_changes (env : Env) (calls : List (IoKind × PhysicalLocation × Bool)) :
    ∀ (st s : State), io_run env st calls s →
      (∀ j, 0 ≤ j → s.handle j ≠ st.handle j →
        s.handle j = INVALID_DEVICE ∧
        ∃ kd x, (kd, x, false) ∈ calls ∧ x.device_index = j) ∧
      ((∀ c ∈ calls, c.2.2 = true) → s.g_dev_status = st.g_dev_status) := by
  induction calls with
  | nil =>
    intro st s h
    simp only [io_run] at h
    subst h
    exact ⟨fun j _ hne => absurd rfl hne, fun _ => rfl⟩
  | cons c calls ih =>
    intro st s h
    obtain ⟨kd, x, f⟩ := c
    obtain ⟨sm, e, h⟩ := h
    obtain ⟨ih1, ih2⟩ := ih sm s h
    obtain ⟨_, _, hother, hself, ht, _, _⟩ := io_operation_effect env e
    constructor
    · intro j hj hne
      by_cases hsm : s.handle j = sm.handle j
      · have hne2 : sm.handle j ≠ st.handle j := by rw [← hsm]; exact hne
        have hjx : j = x.device_index := by
          by_contra hc
          exact hne2 (hother j hj hc)
        subst hjx
        have hinv : sm.handle x.device_index = INVALID_DEVICE := by
          rcases hself with h1 | h1
          · exact absurd h1 hne2
          · exact h1
        have hf : f = false := by
          cases f with
          | false => rfl
          | true =>
            exfalso
            apply hne2
            unfold State.handle
            rw [(ht rfl).1]
        subst hf
        exact ⟨hsm.trans hinv, kd, x, List.mem_cons_self _ _, rfl⟩
      · obtain ⟨a1, kd', x', hmem, hx'⟩ := ih1 j hj hsm
        exact ⟨a1, kd', x', List.mem_cons_of_mem _ hmem, hx'⟩
    · intro hall
      have hf : f = true := hall (kd, x, f) (List.mem_cons_self _ _)
      rw [ih2 (fun c hc => hall c (List.mem_cons_of_mem _ hc)), (ht hf).1]

/-- Transfers that all succeed run on devices whose slots hold a handle. -/
theorem all_succeed_handles (env : Env) (ops : List (IoKind × PhysicalLocation)) :
    ∀ (s s' : State), io_run env s (all_succeed ops) s' →
      ∀ op ∈ ops, 0 ≤ s.handle op.2.device_index := by
  induction ops with
  | nil => intro s s' _ op hop; simp at hop
  | cons a ops ih =>
    intro s s' h op hop
    obtain ⟨ka, xa⟩ := a
    simp only [all_succeed, List.map_cons, io_run] at h
    obtain ⟨s1, e, h2⟩ := h
    obtain ⟨_, _, _, _, ht, _, _⟩ := io_operation_effect env e
    rcases List.mem_cons.1 hop with rfl | hop
    · exact (ht rfl).2.2
    · have h3 := ih s1 s' h2 op hop
      unfold State.handle at h3 ⊢
      rw [(ht rfl).1] at h3
      exact h3

/-- A sequence of transfers started in a state reached from `st`: when it fails, the
last bad device is the device of one of its transfers. -/
theorem run_transfers_report (env : Env) (ops : List (IoKind × PhysicalLocation))
    {st s1 : State} (f1 : frame_kept st s1)
    (hr : ∀ op ∈ ops, 0 ≤ op.2.device_index ∧ op.2.device_index < s1.g_num_dev) :
    ∃ b s2, run_transfers env s1 ops = .ok (b, s2) ∧ frame_kept st s2 ∧
      (b = true → io_run env s1 (all_succeed ops) s2) ∧
      (b = false → ∃ kd x, (kd, x) ∈ ops ∧ s2.g_last_bad_device = x.device_index) := by
  obtain ⟨b, s2, e, f2, ht, hf⟩ := run_transfers_outcome env ops s1 f1.1 hr
  refine ⟨b, s2, e, frame_kept_trans f1 f2, ht, fun hb => ?_⟩
  obtain ⟨n, kd, x, sk, hx, _, hfail⟩ := hf hb
  exact ⟨kd, x, List.getElem?_mem hx, ((io_operation_effect env hfail).2.2.2.2.2.1 rfl).1⟩

/-- The end of `read_operation`: either no bad-device line, or the line after a failed
read of a backup location, whose device is the last bad device. -/
theorem read_operation_report (env : Env) {st : State} {S : Int} (hwf : st.wf)
    (hS : 0 ≤ S) :
    ∃ st' s, read_operation env st S = .ok st' ∧ frame_kept st s ∧
      (st' = s ∨ (st' = print_bad_operation_on_device s ∧
        ∃ x ∈ get_backup_sectors st.g_num_dev (get_physical_sector st.g_num_dev S),
          s.g_last_bad_device = x.device_index)) := by
  have hd := device_range hwf.1 hS
  obtain ⟨b0, s0, e0, f0⟩ := io_operation_frame env IoKind.Read hwf hd.1 hd.2
  have hro : read_operation env st S =
      match (if !b0 then read_backup env s0 (get_physical_sector st.g_num_dev S)
             else .ok (b0, s0)) with
      | .error e => .error e
      | .ok (read_ok, st) =>
        if !read_ok then .ok (print_bad_operation_on_device st) else .ok st := by
    unfold read_operation
    simp only [read_physical]
    rw [e0]
  cases b0 with
  | true =>
    refine ⟨s0, s0, ?_, f0, Or.inl rfl⟩
    rw [hro]; rfl
  | false =>
    have hrange : ∀ op ∈ (get_backup_sectors s0.g_num_dev
        (get_physical_sector st.g_num_dev S)).map (fun e => (IoKind.Read, e)),
        0 ≤ op.2.device_index ∧ op.2.device_index < s0.g_num_dev := by
      intro op hop
      obtain ⟨e, he, rfl⟩ := List.mem_map.1 hop
      rw [f0.2.1] at he ⊢
      exact backup_entry_range hwf.1 _ e hd.1 hd.2 he
    obtain ⟨b, s1, e1, f1, _, hl⟩ := run_transfers_report env _ f0 hrange
    have hrb : read_backup env s0 (get_physical_sector st.g_num_dev S) = .ok (b, s1) := by
      unfold read_backup
      rw [read_backup_loop_eq_run]
      exact e1
    cases b with
    | true =>
      refine ⟨s1, s1, ?_, f1, Or.inl rfl⟩
      rw [hro]; simp only [Bool.not_false, if_true]; rw [hrb]; rfl
    | false =>
      obtain ⟨kd, x, hx, hlast⟩ := hl rfl
      obtain ⟨e, he, hxe⟩ := List.mem_map.1 hx
      rw [f0.2.1] at he
      have hx2 : x = e := (congrArg Prod.snd hxe).symm
      refine ⟨print_bad_operation_on_device s1, s1, ?_, f1, Or.inr ⟨rfl, e, he, ?_⟩⟩
      · rw [hro]; simp only [Bool.not_false, if_true]; rw [hrb]; rfl
      · rw [hlast, hx2]

/-- The first phase of `write_operation`: the standard write, or nothing when the target
is marked Failed. -/
theorem write_first_phase (env : Env) {st : State} {S : Int} (hwf : st.wf) (hS : 0 ≤ S) :
    ∃ b1 s1, (if INVALID_DEVICE ≠ st.g_dev_status.getD
            (get_physical_sector st.g_num_dev S).device_index.toNat INVALID_DEVICE
          then standard_write env st (get_physical_sector st.g_num_dev S)
            (get_relevant_parity_sector st.g_num_dev (get_physical_sector st.g_num_dev S))
          else .ok (false, st)) = .ok (b1, s1) ∧ frame_kept st s1 := by
  split_ifs
  · obtain ⟨ops, ho, hr⟩ := standard_write_run env hwf hS
    obtain ⟨b, s', e, f, _⟩ := run_transfers_outcome env ops st hwf hr
    exact ⟨b, s', by rw [ho]; exact e, f⟩
  · exact ⟨false, st, rfl, frame_kept_refl hwf⟩

/-- The second phase of `write_operation` after a first phase that did not succeed: the
degraded write, started in the state the first phase left. -/
theorem write_second_phase (env : Env) {st s1 : State} {S : Int} (hwf : st.wf) (hS : 0 ≤ S)
    (f1 : frame_kept st s1)
    (e1 : (if INVALID_DEVICE ≠ st.g_dev_status.getD
            (get_physical_sector st.g_num_dev S).device_index.toNat INVALID_DEVICE
          then standard_write env st (get_physical_sector st.g_num_dev S)
            (get_relevant_parity_sector st.g_num_dev (get_physical_sector st.g_num_dev S))
          else .ok (false, st)) = .ok (false, s1)) :
    ∃ b2 s2, error_state_write env s1 (get_physical_sector st.g_num_dev S) = .ok (b2, s2) ∧
      frame_kept st s2 ∧
      write_operation env st S
        = .ok (if b2 then s2 else print_bad_operation_on_device s2) ∧
      (b2 = true → io_run env s1 (all_succeed
        (degraded_write_ops st.g_num_dev (get_physical_sector st.g_num_dev S))) s2) ∧
      (b2 = false →
        ∃ x ∈ get_backup_sectors st.g_num_dev (get_physical_sector st.g_num_dev S),
          s2.g_last_bad_device = x.device_index) := by
  have hd := device_range hwf.1 hS
  have hrange : ∀ op ∈ degraded_write_ops s1.g_num_dev (get_physical_sector st.g_num_dev S),
      0 ≤ op.2.device_index ∧ op.2.device_index < s1.g_num_dev := by
    intro op hop
    obtain ⟨e, he, rfl⟩ := List.mem_map.1 hop
    rw [f1.2.1] at he ⊢
    exact backup_entry_range hwf.1 _ e hd.1 hd.2 he
  obtain ⟨b2, s2, e2, f2, ht, hl⟩ := run_transfers_report env _ f1 hrange
  have hes : error_state_write env s1 (get_physical_sector st.g_num_dev S) = .ok (b2, s2) := by
    rw [error_state_write_eq_run]
    exact e2
  have hwo : write_operation env st S
      = .ok (if b2 then s2 else print_bad_operation_on_device s2) := by
    unfold write_operation
    simp only [dev_status_get_ok hwf hd.1 hd.2]
    rw [e1]
    simp only [Bool.not_false, if_true]
    rw [hes]
    cases b2 <;> rfl
  refine ⟨b2, s2, hes, f2, hwo, ?_, ?_⟩
  · intro hb
    have h := ht hb
    rw [f1.2.1] at h
    exact h
  · intro hb
    obtain ⟨kd, x, hx, hlast⟩ := hl hb
    obtain ⟨e, he, hxe⟩ := List.mem_map.1 hx
    rw [f1.2.1] at he
    have hx2 : x = e := (congrArg Prod.snd hxe).symm
    exact ⟨e, he, by rw [hlast, hx2]⟩

/-- The end of `write_operation`: either no bad-device line, or the line after a failed
transfer of the degraded write, whose device is the last bad device. -/
theorem write_operation_report (env : Env) {st : State} {S : Int} (hwf : st.wf)
    (hS : 0 ≤ S) :
    ∃ st' s, write_operation env st S = .ok st' ∧ frame_kept st s ∧
      (st' = s ∨ (st' = print_bad_operation_on_device s ∧
        ∃ x ∈ get_backup_sectors st.g_num_dev (get_physical_sector st.g_num_dev S),
          s.g_last_bad_device = x.device_index)) := by
  have hd := device_range hwf.1 hS
  obtain ⟨b1, s1, e1, f1⟩ := write_first_phase env hwf hS
  cases b1 with
  | true =>
    refine ⟨s1, s1, ?_, f1, Or.inl rfl⟩
    unfold write_operation
    simp only [dev_status_get_ok hwf hd.1 hd.2]
    rw [e1]
    rfl
  | false =>
    obtain ⟨b2, s2, _, f2, hwo, _, hl⟩ := write_second_phase env hwf hS f1 e1
    cases b2 with
    | true => exact ⟨s2, s2, hwo, f2, Or.inl rfl⟩
    | false => exact ⟨print_bad_operation_on_device s2, s2, hwo, f2, Or.inr ⟨rfl, hl rfl⟩⟩

/-! ## Claims on table changes and on the reported device -/

/-- C23: `read_operation` and `write_operation` on a sector `S ≥ 0` return, their effect
on the device table is that of a sequence of sector transfers, and every device whose
slot differs afterwards is Failed and is the device of a transfer of that sequence that
failed; when every transfer of the sequence succeeded the device table is unchanged. -/
theorem status_changes_only_on_failure (env : Env) (st : State) (S : Int) (hwf : st.wf)
    (hS : 0 ≤ S) :
    (∃ st' calls s, read_operation env st S = .ok st' ∧ io_run env st calls s ∧
      (st' = s ∨ st' = print_bad_operation_on_device s) ∧
      (∀ j, 0 ≤ j → j < st.g_num_dev → st'.handle j ≠ st.handle j →
        st'.is_failed j ∧ ∃ kd x, (kd, x, false) ∈ calls ∧ x.device_index = j) ∧
      ((∀ c ∈ calls, c.2.2 = true) → st'.g_dev_status = st.g_dev_status)) ∧
    (∃ st' calls s, write_operation env st S = .ok st' ∧ io_run env st calls s ∧
      (st' = s ∨ st' = print_bad_operation_on_device s) ∧
      (∀ j, 0 ≤ j → j < st.g_num_dev → st'.handle j ≠ st.handle j →
        st'.is_failed j ∧ ∃ kd x, (kd, x, false) ∈ calls ∧ x.device_index = j) ∧
      ((∀ c ∈ calls, c.2.2 = true) → st'.g_dev_status = st.g_dev_status)) := by
  have key : ∀ (st' s : State) (calls : List (IoKind × PhysicalLocation × Bool)),
      io_run env st calls s → frame_kept st s →
      (st' = s ∨ (st' = print_bad_operation_on_device s ∧
        ∃ c kd x, calls = c ++ [(kd, x, false)])) →
      (st' = s ∨ st' = print_bad_operation_on_device s) ∧
      (∀ j, 0 ≤ j → j < st.g_num_dev → st'.handle j ≠ st.handle j →
        st'.is_failed j ∧ ∃ kd x, (kd, x, false) ∈ calls ∧ x.device_index = j) ∧
      ((∀ c ∈ calls, c.2.2 = true) → st'.g_dev_status = st.g_dev_status) := by
    intro st' s calls hrun hf hst
    obtain ⟨c1, c2⟩ := io_run_changes env calls st s hrun
    have htab : st'.g_dev_status = s.g_dev_status := by
      rcases hst with rfl | ⟨rfl, _⟩ <;> rfl
    refine ⟨?_, ?_, ?_⟩
    · rcases hst with h | ⟨h, _⟩
      · exact Or.inl h
      · exact Or.inr h
    · intro j hj0 hj1 hne
      have hne2 : s.handle j ≠ st.handle j := by
        unfold State.handle at hne ⊢
        rw [← htab]
        exact hne
      obtain ⟨a1, a2⟩ := c1 j hj0 hne2
      refine ⟨⟨hj0, ?_, ?_⟩, a2⟩
      · rw [htab, hf.1.2, hf.2.1]
        exact hj1
      · rw [htab]
        exact a1
    · intro hall
      rw [htab]
      exact c2 hall
  constructor
  · obtain ⟨st', calls, s, e, hrun, hf, hst⟩ := read_operation_structure env hwf hS
    exact ⟨st', calls, s, e, hrun, key st' s calls hrun hf hst⟩
  · obtain ⟨st', calls, s, e, hrun, hf, hst⟩ := write_operation_structure env hwf hS
    exact ⟨st', calls, s, e, hrun, key st' s calls hrun hf hst⟩

theorem status_changes_only_on_failure_witness :
    ∃ st' calls s, read_operation handle_3_broken_env four_devices 0 = .ok st' ∧
      io_run handle_3_broken_env four_devices calls s ∧
      (∀ j, 0 ≤ j → j < four_devices.g_num_dev → st'.handle j ≠ four_devices.handle j →
        st'.is_failed j ∧ ∃ kd x, (kd, x, false) ∈ calls ∧ x.device_index = j) := by
  obtain ⟨st', calls, s, e, hrun, _, h, _⟩ :=
    (status_changes_only_on_failure handle_3_broken_env four_devices 0
      ⟨by decide, by decide⟩ (by decide)).1
  exact ⟨st', calls, s, e, hrun, h⟩

/-- C24: when the target device of `S` and the parity device of its stripe are both Open
and a sub-step of the standard write on the parity device fails after the earlier
sub-steps succeeded, `error_state_write` fails as well and `write_operation` prints the
bad-device line. -/
theorem parity_substep_failure_reported (env : Env) (st : State) (S : Int) (hwf : st.wf)
    (hS : 0 ≤ S)
    (htarget : st.is_open (get_physical_sector st.g_num_dev S).device_index)
    (hparity : st.is_open
      (get_relevant_parity_sector st.g_num_dev (get_physical_sector st.g_num_dev S)).device_index)
    (n : Nat) (kd : IoKind) (x : PhysicalLocation) (sk s1 : State)
    (hx : (standard_write_ops
        (lower_index (get_physical_sector st.g_num_dev S)
          (get_relevant_parity_sector st.g_num_dev (get_physical_sector st.g_num_dev S)))
        (higher_index (get_physical_sector st.g_num_dev S)
          (get_relevant_parity_sector st.g_num_dev (get_physical_sector st.g_num_dev S))))[n]?
      = some (kd, x))
    (hdev : x.device_index
      = (get_relevant_parity_sector st.g_num_dev
          (get_physical_sector st.g_num_dev S)).device_index)
    (hok : io_run env st (all_succeed ((standard_write_ops
        (lower_index (get_physical_sector st.g_num_dev S)
          (get_relevant_parity_sector st.g_num_dev (get_physical_sector st.g_num_dev S)))
        (higher_index (get_physical_sector st.g_num_dev S)
          (get_relevant_parity_sector st.g_num_dev
            (get_physical_sector st.g_num_dev S)))).take n)) sk)
    (hfail : io_operation env sk x kd = .ok (false, s1)) :
    ∃ st' s2, write_operation env st S = .ok st' ∧
      error_state_write env s1 (get_physical_sector st.g_num_dev S) = .ok (false, s2) ∧
      st' = print_bad_operation_on_device s2 ∧
      reports_failure st st' := by
  have hd := device_range hwf.1 hS
  have hq := parity_range hwf.1 (stripe_nonneg hwf.1 hS)
  have hne := device_ne_parity hwf.1 hS
  have hpar : st.handle (get_relevant_parity_sector st.g_num_dev
      (get_physical_sector st.g_num_dev S)).device_index ≠ INVALID_DEVICE := by
    have h : 0 ≤ st.handle (get_relevant_parity_sector st.g_num_dev
        (get_physical_sector st.g_num_dev S)).device_index := hparity.2.2
    intro hc
    rw [hc] at h
    exact absurd h (by decide)
  have htgt : INVALID_DEVICE ≠ st.g_dev_status.getD
      (get_physical_sector st.g_num_dev S).device_index.toNat INVALID_DEVICE := by
    have h : 0 ≤ st.g_dev_status.getD
        (get_physical_sector st.g_num_dev S).device_index.toNat INVALID_DEVICE := htarget.2.2
    intro hc
    rw [← hc] at h
    exact absurd h (by decide)
  have hsw := standard_write_eq_run env hwf hq.1 hq.2 hne hpar
  have hrun := run_transfers_first_failure env _ st n kd x sk s1 hx hok hfail
  have e1 : standard_write env st (get_physical_sector st.g_num_dev S)
      (get_relevant_parity_sector st.g_num_dev (get_physical_sector st.g_num_dev S))
      = .ok (false, s1) := hsw.trans hrun
  have f1 : frame_kept st s1 := by
    obtain ⟨b, s', e, f⟩ := @standard_write_ok env st (get_physical_sector st.g_num_dev S)
      (get_relevant_parity_sector st.g_num_dev (get_physical_sector st.g_num_dev S))
      hwf hd.1 hd.2 hq.1 hq.2 hne
    rw [e1] at e
    simp only [Except.ok.injEq, Prod.mk.injEq] at e
    rw [e.2]
    exact f
  have e1' : (if INVALID_DEVICE ≠ st.g_dev_status.getD
        (get_physical_sector st.g_num_dev S).device_index.toNat INVALID_DEVICE
      then standard_write env st (get_physical_sector st.g_num_dev S)
        (get_relevant_parity_sector st.g_num_dev (get_physical_sector st.g_num_dev S))
      else .ok (false, st)) = .ok (false, s1) := by
    rw [if_pos htgt, e1]
  obtain ⟨b2, s2, hes, f2, hwo, ht, _⟩ := write_second_phase env hwf hS f1 e1'
  have hneg : s1.handle (get_relevant_parity_sector st.g_num_dev
      (get_physical_sector st.g_num_dev S)).device_index < 0 := by
    have h := ((io_operation_effect env hfail).2.2.2.2.2.1 rfl).2
    rw [hdev] at h
    have hv : INVALID_DEVICE = -1 := rfl
    rcases h with h | h <;> omega
  have hb2 : b2 = false := by
    cases b2 with
    | false => rfl
    | true =>
      exfalso
      obtain ⟨e, he, hed⟩ := List.mem_map.1
        ((backup_mem_device hwf.1 (get_physical_sector st.g_num_dev S) hd.1 hd.2
          (get_relevant_parity_sector st.g_num_dev
            (get_physical_sector st.g_num_dev S)).device_index).2
          ⟨hq.1, hq.2, Ne.symm hne⟩)
      have hmem : ((if e.is_parity then IoKind.Write else IoKind.Read), e)
          ∈ degraded_write_ops st.g_num_dev (get_physical_sector st.g_num_dev S) :=
        List.mem_map.2 ⟨e, he, rfl⟩
      have h := all_succeed_handles env _ s1 s2 (ht rfl) _ hmem
      simp only at h hed
      rw [hed] at h
      omega
  subst hb2
  exact ⟨print_bad_operation_on_device s2, s2, hwo, hes, rfl,
    print_bad_reports st s2 f2.2.2⟩

theorem parity_substep_failure_reported_witness :
    ∃ st' s2, write_operation handle_3_broken_env four_devices 36 = .ok st' ∧
      st' = print_bad_operation_on_device s2 ∧ reports_failure four_devices st' := by
  obtain ⟨st', s2, h1, _, h3, h4⟩ :=
    parity_substep_failure_reported handle_3_broken_env four_devices 36
      ⟨by decide, by decide⟩ (by decide) ⟨by decide, by decide, by decide⟩
      ⟨by decide, by decide, by decide⟩ 0 IoKind.Read
      (get_relevant_parity_sector 4 (get_physical_sector 4 36)) four_devices
      { four_devices with
        g_dev_status := [-1, 4, 5, 6]
        clock := 6
        trace := [.sys_lseek 3 49152 (-1), .print_seek_failed 0, .sys_close 3] }
      rfl rfl rfl rfl
  exact ⟨st', s2, h1, h3, h4⟩

/-- C25: for `N ≥ 2` and `S ≥ 0`, `read_operation S` and `write_operation S` return, and
whenever one of them prints the bad-device line, the index printed is the device of an
entry of the backup set of `get_physical_sector S`, hence a device other than the target
device. -/
theorem reported_device_in_backup_set (env : Env) (st : State) (S : Int) (hwf : st.wf)
    (hS : 0 ≤ S) :
    (∃ st', read_operation env st S = .ok st' ∧
      (reports_failure st st' → ∃ s : State,
        ∃ x ∈ get_backup_sectors st.g_num_dev (get_physical_sector st.g_num_dev S),
          st'.trace = s.trace ++ [Event.print_bad x.device_index] ∧
          bad_reports s.trace = bad_reports st.trace ∧
          x.device_index ≠ (get_physical_sector st.g_num_dev S).device_index)) ∧
    (∃ st', write_operation env st S = .ok st' ∧
      (reports_failure st st' → ∃ s : State,
        ∃ x ∈ get_backup_sectors st.g_num_dev (get_physical_sector st.g_num_dev S),
          st'.trace = s.trace ++ [Event.print_bad x.device_index] ∧
          bad_reports s.trace = bad_reports st.trace ∧
          x.device_index ≠ (get_physical_sector st.g_num_dev S).device_index)) := by
  have key : ∀ (st' s : State), frame_kept st s →
      (st' = s ∨ (st' = print_bad_operation_on_device s ∧
        ∃ x ∈ get_backup_sectors st.g_num_dev (get_physical_sector st.g_num_dev S),
          s.g_last_bad_device = x.device_index)) →
      reports_failure st st' → ∃ s : State,
        ∃ x ∈ get_backup_sectors st.g_num_dev (get_physical_sector st.g_num_dev S),
          st'.trace = s.trace ++ [Event.print_bad x.device_index] ∧
          bad_reports s.trace = bad_reports st.trace ∧
          x.device_index ≠ (get_physical_sector st.g_num_dev S).device_index := by
    intro st' s hf hst hrep
    rcases hst with rfl | ⟨rfl, x, hx, hlast⟩
    · exact absurd hrep (not_reports_of_same _ _ hf.2.2)
    · refine ⟨s, x, hx, ?_, hf.2.2, (backup_entry _ x hx).2.2.2.1⟩
      unfold print_bad_operation_on_device log
      rw [hlast]
  constructor
  · obtain ⟨st', s, e, hf, hst⟩ := read_operation_report env hwf hS
    exact ⟨st', e, key st' s hf hst⟩
  · obtain ⟨st', s, e, hf, hst⟩ := write_operation_report env hwf hS
    exact ⟨st', e, key st' s hf hst⟩

theorem reported_device_in_backup_set_witness :
    (∃ st', read_operation broken_env four_devices_killed_0 0 = .ok st' ∧
      (reports_failure four_devices_killed_0 st' → ∃ s : State,
        ∃ x ∈ get_backup_sectors 4 (get_physical_sector 4 0),
          st'.trace = s.trace ++ [Event.print_bad x.device_index] ∧
          bad_reports s.trace = bad_reports four_devices_killed_0.trace ∧
          x.device_index ≠ (get_physical_sector 4 0).device_index)) ∧
    read_operation broken_env four_devices_killed_0 0 = .ok
      { four_devices_killed_0 with
        g_dev_status := [-1, -1, 5, 6]
        g_last_bad_device := 1
        clock := 7
        trace := [.sys_lseek 4 0 (-1), .print_seek_failed 1, .sys_close 4, .print_bad 1] } :=
  ⟨(reported_device_in_backup_set broken_env four_devices_killed_0 0 ⟨by decide, by decide⟩
      (by decide)).1, rfl⟩

/-! ## Operations on sectors whose byte offset leaves the range of `int` -/

/-- C9 fails on the code: with four devices and device 0 Failed, `READ 3145728` has its
target on device 0 at stripe 262144, place 0, that is at on-device sector 1048576, whose
byte offset 1048576 * 4096 = 4294967296 does not fit an `int`; the three reads on devices
1, 2, 3 seek to byte offset 0, which is on-device sector 0, with the system calls of
`READ 0`, and success is reported. -/
theorem degraded_read_seeks_wrapped_offset :
    get_physical_sector 4 3145728 = ⟨0, 262144, 0, false⟩ ∧
    four_devices_killed_0.is_failed 0 ∧
    (262144 * 4 + 0 : Int) = 1048576 ∧
    (1048576 : Int) * 4096 = 4294967296 ∧
    physical_location_to_offset ⟨0, 262144, 0, false⟩ = 0 ∧
    read_operation healthy_env four_devices_killed_0 3145728 = .ok
      { g_num_dev := 4, g_dev_status := [-1, 4, 5, 6], g_last_bad_device := 0, clock := 11,
        trace := [.sys_lseek 4 0 0, .sys_transfer .Read 4 4096, .print_operated 1 1048576,
          .sys_lseek 5 0 0, .sys_transfer .Read 5 4096, .print_operated 2 1048576,
          .sys_lseek 6 0 0, .sys_transfer .Read 6 4096, .print_operated 3 1048576] } ∧
    read_operation healthy_env four_devices_killed_0 0 = .ok
      { g_num_dev := 4, g_dev_status := [-1, 4, 5, 6], g_last_bad_device := 0, clock := 11,
        trace := [.sys_lseek 4 0 0, .sys_transfer .Read 4 4096, .print_operated 1 0,
          .sys_lseek 5 0 0, .sys_transfer .Read 5 4096, .print_operated 2 0,
          .sys_lseek 6 0 0, .sys_transfer .Read 6 4096, .print_operated 3 0] } :=
  ⟨by decide, ⟨by decide, by decide, by decide⟩, by decide, by decide, by decide, rfl, rfl⟩

/-- C11 fails on the code: with four devices and device 3 Failed, `WRITE 3145728` has its
target on device 0 at stripe 262144, place 0 (on-device sector 1048576, byte offset
4294967296) and its parity on device 3; the single write on device 0 seeks to byte offset
0, which is on-device sector 0, with the system calls of `WRITE 0`, and success is
reported. -/
theorem failed_parity_write_seeks_wrapped_offset :
    get_physical_sector 4 3145728 = ⟨0, 262144, 0, false⟩ ∧
    get_parity_index_in_stripe 4 262144 = 3 ∧
    four_devices_killed_3.is_open 0 ∧ four_devices_killed_3.is_failed 3 ∧
    (262144 * 4 + 0 : Int) = 1048576 ∧
    (1048576 : Int) * 4096 = 4294967296 ∧
    physical_location_to_offset ⟨0, 262144, 0, false⟩ = 0 ∧
    write_operation healthy_env four_devices_killed_3 3145728 = .ok
      { g_num_dev := 4, g_dev_status := [3, 4, 5, -1], g_last_bad_device := 0, clock := 7,
        trace := [.sys_lseek 3 0 0, .sys_transfer .Write 3 4096,
          .print_operated 0 1048576] } ∧
    write_operation healthy_env four_devices_killed_3 0 = .ok
      { g_num_dev := 4, g_dev_status := [3, 4, 5, -1], g_last_bad_device := 0, clock := 7,
        trace := [.sys_lseek 3 0 0, .sys_transfer .Write 3 4096, .print_operated 0 0] } :=
  ⟨by decide, by decide, ⟨by decide, by decide, by decide⟩,
    ⟨by decide, by decide, by decide⟩, by decide, by decide, by decide, rfl, rfl⟩

/-- C20 fails on the code: with four Open devices, `READ 3145728` has its target on
device 0 at stripe 262144, place 0 (on-device sector 1048576, byte offset 4294967296); the
single read on device 0 seeks to byte offset 0, which is on-device sector 0, with the
system calls of `READ 0`, and success is reported. -/
theorem normal_read_seeks_wrapped_offset :
    get_physical_sector 4 3145728 = ⟨0, 262144, 0, false⟩ ∧
    four_devices.is_open 0 ∧
    (262144 * 4 + 0 : Int) = 1048576 ∧
    (1048576 : Int) * 4096 = 4294967296 ∧
    physical_location_to_offset ⟨0, 262144, 0, false⟩ = 0 ∧
    read_operation healthy_env four_devices 3145728 = .ok
      { g_num_dev := 4, g_dev_status := [3, 4, 5, 6], g_last_bad_device := 0, clock := 6,
        trace := [.sys_lseek 3 0 0, .sys_transfer .Read 3 4096,
          .print_operated 0 1048576] } ∧
    read_operation healthy_env four_devices 0 = .ok
      { g_num_dev := 4, g_dev_status := [3, 4, 5, 6], g_last_bad_device := 0, clock := 6,
        trace := [.sys_lseek 3 0 0, .sys_transfer .Read 3 4096, .print_operated 0 0] } :=
  ⟨by decide, ⟨by decide, by decide, by decide⟩, by decide, by decide, by decide, rfl, rfl⟩

end Raid5

namespace Gol

/-! ## The row length of the matrix file -/

/-- C30 (code_bug): `get_row_size` is documented to assume a size that is a power of 4 and
returns `2^k` for `4^k` with `1 ≤ k ≤ 15`, but for `4^0 = 1` the loop, which starts at
`bit_count = 2`, finds no match and `assert(0)` is reached. -/
theorem get_row_size_one_reaches_assert :
    get_row_size (4 ^ 0) = .error .assertion_failed ∧
    ∀ k : Fin 15, get_row_size (4 ^ (k.val + 1)) = .ok (2 ^ (k.val + 1)) := by
  refine ⟨rfl, ?_⟩
  intro k
  fin_cases k <;> rfl

/-! ## One generation of `gol.c` -/

theorem cell_in_grid_le (m : Matrix) (n : Int) (hb : binary m n) (a b : Int) :
    cell_in_grid m n a b ≤ 1 := by
  unfold cell_in_grid
  split
  · rename_i h
    rcases hb a b h.1 h.2.1 h.2.2.1 h.2.2.2 with h0 | h1
    · rw [h0]; decide
    · rw [h1]; decide
  · exact Nat.zero_le 1

theorem cell_in_grid_alive (m : Matrix) (n : Int) (hb : binary m n) (a b : Int) :
    cell_in_grid m n a b
      = if decide (0 ≤ a ∧ a < n ∧ 0 ≤ b ∧ b < n ∧ m a b = ALIVE) = true then 1 else 0 := by
  unfold cell_in_grid
  by_cases h : a ≥ 0 ∧ a < n ∧ b ≥ 0 ∧ b < n
  · rw [if_pos h]
    rcases hb a b h.1 h.2.1 h.2.2.1 h.2.2.2 with h0 | h1
    · have : ¬ (0 ≤ a ∧ a < n ∧ 0 ≤ b ∧ b < n ∧ m a b = ALIVE) := by
        intro hc
        rw [h0] at hc
        exact absurd hc.2.2.2.2 (by decide)
      rw [if_neg (by simpa using this), h0]; rfl
    · have : 0 ≤ a ∧ a < n ∧ 0 ≤ b ∧ b < n ∧ m a b = ALIVE :=
        ⟨h.1, h.2.1, h.2.2.1, h.2.2.2, h1⟩
      rw [if_pos (by simpa using this), h1]; rfl
  · rw [if_neg h]
    have : ¬ (0 ≤ a ∧ a < n ∧ 0 ≤ b ∧ b < n ∧ m a b = ALIVE) :=
      fun hc => h ⟨hc.1, hc.2.1, hc.2.2.1, hc.2.2.2.1⟩
    rw [if_neg (by simpa using this)]

theorem count_neighbour_skip (m : Matrix) (n i j : Int) (acc : Nat) :
    count_neighbour m n i j acc 0 0 = acc := by
  unfold count_neighbour
  rw [if_pos ⟨rfl, rfl⟩]

theorem count_neighbour_add (m : Matrix) (n : Int) (hb : binary m n) (i j : Int) (acc : Nat)
    (i_offset j_offset : Int) (hacc : acc ≤ 7) (hne : ¬ (0 = i_offset ∧ 0 = j_offset)) :
    count_neighbour m n i j acc i_offset j_offset
      = acc + cell_in_grid m n (i + i_offset) (j + j_offset) := by
  have hle := cell_in_grid_le m n hb (i + i_offset) (j + j_offset)
  unfold count_neighbour
  rw [if_neg hne]
  unfold cell_in_grid at hle ⊢
  simp only []
  by_cases h : i + i_offset ≥ 0 ∧ i + i_offset < n ∧ j + j_offset ≥ 0 ∧ j + j_offset < n
  · rw [if_pos h] at hle
    rw [if_pos h, if_pos h]
    omega
  · rw [if_neg h, if_neg h]
    rfl

/-- The loops of `update_cell` add up the eight adjacent cells that lie in the grid. -/
theorem living_neighbours_sum (m : Matrix) (n : Int) (hb : binary m n) (i j : Int) :
    living_neighbours m n i j
      = cell_in_grid m n (i + -1) (j + -1) + cell_in_grid m n (i + -1) (j + 0)
        + cell_in_grid m n (i + -1) (j + 1) + cell_in_grid m n (i + 0) (j + -1)
        + cell_in_grid m n (i + 0) (j + 1) + cell_in_grid m n (i + 1) (j + -1)
        + cell_in_grid m n (i + 1) (j + 0) + cell_in_grid m n (i + 1) (j + 1) := by
  have hle := cell_in_grid_le m n hb
  have h1 := hle (i + -1) (j + -1)
  have h2 := hle (i + -1) (j + 0)
  have h3 := hle (i + -1) (j + 1)
  have h4 := hle (i + 0) (j + -1)
  have h5 := hle (i + 0) (j + 1)
  have h6 := hle (i + 1) (j + -1)
  have h7 := hle (i + 1) (j + 0)
  unfold living_neighbours
  simp only [List.foldl]
  rw [count_neighbour_add m n hb i j 0 (-1) (-1) (by omega) (by decide)]
  rw [count_neighbour_add m n hb i j _ (-1) 0 (by omega) (by decide)]
  rw [count_neighbour_add m n hb i j _ (-1) 1 (by omega) (by decide)]
  rw [count_neighbour_add m n hb i j _ 0 (-1) (by omega) (by decide)]
  rw [count_neighbour_skip]
  rw [count_neighbour_add m n hb i j _ 0 1 (by omega) (by decide)]
  rw [count_neighbour_add m n hb i j _ 1 (-1) (by omega) (by decide)]
  rw [count_neighbour_add m n hb i j _ 1 0 (by omega) (by decide)]
  rw [count_neighbour_add m n hb i j _ 1 1 (by omega) (by decide)]
  omega

/-- On a grid of dead and alive cells the loops of `update_cell` count the live
neighbours. -/
theorem living_neighbours_eq (m : Matrix) (n : Int) (hb : binary m n) (i j : Int) :
    living_neighbours m n i j = live_neighbours m n i j := by
  rw [living_neighbours_sum m n hb]
  simp only [cell_in_grid_alive m n hb]
  unfold live_neighbours adjacent
  simp only [List.countP_cons, List.countP_nil]
  have e1 : i + -1 = i - 1 := rfl
  have e2 : j + -1 = j - 1 := rfl
  rw [e1, e2]
  simp only [add_zero, zero_add]
  ac_rfl

theorem living_neighbours_le (m : Matrix) (n : Int) (hb : binary m n) (i j : Int) :
    living_neighbours m n i j ≤ 8 := by
  have hle := cell_in_grid_le m n hb
  have h1 := hle (i + -1) (j + -1)
  have h2 := hle (i + -1) (j + 0)
  have h3 := hle (i + -1) (j + 1)
  have h4 := hle (i + 0) (j + -1)
  have h5 := hle (i + 0) (j + 1)
  have h6 := hle (i + 1) (j + -1)
  have h7 := hle (i + 1) (j + 0)
  have h8 := hle (i + 1) (j + 1)
  rw [living_neighbours_sum m n hb]
  omega

theorem next_cell_binary (m : Matrix) (n i j : Int) :
    next_cell m n i j = DEAD ∨ next_cell m n i j = ALIVE := by
  unfold next_cell
  simp only []
  split <;> split
  · exact Or.inl rfl
  · exact Or.inr rfl
  · exact Or.inr rfl
  · exact Or.inl rfl

theorem next_cell_alive (m : Matrix) (n i j : Int)
    (hcell : m i j = DEAD ∨ m i j = ALIVE) :
    next_cell m n i j = ALIVE ↔
      (m i j = ALIVE ∧ (living_neighbours m n i j = 2 ∨ living_neighbours m n i j = 3)) ∨
      (m i j = DEAD ∧ living_neighbours m n i j = 3) := by
  unfold next_cell
  simp only [MINIMUM_SURROUNDING_CELLS, MAX_SURROUNDING_CELLS, MAKE_ALIVE_THRESHOLD, DEAD,
    ALIVE] at hcell ⊢
  rcases hcell with h0 | h1
  · rw [h0]
    simp only [ne_eq, not_true_eq_false, if_false]
    by_cases h3 : living_neighbours m n i j = 3
    · rw [if_pos h3]; simp [h3]
    · rw [if_neg h3]; simp [h3]
  · rw [h1]
    simp only [ne_eq, one_ne_zero, not_false_eq_true, if_true]
    by_cases hr : living_neighbours m n i j < 2 ∨ living_neighbours m n i j > 3
    · rw [if_pos hr]
      have : ¬ (living_neighbours m n i j = 2 ∨ living_neighbours m n i j = 3) := by omega
      simp [this]
    · rw [if_neg hr]
      have : living_neighbours m n i j = 2 ∨ living_neighbours m n i j = 3 := by omega
      simp [this]

theorem update_matrix_row_effect (i : Int) (remaining : Nat) (j : Int) (st : State) :
    (update_matrix_row i remaining j st).g_matrix = st.g_matrix ∧
    (update_matrix_row i remaining j st).g_matrix_size = st.g_matrix_size ∧
    ∀ a b, (update_matrix_row i remaining j st).g_workspace_matrix a b
      = if a = i ∧ j ≤ b ∧ b < j + remaining then next_cell st.g_matrix st.g_matrix_size i b
        else st.g_workspace_matrix a b := by
  induction remaining generalizing j st with
  | zero =>
    refine ⟨rfl, rfl, ?_⟩
    intro a b
    rw [if_neg (by simp only [Nat.cast_zero]; omega)]
    rfl
  | succ r ih =>
    obtain ⟨h1, h2, h3⟩ := ih (j + 1) (update_cell st i j)
    refine ⟨h1, h2, ?_⟩
    intro a b
    show (update_matrix_row i r (j + 1) (update_cell st i j)).g_workspace_matrix a b = _
    rw [h3 a b]
    show (if a = i ∧ j + 1 ≤ b ∧ b < j + 1 + r then next_cell st.g_matrix st.g_matrix_size i b
      else if a = i ∧ b = j then next_cell st.g_matrix st.g_matrix_size i j
      else st.g_workspace_matrix a b) = _
    by_cases hc : a = i ∧ j + 1 ≤ b ∧ b < j + 1 + r
    · rw [if_pos hc, if_pos (by push_cast; omega)]
    · rw [if_neg hc]
      by_cases hd : a = i ∧ b = j
      · rw [if_pos hd, if_pos (by push_cast; omega), hd.2]
      · rw [if_neg hd, if_neg (by push_cast; omega)]

theorem update_matrix_rows_effect (remaining : Nat) (i : Int) (st : State) :
    (update_matrix_rows remaining i st).g_matrix = st.g_matrix ∧
    (update_matrix_rows remaining i st).g_matrix_size = st.g_matrix_size ∧
    ∀ a b, (update_matrix_rows remaining i st).g_workspace_matrix a b
      = if i ≤ a ∧ a < i + remaining ∧ 0 ≤ b ∧ b < st.g_matrix_size
        then next_cell st.g_matrix st.g_matrix_size a b
        else st.g_workspace_matrix a b := by
  induction remaining generalizing i st with
  | zero =>
    refine ⟨rfl, rfl, ?_⟩
    intro a b
    rw [if_neg (by simp only [Nat.cast_zero]; omega)]
    rfl
  | succ r ih =>
    obtain ⟨r1, r2, r3⟩ := update_matrix_row_effect i st.g_matrix_size.toNat 0 st
    obtain ⟨h1, h2, h3⟩ := ih (i + 1) (update_matrix_row i st.g_matrix_size.toNat 0 st)
    refine ⟨h1.trans r1, h2.trans r2, ?_⟩
    intro a b
    show (update_matrix_rows r (i + 1)
      (update_matrix_row i st.g_matrix_size.toNat 0 st)).g_workspace_matrix a b = _
    rw [h3 a b, r1, r2, r3 a b]
    by_cases hc : i + 1 ≤ a ∧ a < i + 1 + r ∧ 0 ≤ b ∧ b < st.g_matrix_size
    · rw [if_pos hc, if_pos (by push_cast; omega)]
    · rw [if_neg hc]
      by_cases hd : a = i ∧ 0 ≤ b ∧ b < 0 + (st.g_matrix_size.toNat : Int)
      · rw [if_pos hd, if_pos (by push_cast; omega), hd.1]
      · rw [if_neg hd, if_neg (by push_cast; omega)]

/-- One generation of `gol.c`: every cell of the grid becomes `next_cell` of the old
matrix, and the old matrix becomes the workspace. -/
theorem update_matrix_effect (st : State) :
    (update_matrix st).g_matrix_size = st.g_matrix_size ∧
    (update_matrix st).g_workspace_matrix = st.g_matrix ∧
    ∀ a b, (update_matrix st).g_matrix a b
      = if 0 ≤ a ∧ a < st.g_matrix_size ∧ 0 ≤ b ∧ b < st.g_matrix_size
        then next_cell st.g_matrix st.g_matrix_size a b
        else st.g_workspace_matrix a b := by
  obtain ⟨h1, h2, h3⟩ := update_matrix_rows_effect st.g_matrix_size.toNat 0 st
  refine ⟨h2, h1, ?_⟩
  intro a b
  show (update_matrix_rows st.g_matrix_size.toNat 0 st).g_workspace_matrix a b = _
  rw [h3 a b]
  by_cases hc : 0 ≤ a ∧ a < st.g_matrix_size ∧ 0 ≤ b ∧ b < st.g_matrix_size
  · rw [if_pos hc, if_pos (by omega)]
  · rw [if_neg hc, if_neg (by omega)]

theorem blinker_binary : binary blinker.g_matrix blinker.g_matrix_size := by
  intro i j hi0 hi1 hj0 hj1
  have hi : i < 4 := hi1
  have hj : j < 4 := hj1
  interval_cases i <;> interval_cases j <;> decide

/-- C28: on an `n × n` matrix of dead and alive cells, one generation of `gol.c`
(`update_cell` over all cells, then the swap) makes cell `(i, j)` alive exactly when it was
alive with 2 or 3 live neighbours or dead with exactly 3, the neighbours being the adjacent
cells inside the grid of the old matrix; every new cell is 0 or 1, and the old matrix is
kept as the workspace. -/
theorem generation_rule (st : State) (hb : binary st.g_matrix st.g_matrix_size) (i j : Int)
    (hi0 : 0 ≤ i) (hi1 : i < st.g_matrix_size) (hj0 : 0 ≤ j) (hj1 : j < st.g_matrix_size) :
    ((update_matrix st).g_matrix i j = ALIVE ↔
      (st.g_matrix i j = ALIVE ∧
        (live_neighbours st.g_matrix st.g_matrix_size i j = 2 ∨
         live_neighbours st.g_matrix st.g_matrix_size i j = 3)) ∨
      (st.g_matrix i j = DEAD ∧ live_neighbours st.g_matrix st.g_matrix_size i j = 3)) ∧
    ((update_matrix st).g_matrix i j = 0 ∨ (update_matrix st).g_matrix i j = 1) ∧
    (update_matrix st).g_workspace_matrix = st.g_matrix ∧
    (update_matrix st).g_matrix_size = st.g_matrix_size := by
  obtain ⟨h1, h2, h3⟩ := update_matrix_effect st
  have hcell := h3 i j
  rw [if_pos ⟨hi0, hi1, hj0, hj1⟩] at hcell
  refine ⟨?_, ?_, h2, h1⟩
  · rw [hcell, next_cell_alive _ _ _ _ (hb i j hi0 hi1 hj0 hj1),
      living_neighbours_eq _ _ hb]
  · rw [hcell]
    exact next_cell_binary _ _ _ _

theorem generation_rule_witness :
    binary blinker.g_matrix blinker.g_matrix_size ∧
    (0 : Int) ≤ 1 ∧ (1 : Int) < blinker.g_matrix_size ∧
    (0 : Int) ≤ 0 ∧ (0 : Int) < blinker.g_matrix_size ∧
    (((update_matrix blinker).g_matrix 1 0 = ALIVE ↔
      (blinker.g_matrix 1 0 = ALIVE ∧
        (live_neighbours blinker.g_matrix blinker.g_matrix_size 1 0 = 2 ∨
         live_neighbours blinker.g_matrix blinker.g_matrix_size 1 0 = 3)) ∨
      (blinker.g_matrix 1 0 = DEAD ∧
        live_neighbours blinker.g_matrix blinker.g_matrix_size 1 0 = 3)) ∧
    ((update_matrix blinker).g_matrix 1 0 = 0 ∨ (update_matrix blinker).g_matrix 1 0 = 1) ∧
    (update_matrix blinker).g_workspace_matrix = blinker.g_matrix ∧
    (update_matrix blinker).g_matrix_size = blinker.g_matrix_size) :=
  ⟨blinker_binary, by decide, by decide, by decide, by decide,
    generation_rule blinker blinker_binary 1 0 (by decide) (by decide) (by decide)
      (by decide)⟩

end Gol

namespace Gol2

/-! ## One generation of `gol2.c` -/

theorem square_pow2_pos (t : Task) (h : square_pow2 t) : 1 ≤ t.dx ∧ t.dy = t.dx := by
  obtain ⟨e, h1, h2⟩ := h
  have hpos : (0 : Int) < 2 ^ e := by positivity
  exact ⟨by omega, by omega⟩

theorem square_pow2_area (t : Task) (h : square_pow2 t) : 1 ≤ t.dx * t.dy := by
  obtain ⟨h1, h2⟩ := square_pow2_pos t h
  rw [h2]
  nlinarith

theorem square_pow2_split (t : Task) (h : square_pow2 t) (hleaf : ¬ (t.dx = 1 ∧ t.dy = 1)) :
    ∃ d : Int, 1 ≤ d ∧ t.dx = 2 * d ∧ t.dy = 2 * d ∧ Int.tdiv t.dx 2 = d ∧
      Int.tdiv t.dy 2 = d ∧ ∃ e : Nat, d = 2 ^ e := by
  obtain ⟨e, h1, h2⟩ := h
  cases e with
  | zero => exact absurd ⟨by simpa using h1, by simpa using h2⟩ hleaf
  | succ e =>
    have hpos : (0 : Int) < 2 ^ e := by positivity
    have hd : (2 : Int) ^ (e + 1) = 2 * 2 ^ e := by ring
    refine ⟨2 ^ e, by omega, by rw [h1, hd], by rw [h2, hd], ?_, ?_, e, rfl⟩
    · rw [h1, hd, Int.tdiv_eq_ediv (by omega) (by decide)]
      omega
    · rw [h2, hd, Int.tdiv_eq_ediv (by omega) (by decide)]
      omega

theorem pending_area_nonneg (l : List Task) (h : ∀ t ∈ l, square_pow2 t) :
    0 ≤ pending_area l := by
  induction l with
  | nil => exact le_refl _
  | cons t l ih =>
    have h1 := square_pow2_area t (h t (List.mem_cons_self _ _))
    have h2 := ih (fun u hu => h u (List.mem_cons_of_mem _ hu))
    unfold pending_area at h2 ⊢
    simp only [List.map_cons, List.sum_cons]
    omega

theorem pending_work_nonneg (l : List Task) (h : ∀ t ∈ l, square_pow2 t) :
    0 ≤ pending_work l ∧ (l ≠ [] → 3 ≤ pending_work l) := by
  induction l with
  | nil => exact ⟨le_refl _, fun hne => absurd rfl hne⟩
  | cons t l ih =>
    have h1 := square_pow2_area t (h t (List.mem_cons_self _ _))
    have h2 := (ih (fun u hu => h u (List.mem_cons_of_mem _ hu))).1
    unfold pending_work at h2 ⊢
    simp only [List.map_cons, List.sum_cons]
    exact ⟨by omega, fun _ => by omega⟩

theorem pending_area_zero (l : List Task) (h : ∀ t ∈ l, square_pow2 t)
    (h0 : pending_area l ≤ 0) : l = [] := by
  cases l with
  | nil => rfl
  | cons t l =>
    have h1 := square_pow2_area t (h t (List.mem_cons_self _ _))
    have h2 := pending_area_nonneg l (fun u hu => h u (List.mem_cons_of_mem _ hu))
    unfold pending_area at h0 h2
    simp only [List.map_cons, List.sum_cons] at h0
    omega

/-- The four sub-tasks of a task cover each of its cells once and no other cell. -/
theorem children_cover (x y d : Int) (c : Int × Int) :
    [create_task x y d d, create_task (x + d) y d d, create_task x (y + d) d d,
      create_task (x + d) (y + d) d d].countP (fun t => covers t c)
      = if covers (create_task x y (2 * d) (2 * d)) c = true then 1 else 0 := by
  simp only [List.countP_cons, List.countP_nil, covers, create_task, decide_eq_true_eq]
  split_ifs <;> omega

theorem process_task_leaf (st : State) (task : Task) (h : task.dx = 1 ∧ task.dy = 1) :
    process_task st task =
      { g_matrix := st.g_matrix
        g_workspace_matrix := fun a b =>
          if a = task.x ∧ b = task.y
          then Gol.next_cell st.g_matrix st.g_matrix_size task.x task.y
          else st.g_workspace_matrix a b
        g_matrix_size := st.g_matrix_size
        g_matrix_size_square := st.g_matrix_size_square
        g_cellsUpdated := st.g_cellsUpdated + 1
        pending := st.pending
        finished_signals := st.finished_signals
          + (if st.g_cellsUpdated + 1 = st.g_matrix_size_square then 1 else 0)
        cells_updated := st.cells_updated ++ [(task.x, task.y)]
        main_thread :=
          if st.g_cellsUpdated + 1 = st.g_matrix_size_square then
            (if st.main_thread = .waiting then .woken else st.main_thread)
          else st.main_thread } := by
  unfold process_task
  rw [if_pos h]
  simp only [update_cell, signal_finished]
  split <;> rfl

theorem process_task_split (st : State) (task : Task) (h : ¬ (task.dx = 1 ∧ task.dy = 1)) :
    process_task st task =
      { st with
        pending := st.pending ++
          [create_task task.x task.y (Int.tdiv task.dx 2) (Int.tdiv task.dy 2),
           create_task (task.x + Int.tdiv task.dx 2) task.y (Int.tdiv task.dx 2)
             (Int.tdiv task.dy 2),
           create_task task.x (task.y + Int.tdiv task.dy 2) (Int.tdiv task.dx 2)
             (Int.tdiv task.dy 2),
           create_task (task.x + Int.tdiv task.dx 2) (task.y + Int.tdiv task.dy 2)
             (Int.tdiv task.dx 2) (Int.tdiv task.dy 2)] } := by
  unfold process_task
  rw [if_neg h]
  rfl

/-- Processing a task taken from the pending ones keeps `generation_inv` and takes three
units off the remaining work. -/
theorem process_task_inv (m : Gol.Matrix) (n : Int) (base : Nat) (st : State) (task : Task)
    (hm : st.g_matrix = m) (hsz : st.g_matrix_size = n)
    (hsq : st.g_matrix_size_square = n * n)
    (hsquares : ∀ t ∈ st.pending, square_pow2 t) (htask : square_pow2 task)
    (harea : st.g_cellsUpdated + (task.dx * task.dy + pending_area st.pending) = n * n)
    (hcount : st.g_cellsUpdated = st.cells_updated.length)
    (hcover : ∀ c, st.cells_updated.count c
      + ((if covers task c = true then 1 else 0)
        + st.pending.countP (fun t => covers t c)) = if in_grid n c then 1 else 0)
    (hcells : ∀ c ∈ st.cells_updated,
      st.g_workspace_matrix c.1 c.2 = Gol.next_cell m n c.1 c.2)
    (hsignals : st.finished_signals = base + if st.g_cellsUpdated = n * n then 1 else 0) :
    generation_inv m n base (process_task st task) ∧
    pending_work (process_task st task).pending
      = pending_work st.pending + (4 * (task.dx * task.dy) - 1) - 3 := by
  have hrest := pending_area_nonneg st.pending hsquares
  by_cases hleaf : task.dx = 1 ∧ task.dy = 1
  · rw [process_task_leaf st task hleaf]
    have harea1 : st.g_cellsUpdated + (1 + pending_area st.pending) = n * n := by
      have := harea
      rw [hleaf.1, hleaf.2] at this
      simpa using this
    refine ⟨⟨hm, hsz, hsq, hsquares, ?_, ?_, ?_, ?_, ?_⟩, ?_⟩
    · show st.g_cellsUpdated + 1 + pending_area st.pending = n * n
      omega
    · show st.g_cellsUpdated + 1 = ((st.cells_updated ++ [(task.x, task.y)]).length : Int)
      rw [List.length_append, hcount]
      simp
    · intro c
      show (st.cells_updated ++ [(task.x, task.y)]).count c
        + st.pending.countP (fun t => covers t c) = _
      rw [← hcover c, List.count_append]
      have hone : List.count c [(task.x, task.y)]
          = if covers task c = true then 1 else 0 := by
        rw [List.count_singleton]
        unfold covers
        rw [hleaf.1, hleaf.2]
        by_cases hc : c = (task.x, task.y)
        · rw [hc]
          simp
        · have hne : ¬ ((task.x, task.y) == c) = true := by
            simp only [beq_iff_eq]
            exact fun h => hc h.symm
          rw [if_neg hne]
          have : ¬ (task.x ≤ c.1 ∧ c.1 < task.x + 1 ∧ task.y ≤ c.2 ∧ c.2 < task.y + 1) := by
            intro h
            apply hc
            apply Prod.ext
            · show c.1 = task.x
              omega
            · show c.2 = task.y
              omega
          rw [if_neg (by simpa using this)]
      rw [hone]
      omega
    · intro c hc
      show (if c.1 = task.x ∧ c.2 = task.y
        then Gol.next_cell st.g_matrix st.g_matrix_size task.x task.y
        else st.g_workspace_matrix c.1 c.2) = Gol.next_cell m n c.1 c.2
      by_cases hxy : c.1 = task.x ∧ c.2 = task.y
      · rw [if_pos hxy, hm, hsz, hxy.1, hxy.2]
      · rw [if_neg hxy]
        rcases List.mem_append.1 hc with h1 | h1
        · exact hcells c h1
        · rw [List.mem_singleton] at h1
          rw [h1] at hxy
          exact absurd ⟨rfl, rfl⟩ hxy
    · show st.finished_signals
        + (if st.g_cellsUpdated + 1 = st.g_matrix_size_square then 1 else 0)
        = base + if st.g_cellsUpdated + 1 = n * n then 1 else 0
      rw [hsignals, hsq, if_neg (by omega)]
      rfl
    · show pending_work st.pending = _
      rw [hleaf.1, hleaf.2]
      omega
  · rw [process_task_split st task hleaf]
    obtain ⟨d, hd, hdx, hdy, htx, hty, e, he⟩ := square_pow2_split task htask hleaf
    rw [htx, hty]
    have hchild : ∀ a b : Int, square_pow2 (create_task a b d d) :=
      fun a b => ⟨e, he, he⟩
    refine ⟨⟨hm, hsz, hsq, ?_, ?_, hcount, ?_, hcells, hsignals⟩, ?_⟩
    · intro t ht
      rcases List.mem_append.1 ht with h1 | h1
      · exact hsquares t h1
      · simp only [List.mem_cons, List.mem_singleton, List.not_mem_nil, or_false] at h1
        rcases h1 with h1 | h1 | h1 | h1 <;> rw [h1] <;> exact hchild _ _
    · show st.g_cellsUpdated + pending_area (st.pending ++ _) = n * n
      rw [← harea, hdx, hdy]
      unfold pending_area
      simp only [List.map_append, List.sum_append, List.map_cons, List.map_nil, List.sum_cons,
        List.sum_nil, create_task]
      ring
    · intro c
      show st.cells_updated.count c + (st.pending ++ _).countP (fun t => covers t c) = _
      rw [← hcover c, List.countP_append, children_cover task.x task.y d c]
      have hsame : covers (create_task task.x task.y (2 * d) (2 * d)) c = covers task c := by
        unfold covers create_task
        rw [hdx, hdy]
      rw [hsame]
      omega
    · show pending_work (st.pending ++ _) = _
      rw [hdx, hdy]
      unfold pending_work
      simp only [List.map_append, List.sum_append, List.map_cons, List.map_nil, List.sum_cons,
        List.sum_nil, create_task]
      ring

theorem pending_split (l : List Task) (k : Nat) (hk : k < l.length) :
    l[k]? = some (l.get ⟨k, hk⟩) ∧ l = l.take k ++ l.get ⟨k, hk⟩ :: l.drop (k + 1) := by
  refine ⟨List.getElem?_eq_getElem hk, ?_⟩
  have h1 : l.drop k = l.get ⟨k, hk⟩ :: l.drop (k + 1) := List.drop_eq_getElem_cons hk
  rw [← h1, List.take_append_drop]

/-- A step of the workers keeps `generation_inv`; with nothing pending it changes nothing,
otherwise it takes three units off the remaining work. -/
theorem worker_step_inv (m : Gol.Matrix) (n : Int) (base : Nat) (k0 : Nat) (st : State)
    (h : generation_inv m n base st) :
    generation_inv m n base (worker_step k0 st) ∧
    (st.pending = [] → worker_step k0 st = st) ∧
    (st.pending ≠ [] →
      pending_work (worker_step k0 st).pending = pending_work st.pending - 3) := by
  by_cases hp : st.pending = []
  · have hstep : worker_step k0 st = st := by
      unfold worker_step
      rw [hp]
      rfl
    rw [hstep]
    exact ⟨h, fun _ => rfl, fun hne => absurd hp hne⟩
  · have hlen : 0 < st.pending.length := List.length_pos.2 hp
    have hk : k0 % st.pending.length < st.pending.length := Nat.mod_lt _ hlen
    obtain ⟨hget, hsplit⟩ := pending_split st.pending _ hk
    generalize hkdef : k0 % st.pending.length = k at hk hget hsplit
    generalize htk : st.pending.get ⟨k, hk⟩ = task at hget hsplit
    have hstep : worker_step k0 st
        = process_task { st with pending := st.pending.take k ++ st.pending.drop (k + 1) }
            task := by
      unfold worker_step
      rw [hkdef, hget]
    have hmem : ∀ u, u ∈ st.pending.take k ++ st.pending.drop (k + 1) → u ∈ st.pending := by
      intro u hu
      rw [hsplit]
      rcases List.mem_append.1 hu with h1 | h1
      · exact List.mem_append_left _ h1
      · exact List.mem_append_right _ (List.mem_cons_of_mem _ h1)
    have htmem : task ∈ st.pending := by
      rw [hsplit]
      exact List.mem_append_right _ (List.mem_cons_self _ _)
    have harea : pending_area st.pending
        = task.dx * task.dy
          + pending_area (st.pending.take k ++ st.pending.drop (k + 1)) := by
      conv_lhs => rw [hsplit]
      unfold pending_area
      simp only [List.map_append, List.sum_append, List.map_cons, List.sum_cons]
      ring
    have hwork : pending_work st.pending
        = (4 * (task.dx * task.dy) - 1)
          + pending_work (st.pending.take k ++ st.pending.drop (k + 1)) := by
      conv_lhs => rw [hsplit]
      unfold pending_work
      simp only [List.map_append, List.sum_append, List.map_cons, List.sum_cons]
      ring
    have hcov : ∀ c, st.pending.countP (fun u => covers u c)
        = (if covers task c = true then 1 else 0)
          + (st.pending.take k ++ st.pending.drop (k + 1)).countP (fun u => covers u c) := by
      intro c
      conv_lhs => rw [hsplit]
      simp only [List.countP_append, List.countP_cons, List.countP_nil]
      omega
    have hres := process_task_inv m n base
      { st with pending := st.pending.take k ++ st.pending.drop (k + 1) } task
      h.matrix h.size h.square (fun u hu => h.squares u (hmem u hu)) (h.squares task htmem)
      (by
        show st.g_cellsUpdated + (task.dx * task.dy
          + pending_area (st.pending.take k ++ st.pending.drop (k + 1))) = n * n
        rw [← harea]
        exact h.area)
      h.count
      (by
        intro c
        show st.cells_updated.count c + ((if covers task c = true then 1 else 0)
          + (st.pending.take k ++ st.pending.drop (k + 1)).countP (fun u => covers u c)) = _
        rw [← hcov c]
        exact h.cover c)
      h.cells h.signals
    rw [hstep]
    refine ⟨hres.1, fun he => absurd he hp, fun _ => ?_⟩
    rw [hres.2, hwork]
    show pending_work (st.pending.take k ++ st.pending.drop (k + 1))
      + (4 * (task.dx * task.dy) - 1) - 3 = _
    omega

/-- A step of a worker leaves a main thread that has not yet called
`pthread_cond_wait` where it is: a signal sent then wakes nobody. -/
theorem worker_step_before_wait (k0 : Nat) (st : State)
    (h : st.main_thread = .before_wait) :
    (worker_step k0 st).main_thread = .before_wait := by
  unfold worker_step
  split
  · exact h
  · rename_i task _
    by_cases hleaf : task.dx = 1 ∧ task.dy = 1
    · rw [process_task_leaf _ task hleaf]
      show (if _ then (if st.main_thread = MainThread.waiting then MainThread.woken
        else st.main_thread) else st.main_thread) = MainThread.before_wait
      rw [h]
      split <;> rfl
    · rw [process_task_split _ task hleaf]
      exact h

theorem step_worker (k0 : Nat) (st : State) (h : st.main_thread = .before_wait) :
    step (.worker k0) st = worker_step k0 st := by
  unfold step
  rw [if_neg (by rw [h]; decide)]

theorem run_workers_inv (m : Gol.Matrix) (n : Int) (base : Nat) (schedule : Nat → Nat)
    (fuel t : Nat) (st : State) (h : generation_inv m n base st)
    (hmain : st.main_thread = .before_wait) :
    generation_inv m n base
      (run_steps (fun u => Action.worker (schedule u)) fuel t st) ∧
    (run_steps (fun u => Action.worker (schedule u)) fuel t st).main_thread
      = .before_wait ∧
    (pending_work st.pending ≤ 3 * fuel →
      (run_steps (fun u => Action.worker (schedule u)) fuel t st).pending = []) := by
  induction fuel generalizing t st with
  | zero =>
    refine ⟨h, hmain, fun hw => ?_⟩
    show st.pending = []
    by_contra hne
    have := (pending_work_nonneg st.pending h.squares).2 hne
    simp only [Nat.cast_zero] at hw
    omega
  | succ f ih =>
    obtain ⟨hinv, hidle, hbusy⟩ := worker_step_inv m n base (schedule t) st h
    have hmain2 := worker_step_before_wait (schedule t) st hmain
    have hrun : run_steps (fun u => Action.worker (schedule u)) (f + 1) t st
        = run_steps (fun u => Action.worker (schedule u)) f (t + 1)
            (worker_step (schedule t) st) := by
      show run_steps _ f (t + 1) (step (Action.worker (schedule t)) st) = _
      rw [step_worker _ _ hmain]
    rw [hrun]
    obtain ⟨h1, h2, h3⟩ := ih (t + 1) (worker_step (schedule t) st) hinv hmain2
    refine ⟨h1, h2, fun hw => ?_⟩
    apply h3
    by_cases hp : st.pending = []
    · rw [hidle hp, hp]
      show (0 : Int) ≤ 3 * f
      omega
    · rw [hbusy hp]
      push_cast at hw
      omega

/-- The state in which the workers start a generation satisfies `generation_inv`. -/
theorem generation_start_inv (st : State) (k : Nat)
    (hn : st.g_matrix_size = 2 ^ k)
    (hsq : st.g_matrix_size_square = st.g_matrix_size * st.g_matrix_size)
    (hpending : st.pending = []) (hcells : st.cells_updated = []) :
    generation_inv st.g_matrix st.g_matrix_size st.finished_signals (generation_start st) ∧
    pending_work (generation_start st).pending
      = 4 * (st.g_matrix_size * st.g_matrix_size) - 1 := by
  have hpos : (0 : Int) < 2 ^ k := by positivity
  have hstart : generation_start st
      = { st with
          g_cellsUpdated := 0
          main_thread := .before_wait
          pending := [create_task 0 0 st.g_matrix_size st.g_matrix_size] } := by
    unfold generation_start enque_task
    simp only [hpending, List.nil_append]
  rw [hstart]
  refine ⟨⟨rfl, rfl, hsq, ?_, ?_, ?_, ?_, ?_, ?_⟩, ?_⟩
  · intro t ht
    rw [List.mem_singleton] at ht
    rw [ht]
    exact ⟨k, hn, hn⟩
  · show (0 : Int) + pending_area [create_task 0 0 st.g_matrix_size st.g_matrix_size] = _
    unfold pending_area create_task
    simp
  · show (0 : Int) = (st.cells_updated.length : Int)
    rw [hcells]
    rfl
  · intro c
    show st.cells_updated.count c
      + [create_task 0 0 st.g_matrix_size st.g_matrix_size].countP (fun t => covers t c) = _
    rw [hcells]
    simp only [List.count_nil, List.countP_cons, List.countP_nil, covers, create_task,
      in_grid, zero_add, decide_eq_true_eq]
  · intro c hc
    have hc2 : c ∈ st.cells_updated := hc
    rw [hcells] at hc2
    exact absurd hc2 (List.not_mem_nil c)
  · show st.finished_signals
      = st.finished_signals + if (0 : Int) = st.g_matrix_size * st.g_matrix_size then 1 else 0
    have : (0 : Int) < st.g_matrix_size * st.g_matrix_size := by
      rw [hn]
      positivity
    rw [if_neg (by omega)]
    rfl
  · show pending_work [create_task 0 0 st.g_matrix_size st.g_matrix_size] = _
    unfold pending_work create_task
    simp

/-- The work of the workers on a matrix of size `n = 2^k`, whatever the order in which
they take the pending tasks: splitting the initial task `(0, 0, n, n)` as `process_task`
does ends with nothing pending after at most `2 * n * n` steps, `update_cell` having been
called once on every cell of the grid and on no other cell; `g_cellsUpdated` ends at
`n * n`, the test against `g_matrix_size_square` succeeds once (never twice, and only when
nothing is pending), and the workspace then holds on the grid the generation that the
double loop of `gol.c` computes.  When all this happens before the main thread calls
`pthread_cond_wait`, the signal has woken nobody. -/
theorem workers_cover_grid (schedule : Nat → Nat) (st : State) (k : Nat)
    (hn : st.g_matrix_size = 2 ^ k)
    (hsq : st.g_matrix_size_square = st.g_matrix_size * st.g_matrix_size)
    (hpending : st.pending = []) (hcells : st.cells_updated = [])
    (fuel : Nat) (hfuel : 2 * 4 ^ k ≤ fuel) :
    (generation_run schedule fuel st).pending = [] ∧
    (∀ c, (generation_run schedule fuel st).cells_updated.count c
      = if in_grid st.g_matrix_size c then 1 else 0) ∧
    (generation_run schedule fuel st).g_cellsUpdated = st.g_matrix_size * st.g_matrix_size ∧
    (generation_run schedule fuel st).finished_signals = st.finished_signals + 1 ∧
    (∀ f, (generation_run schedule f st).finished_signals
      = st.finished_signals
        + if (generation_run schedule f st).g_cellsUpdated
            = st.g_matrix_size * st.g_matrix_size then 1 else 0) ∧
    (∀ f, (generation_run schedule f st).g_cellsUpdated
        = st.g_matrix_size * st.g_matrix_size →
      (generation_run schedule f st).pending = []) ∧
    (∀ i j, 0 ≤ i → i < st.g_matrix_size → 0 ≤ j → j < st.g_matrix_size →
      (generation_run schedule fuel st).g_workspace_matrix i j
        = (Gol.update_matrix (to_gol st)).g_matrix i j) ∧
    (generation_run schedule fuel st).g_matrix
      = (Gol.update_matrix (to_gol st)).g_workspace_matrix ∧
    (generation_run schedule fuel st).g_matrix_size
      = (Gol.update_matrix (to_gol st)).g_matrix_size ∧
    (generation_run schedule fuel st).main_thread = .before_wait := by
  obtain ⟨hstart, hwork⟩ := generation_start_inv st k hn hsq hpending hcells
  have hmain : (generation_start st).main_thread = .before_wait := rfl
  have hinv : ∀ f, generation_inv st.g_matrix st.g_matrix_size st.finished_signals
      (generation_run schedule f st) :=
    fun f => (run_workers_inv _ _ _ schedule f 0 _ hstart hmain).1
  have hnn : st.g_matrix_size * st.g_matrix_size = 4 ^ k := by
    rw [hn, ← mul_pow]
    norm_num
  have hfuel2 : ((2 * 4 ^ k : Nat) : Int) ≤ (fuel : Int) := by exact_mod_cast hfuel
  push_cast at hfuel2
  have hpos : (0 : Int) < 4 ^ k := by positivity
  have hempty : (generation_run schedule fuel st).pending = [] := by
    apply (run_workers_inv _ _ _ schedule fuel 0 _ hstart hmain).2.2
    rw [hwork, hnn]
    omega
  have hend := hinv fuel
  have harea := hend.area
  rw [hempty] at harea
  have hcount : (generation_run schedule fuel st).g_cellsUpdated
      = st.g_matrix_size * st.g_matrix_size := by
    have : pending_area [] = 0 := rfl
    rw [this] at harea
    omega
  have hcover : ∀ c, (generation_run schedule fuel st).cells_updated.count c
      = if in_grid st.g_matrix_size c then 1 else 0 := by
    intro c
    have := hend.cover c
    rw [hempty] at this
    simpa using this
  obtain ⟨g1, g2, g3⟩ := Gol.update_matrix_effect (to_gol st)
  refine ⟨hempty, hcover, hcount, ?_, ?_, ?_, ?_, ?_, ?_,
    (run_workers_inv _ _ _ schedule fuel 0 _ hstart hmain).2.1⟩
  · rw [hend.signals, if_pos hcount]
  · exact fun f => (hinv f).signals
  · intro f hf
    apply pending_area_zero _ (hinv f).squares
    have := (hinv f).area
    omega
  · intro i j hi0 hi1 hj0 hj1
    have hmem : (i, j) ∈ (generation_run schedule fuel st).cells_updated := by
      apply List.count_pos_iff.1
      rw [hcover (i, j), if_pos ⟨hi0, hi1, hj0, hj1⟩]
      exact Nat.one_pos
    rw [g3 i j]
    show (generation_run schedule fuel st).g_workspace_matrix i j
      = if 0 ≤ i ∧ i < st.g_matrix_size ∧ 0 ≤ j ∧ j < st.g_matrix_size
        then Gol.next_cell st.g_matrix st.g_matrix_size i j
        else st.g_workspace_matrix i j
    rw [if_pos ⟨hi0, hi1, hj0, hj1⟩]
    exact hend.cells (i, j) hmem
  · rw [g2]
    exact hend.matrix
  · rw [g1]
    exact hend.size

theorem workers_cover_grid_witness :
    (of_gol Gol.blinker).g_matrix_size = 2 ^ 2 ∧
    (generation_run (fun t => t) 32 (of_gol Gol.blinker)).pending = [] ∧
    (generation_run (fun t => t) 32 (of_gol Gol.blinker)).g_cellsUpdated = 16 ∧
    (generation_run (fun t => t) 32 (of_gol Gol.blinker)).finished_signals = 1 ∧
    (generation_run (fun t => t) 32 (of_gol Gol.blinker)).main_thread = .before_wait := by
  obtain ⟨h1, _, h3, h4, _, _, _, _, _, h10⟩ :=
    workers_cover_grid (fun t => t) (of_gol Gol.blinker) 2 (by decide) (by decide) rfl rfl
      32 (by decide)
  exact ⟨by decide, h1, h3, h4, h10⟩

/-! ## The wait of the main thread in `update_matrix` of `gol2.c` -/

theorem run_steps_add (schedule : Nat → Action) (a b t : Nat) (st : State) :
    run_steps schedule (a + b) t st
      = run_steps schedule b (t + a) (run_steps schedule a t st) := by
  induction a generalizing t st with
  | zero =>
    rw [Nat.zero_add]
    rfl
  | succ a ih =>
    rw [Nat.add_right_comm]
    show run_steps schedule (a + b) (t + 1) (step (schedule t) st)
      = run_steps schedule b (t + (a + 1)) (run_steps schedule a (t + 1) (step (schedule t) st))
    rw [ih (t + 1), Nat.add_assoc t 1 a, Nat.add_comm 1 a]

/-- A main thread blocked in `pthread_cond_wait` with nothing pending stays blocked when
no wakeup comes: the workers have nothing to process and send no signal. -/
theorem run_steps_blocked (schedule : Nat → Action) (fuel t : Nat) (st : State)
    (hmain : st.main_thread = .waiting) (hpending : st.pending = [])
    (hsched : ∀ u, t ≤ u → schedule u ≠ .spurious_wakeup) :
    run_steps schedule fuel t st = st := by
  induction fuel generalizing t with
  | zero => rfl
  | succ f ih =>
    have hstep : step (schedule t) st = st := by
      unfold step
      rw [if_neg (by rw [hmain]; decide)]
      have hne := hsched t (Nat.le_refl t)
      cases hs : schedule t with
      | main =>
        show main_step st = st
        unfold main_step
        rw [hmain]
      | worker k0 =>
        show worker_step k0 st = st
        unfold worker_step
        rw [hpending]
        rfl
      | spurious_wakeup => exact absurd hs hne
    show run_steps schedule f (t + 1) (step (schedule t) st) = st
    rw [hstep]
    exact ih (t + 1) (fun u hu => hsched u (by omega))

/-- C29 fails on the code: on a 2 × 2 matrix, when the workers process the five tasks
before the main thread calls `pthread_cond_wait`, every cell is updated once,
`g_cellsUpdated` reaches 4 and the signal on `g_finishedProcessing` is sent once, but to
no waiting thread (it is sent without `g_finishedLock`, and the wait is not guarded by a
test of `g_cellsUpdated`); the main thread then blocks for ever and `update_matrix` never
returns a generation.  When the main thread waits first, `update_matrix` returns the
generation of `gol.c`; when the wait returns without a signal, the matrices are swapped
before any cell is updated. -/
theorem lost_signal_never_returns :
    (run_steps workers_first 5 0 (generation_start (of_gol Gol.corner))).pending = [] ∧
    (run_steps workers_first 5 0 (generation_start (of_gol Gol.corner))).cells_updated
      = [(0, 0), (1, 0), (0, 1), (1, 1)] ∧
    (run_steps workers_first 5 0 (generation_start (of_gol Gol.corner))).g_cellsUpdated
      = 4 ∧
    (run_steps workers_first 5 0 (generation_start (of_gol Gol.corner))).finished_signals
      = 1 ∧
    (run_steps workers_first 5 0 (generation_start (of_gol Gol.corner))).main_thread
      = .before_wait ∧
    (∀ fuel, update_matrix workers_first fuel (of_gol Gol.corner) = none) ∧
    (∃ st, update_matrix main_waits_first 7 (of_gol Gol.corner) = some st ∧
      st.g_matrix 0 0 = (Gol.update_matrix Gol.corner).g_matrix 0 0 ∧
      st.g_matrix 0 1 = (Gol.update_matrix Gol.corner).g_matrix 0 1 ∧
      st.g_matrix 1 0 = (Gol.update_matrix Gol.corner).g_matrix 1 0 ∧
      st.g_matrix 1 1 = (Gol.update_matrix Gol.corner).g_matrix 1 1) ∧
    (∃ st, update_matrix early_wakeup 3 (of_gol Gol.corner) = some st ∧
      st.cells_updated = [] ∧ st.g_matrix 1 1 = 0 ∧
      (Gol.update_matrix Gol.corner).g_matrix 1 1 = 1) := by
  refine ⟨rfl, rfl, rfl, rfl, rfl, ?_, ⟨_, rfl, rfl, rfl, rfl, rfl⟩, ⟨_, rfl, rfl, rfl, rfl⟩⟩
  intro fuel
  have hnot : (run_steps workers_first fuel 0
      (generation_start (of_gol Gol.corner))).main_thread ≠ .returned := by
    rcases Nat.lt_or_ge fuel 6 with hlt | hge
    · interval_cases fuel <;> decide
    · obtain ⟨m, rfl⟩ : ∃ m, fuel = 6 + m := ⟨fuel - 6, by omega⟩
      rw [run_steps_add, run_steps_blocked workers_first m (0 + 6) _ rfl rfl]
      · decide
      · intro u hu
        unfold workers_first
        rw [if_neg (by omega)]
        decide
  show (if (run_steps workers_first fuel 0
      (generation_start (of_gol Gol.corner))).main_thread = .returned then _ else none)
    = none
  rw [if_neg hnot]

end Gol2
